import Mathlib

/-!
# libnetwork: the network entity (`network.go`)

A shallow embedding of `network.go`: the persisted network entity with its JSON
serialisation, the deep copy used by the store layer, the endpoint-creation saga,
the network-deletion protocol, the network options, IPAM allocation and the
service records.

Conventions of the embedding.

* Go values are embedded by value.  A slice of pointers (`[]*IpamConf`,
  `[]*IpamInfo`) is a `List` of records: the pointers are taken to be non-nil,
  as `CopyTo`, `ipamAllocate` and `ipamRelease` dereference them unchecked.
* A Go `map[string]T` is an association list in insertion order; `mapIndex`
  reads it and `mapAssign` writes it.  A possibly-nil map is an `Option`.
* `uint64` fields are natural numbers below `2 ^ 64`; `++` and `--` reduce
  modulo `2 ^ 64`.
* A `float64` is named by its value: a rational number for a finite one, beside
  the infinities and NaN (`Float64`).
* A Go string is a Lean `String` (so always well-formed Unicode).
* Code outside `network.go` (store, drivers, IPAM drivers, the controller, the
  endpoint's own methods, `encoding/json`) is reached through the fields of
  `Codec` and `Env`.  A call that can act on a collaborator is recorded in the
  `trace` of the `World`, and its answer may depend on the calls made before.
* The mutex is not modelled: every operation runs alone.
-/

namespace Libnetwork

/-! ## Errors -/

/-- An error value produced by a collaborator (driver, store, IPAM driver).
`forbidden` tells whether its dynamic type implements `types.ForbiddenError`. -/
structure ExtError where
  code : Nat
  forbidden : Bool
  deriving DecidableEq, Repr

/-- The error values that `network.go` returns or passes on.  Formatted errors
keep their format string and arguments. -/
inductive Error where
  | ErrInvalidName (name : String)
  | ErrNoSuchEndpoint (name : String)
  | ErrInvalidID (id : String)
  | UnknownNetworkError (name id : String)
  | ActiveEndpointsError (name id : String)
  | ForbiddenErrorf (format : String) (args : List String)
  | InternalErrorf (format : String) (args : List String)
  | InternalErrorfErr (format : String) (args : List String) (cause : Error)
  | BadRequestErrorf (format : String) (args : List String)
  | BadRequestErrorfErr (format : String) (args : List String) (cause : Error)
  | NotFoundErrorf (format : String) (args : List String)
  | Errorf (format : String) (cause : Error)
  | ErrKeyModified
  | external (e : ExtError)
  | json (msg : String)
  | panic (msg : String)
  deriving DecidableEq, Repr

/-! ## Go values and JSON documents -/

/-- A `float64`.  A finite value is named by the rational number it is; zero
and negative zero are one value here, as they are for `==`.  The rationals that
name a `float64` are those that `roundF64` leaves alone. -/
inductive Float64 where
  | finite (q : ℚ)
  | inf (neg : Bool)
  | nan
  deriving DecidableEq

/-- A value held in a Go `interface{}`, as far as `network.go` stores or reads
one: `nil`, a `bool`, a `uint64`, a `float64`, a `string`, a non-nil
`[]interface{}`, a non-nil `map[string]interface{}`, a non-nil
`map[string]string`, and a channel, which stands for the values of a type
`encoding/json` refuses to encode. -/
inductive GoVal where
  | nil
  | bool (b : Bool)
  | uint64 (n : Nat)
  | float64 (f : Float64)
  | str (s : String)
  | slice (xs : List GoVal)
  | map (kvs : List (String × GoVal))
  | strMap (kvs : List (String × String))
  | chan

/-- A JSON document.  A number is named by the value of its literal. -/
inductive Json where
  | null
  | bool (b : Bool)
  | num (q : ℚ)
  | str (s : String)
  | arr (xs : List Json)
  | obj (kvs : List (String × Json))

/-- Read of a Go map, `m[k]`: the entry written last under `k`, if any. -/
def mapIndex {α : Type} : List (String × α) → String → Option α
  | [], _ => none
  | (k', v) :: rest, k =>
    match mapIndex rest k with
    | some w => some w
    | none => if k' = k then some v else none

/-- Write of a Go map, `m[k] = v`. -/
def mapAssign {α : Type} (m : List (String × α)) (k : String) (v : α) : List (String × α) :=
  m.filter (fun kv => decide (kv.1 ≠ k)) ++ [(k, v)]

/-- The integer `⌊log₂ n⌋` for a positive `n`.  The first argument bounds the
recursion and is given as `n` itself. -/
def log2Fuel : Nat → Nat → Nat
  | 0, _ => 0
  | fuel + 1, n => if n < 2 then 0 else log2Fuel fuel (n / 2) + 1

/-- The integer `⌊log₂ (a / b)⌋` for positive `a` and `b`. -/
def floorLog2 (a b : Nat) : Int :=
  let c : Int := (log2Fuel a a : Int) - (log2Fuel b b : Int)
  if b * 2 ^ c.toNat ≤ a * 2 ^ (-c).toNat then c else c - 1

/-- The `float64` nearest to `a / b`, for positive `a` and `b`, ties to even, as
a mantissa `m` and a binary exponent `e`: the value is `m * 2 ^ e`, with `e` the
exponent of the last mantissa bit, `-1074` for the subnormal numbers. -/
def roundParts (a b : Nat) : Nat × Int :=
  let e0 : Int := floorLog2 a b - 52
  let e : Int := if e0 < -1074 then -1074 else e0
  let N := a * 2 ^ (-e).toNat
  let D := b * 2 ^ e.toNat
  let m := N / D
  let r := N % D
  (if 2 * r < D then m else if D < 2 * r then m + 1 else if m % 2 = 0 then m else m + 1, e)

/-- The `float64` nearest to the number `q`, ties to even, as `strconv.ParseFloat`
returns it for a literal of value `q`.  From `2 ^ 1024 - 2 ^ 970` on the result
is an infinity; `json.Unmarshal` reports an error for such a literal, and
`json.Marshal` writes none. -/
def roundF64 (q : ℚ) : Float64 :=
  if q = 0 then .finite 0
  else
    let p := roundParts q.num.natAbs q.den
    if 972 ≤ p.2 ∨ (p.2 = 971 ∧ 2 ^ 53 ≤ p.1) then .inf (decide (q < 0))
    else .finite ((if q < 0 then -1 else 1) * (p.1 : ℚ) * 2 ^ p.2.toNat / 2 ^ (-p.2).toNat)

/-! ## Data model -/

/-- The Go type `net.IP`, a byte slice. -/
abbrev IP := List Nat

/-- The Go type `net.IPNet`. -/
structure IPNet where
  IP : IP
  Mask : List Nat
  deriving DecidableEq, Repr

/-- The `driverapi.IPAMData` record, with the fields `IpamInfo.CopyTo` copies. -/
structure IPAMData where
  AddressSpace : String
  Pool : Option IPNet
  Gateway : Option IPNet
  AuxAddresses : Option (List (String × IPNet))
  deriving DecidableEq, Repr

/-- The `IpamConf` struct. -/
structure IpamConf where
  PreferredPool : String
  SubPool : String
  Options : Option (List (String × String))
  IsV6 : Bool
  Gateway : String
  AuxAddresses : Option (List (String × String))
  deriving DecidableEq, Repr

/-- The `IpamInfo` struct; `IPAMData` is the embedded `driverapi.IPAMData`. -/
structure IpamInfo where
  PoolID : String
  Meta : Option (List (String × String))
  IPAMData : IPAMData
  deriving DecidableEq, Repr

/-- The `network` struct.  `ctrlr` names the controller, `drvOnce` names the
`sync.Once` the pointer refers to (two networks share a latch exactly when they
hold the same name).  The mutex and `stopWatchCh` are left out. -/
structure network where
  ctrlr : Nat
  name : String
  networkType : String
  id : String
  ipamType : String
  addrSpace : String
  ipamV4Config : List IpamConf
  ipamV6Config : List IpamConf
  ipamV4Info : List IpamInfo
  ipamV6Info : List IpamInfo
  enableIPv6 : Bool
  endpointCnt : Nat
  generic : Option (List (String × GoVal))
  dbIndex : Nat
  svcRecords : List (String × IP)
  dbExists : Bool
  persist : Bool
  scope : String
  drvOnce : Nat

/-- The zero value `IPAMData{}`. -/
def IPAMData.zero : IPAMData :=
  { AddressSpace := "", Pool := none, Gateway := none, AuxAddresses := none }

/-- The zero value `IpamInfo{}`. -/
def IpamInfo.zero : IpamInfo :=
  { PoolID := "", Meta := none, IPAMData := IPAMData.zero }

/-- The zero value `IpamConf{}`. -/
def IpamConf.zero : IpamConf :=
  { PreferredPool := "", SubPool := "", Options := none, IsV6 := false, Gateway := "",
    AuxAddresses := none }

/-- The association list represents a Go map: no key occurs twice. -/
def keysNodup {α : Type} (m : List (String × α)) : Prop :=
  (m.map Prod.fst).Nodup

/-- The maps of an `IpamInfo` are represented without repeated keys. -/
def IpamInfo.keysNodup (i : IpamInfo) : Prop :=
  Libnetwork.keysNodup (i.Meta.getD []) ∧ Libnetwork.keysNodup (i.IPAMData.AuxAddresses.getD [])

/-! ## The JSON library and the serialisation of the entity -/

/-- What `network.go` uses of code it does not contain when it serialises:
the text form of documents (`render` writes one, `parse` reads one), the value
of the literal that `strconv` writes for a finite `float64` (`formatFloat`,
from the value of the `float64`), the `MarshalJSON`/`UnmarshalJSON` pair of
`driverapi.IPAMData` (text out, text in onto an existing value), and the result
of converting to `uint64` a `float64` whose integer part is no `uint64`, which
Go leaves to the implementation. -/
structure Codec where
  render : Json → String
  parse : String → Option Json
  formatFloat : ℚ → ℚ
  marshalIPAMData : IPAMData → Except Error String
  unmarshalIPAMData : String → IPAMData → Except Error IPAMData
  uint64OfOther : Float64 → Nat

/-- The conversion `uint64(f)`: the fraction is dropped. -/
def Codec.toUint64 (L : Codec) (f : Float64) : Nat :=
  match f with
  | .finite q =>
    if 0 ≤ q.num then
      if q.num.toNat / q.den < 2 ^ 64 then q.num.toNat / q.den
      else L.uint64OfOther f % 2 ^ 64
    else if q.num.natAbs < q.den then 0
    else L.uint64OfOther f % 2 ^ 64
  | _ => L.uint64OfOther f % 2 ^ 64

mutual
/-- What `json.Marshal` writes for an interface value. -/
def GoVal.marshal (L : Codec) : GoVal → Except Error Json
  | .nil => .ok .null
  | .bool b => .ok (.bool b)
  | .uint64 n => .ok (.num n)
  | .float64 (.finite q) => .ok (.num (L.formatFloat q))
  | .float64 _ => .error (.json "json: unsupported value")
  | .str s => .ok (.str s)
  | .slice xs =>
    match GoVal.marshalList L xs with
    | .ok js => .ok (.arr js)
    | .error e => .error e
  | .map kvs =>
    match GoVal.marshalFields L kvs with
    | .ok js => .ok (.obj js)
    | .error e => .error e
  | .strMap kvs => .ok (.obj (kvs.map (fun kv => (kv.1, Json.str kv.2))))
  | .chan => .error (.json "json: unsupported type")
/-- The elements of a slice, encoded in order. -/
def GoVal.marshalList (L : Codec) : List GoVal → Except Error (List Json)
  | [] => .ok []
  | x :: xs =>
    match GoVal.marshal L x with
    | .error e => .error e
    | .ok j =>
      match GoVal.marshalList L xs with
      | .error e => .error e
      | .ok js => .ok (j :: js)
/-- The entries of a map, encoded one by one. -/
def GoVal.marshalFields (L : Codec) :
    List (String × GoVal) → Except Error (List (String × Json))
  | [] => .ok []
  | (k, x) :: xs =>
    match GoVal.marshal L x with
    | .error e => .error e
    | .ok j =>
      match GoVal.marshalFields L xs with
      | .error e => .error e
      | .ok js => .ok ((k, j) :: js)
end

mutual
/-- What `json.Unmarshal` stores into an `interface{}` for a document: `nil`,
`bool`, `float64`, `string`, `[]interface{}` or `map[string]interface{}`. -/
def Json.toIface : Json → GoVal
  | .null => .nil
  | .bool b => .bool b
  | .num q => .float64 (roundF64 q)
  | .str s => .str s
  | .arr xs => .slice (Json.toIfaceList xs)
  | .obj kvs => .map (Json.toIfaceFields kvs)
/-- The elements of an array, decoded in order. -/
def Json.toIfaceList : List Json → List GoVal
  | [] => []
  | x :: xs => Json.toIface x :: Json.toIfaceList xs
/-- The members of an object, decoded in order. -/
def Json.toIfaceFields : List (String × Json) → List (String × GoVal)
  | [] => []
  | (k, x) :: xs => (k, Json.toIface x) :: Json.toIfaceFields xs
end

mutual
/-- The interface values that `json.Unmarshal` itself produces, those that come
back unchanged from an encode and decode; of the `float64` values, the finite
ones. -/
def GoVal.jsonNative : GoVal → Bool
  | .nil => true
  | .bool _ => true
  | .uint64 _ => false
  | .float64 (.finite q) => decide (roundF64 q = .finite q)
  | .float64 _ => false
  | .str _ => true
  | .slice xs => GoVal.jsonNativeList xs
  | .map kvs => GoVal.jsonNativeFields kvs
  | .strMap _ => false
  | .chan => false
/-- Every element of the slice is `jsonNative`. -/
def GoVal.jsonNativeList : List GoVal → Bool
  | [] => true
  | x :: xs => GoVal.jsonNative x && GoVal.jsonNativeList xs
/-- Every value of the map is `jsonNative`. -/
def GoVal.jsonNativeFields : List (String × GoVal) → Bool
  | [] => true
  | (_, x) :: xs => GoVal.jsonNative x && GoVal.jsonNativeFields xs
end

/-- The interface value that comes back when `v` is encoded by `json.Marshal`
and the text decoded into an `interface{}`. -/
def GoVal.recode (L : Codec) (v : GoVal) : GoVal :=
  match GoVal.marshal L v with
  | .ok j => j.toIface
  | .error _ => .nil

/-- The map that comes back when `g` is encoded and decoded. -/
def recodeFields (L : Codec) (g : List (String × GoVal)) : List (String × GoVal) :=
  g.map (fun kv => (kv.1, kv.2.recode L))


/-- The document `json.Marshal` writes for a `map[string]string` that may be nil. -/
def encodeStrMap : Option (List (String × String)) → Json
  | none => .null
  | some kvs => .obj (kvs.map (fun kv => (kv.1, Json.str kv.2)))

/-- Decoding of the members of an object into a `map[string]string`. -/
def decodeStrFields : List (String × Json) → Except Error (List (String × String))
  | [] => .ok []
  | (k, .str s) :: rest =>
    match decodeStrFields rest with
    | .ok kvs => .ok ((k, s) :: kvs)
    | .error e => .error e
  | (k, .null) :: rest =>
    match decodeStrFields rest with
    | .ok kvs => .ok ((k, "") :: kvs)
    | .error e => .error e
  | _ :: _ => .error (.json "json: cannot unmarshal into Go value of type string")

/-- The effect of `json.Unmarshal` of a document into a `map[string]string`
variable holding `cur`: `null` makes it nil, an object with string values
replaces it (the variables decoded here are nil beforehand). -/
def decodeStrMap (cur : Option (List (String × String))) : Json →
    Except Error (Option (List (String × String)))
  | .null => .ok none
  | .obj kvs =>
    match decodeStrFields kvs with
    | .ok m => .ok (some ((cur.getD []) ++ m))
    | .error e => .error e
  | _ => .error (.json "json: cannot unmarshal into Go value of type map[string]string")

/-- Decoding of one member into a `string` field holding `cur`. -/
def decodeStrField (cur : String) : Option Json → Except Error String
  | none => .ok cur
  | some .null => .ok cur
  | some (.str s) => .ok s
  | some _ => .error (.json "json: cannot unmarshal into Go value of type string")

/-- Decoding of one member into a `bool` field holding `cur`. -/
def decodeBoolField (cur : Bool) : Option Json → Except Error Bool
  | none => .ok cur
  | some .null => .ok cur
  | some (.bool b) => .ok b
  | some _ => .error (.json "json: cannot unmarshal into Go value of type bool")

/-- Decoding of one member into a `map[string]string` field holding `cur`. -/
def decodeStrMapField (cur : Option (List (String × String))) : Option Json →
    Except Error (Option (List (String × String)))
  | none => .ok cur
  | some j => decodeStrMap cur j

/-- The document `json.Marshal` writes for an `IpamConf` (the struct has no
`MarshalJSON`; the library writes its exported fields under their names). -/
def IpamConf.toJson (c : IpamConf) : Json :=
  .obj [("PreferredPool", .str c.PreferredPool), ("SubPool", .str c.SubPool),
        ("Options", encodeStrMap c.Options), ("IsV6", .bool c.IsV6),
        ("Gateway", .str c.Gateway), ("AuxAddresses", encodeStrMap c.AuxAddresses)]

/-- The value `json.Unmarshal` builds for an element of a `[]*IpamConf`: a fresh
`IpamConf{}` whose fields are filled from the members of the same name.  A
`null` element (a nil pointer) is outside the model. -/
def IpamConf.fromJson : Json → Except Error IpamConf
  | .obj kvs =>
    match decodeStrField "" (mapIndex kvs "PreferredPool"),
          decodeStrField "" (mapIndex kvs "SubPool"),
          decodeStrMapField none (mapIndex kvs "Options"),
          decodeBoolField false (mapIndex kvs "IsV6"),
          decodeStrField "" (mapIndex kvs "Gateway"),
          decodeStrMapField none (mapIndex kvs "AuxAddresses") with
    | .ok pp, .ok sp, .ok op, .ok v6, .ok gw, .ok aux =>
      .ok { PreferredPool := pp, SubPool := sp, Options := op, IsV6 := v6, Gateway := gw,
            AuxAddresses := aux }
    | .error e, _, _, _, _, _ => .error e
    | _, .error e, _, _, _, _ => .error e
    | _, _, .error e, _, _, _ => .error e
    | _, _, _, .error e, _, _ => .error e
    | _, _, _, _, .error e, _ => .error e
    | _, _, _, _, _, .error e => .error e
  | _ => .error (.json "json: cannot unmarshal into Go value of type IpamConf")

/-- The elements of an array decoded one by one with `f`. -/
def decodeElems {α : Type} (f : Json → Except Error α) : List Json → Except Error (List α)
  | [] => .ok []
  | j :: js =>
    match f j with
    | .error e => .error e
    | .ok a =>
      match decodeElems f js with
      | .error e => .error e
      | .ok as => .ok (a :: as)

/-- The effect of `json.Unmarshal` of a document into a slice variable holding
`cur`: `null` makes it nil, an array replaces it element by element. -/
def decodeSlice {α : Type} (f : Json → Except Error α) (_cur : List α) : Json →
    Except Error (List α)
  | .null => .ok []
  | .arr js => decodeElems f js
  | _ => .error (.json "json: cannot unmarshal into Go value of slice type")

/-- The method `IpamInfo.MarshalJSON`: the document whose text it returns. -/
def IpamInfo.MarshalJSON (L : Codec) (i : IpamInfo) : Except Error Json :=
  let m : List (String × GoVal) := mapAssign [] "PoolID" (.str i.PoolID)
  match L.marshalIPAMData i.IPAMData with
  | .error err => .error err
  | .ok v =>
    let m := mapAssign m "IPAMData" (.str v)
    let m := match i.Meta with
      | some mt => mapAssign m "Meta" (.strMap mt)
      | none => m
    GoVal.marshal L (.map m)

/-- The method `IpamInfo.UnmarshalJSON`, run on a fresh `IpamInfo{}` with the
document an array element holds.  A failed type assertion is a panic. -/
def IpamInfo.UnmarshalJSON (L : Codec) (i : IpamInfo) (data : Json) : Except Error IpamInfo :=
  match data with
  | .obj kvs =>
    let m := Json.toIfaceFields kvs
    match mapIndex m "PoolID" with
    | some (.str poolID) =>
      let i := { i with PoolID := poolID }
      let r : Except Error IpamInfo :=
        match mapIndex m "Meta" with
        | some v =>
          match GoVal.marshal L v with
          | .error _ =>
            -- the error of json.Marshal is dropped; b is empty
            match L.parse "" with
            | none => .error (.json "unexpected end of JSON input")
            | some j =>
              match decodeStrMap i.Meta j with
              | .error err => .error err
              | .ok mt => .ok { i with Meta := mt }
          | .ok doc =>
            match L.parse (L.render doc) with
            | none => .error (.json "invalid JSON text")
            | some j =>
              match decodeStrMap i.Meta j with
              | .error err => .error err
              | .ok mt => .ok { i with Meta := mt }
        | none => .ok i
      match r with
      | .error err => .error err
      | .ok i =>
        match mapIndex m "IPAMData" with
        | some (.str s) =>
          match L.unmarshalIPAMData s i.IPAMData with
          | .error err => .error err
          | .ok d => .ok { i with IPAMData := d }
        | some _ => .error (.panic "interface conversion: interface is not string")
        | none => .ok i
    | _ => .error (.panic "interface conversion: interface is not string")
  | .null => .error (.panic "interface conversion: interface is nil, not string")
  | _ => .error (.json "json: cannot unmarshal into Go value of type map[string]interface")

/-- The array `json.Marshal` writes for a `[]*IpamInfo`, each element through
`IpamInfo.MarshalJSON`. -/
def marshalInfos (L : Codec) : List IpamInfo → Except Error (List Json)
  | [] => .ok []
  | i :: rest =>
    match IpamInfo.MarshalJSON L i with
    | .error e => .error e
    | .ok j =>
      match marshalInfos L rest with
      | .error e => .error e
      | .ok js => .ok (j :: js)

/-- The method `network.MarshalJSON`: the document whose text it returns. -/
def network.MarshalJSON (L : Codec) (n : network) : Except Error Json :=
  let netMap : List (String × GoVal) := []
  let netMap := mapAssign netMap "name" (.str n.name)
  let netMap := mapAssign netMap "id" (.str n.id)
  let netMap := mapAssign netMap "networkType" (.str n.networkType)
  let netMap := mapAssign netMap "ipamType" (.str n.ipamType)
  let netMap := mapAssign netMap "addrSpace" (.str n.addrSpace)
  let netMap := mapAssign netMap "endpointCnt" (.uint64 n.endpointCnt)
  let netMap := mapAssign netMap "enableIPv6" (.bool n.enableIPv6)
  let netMap := match n.generic with
    | some g => mapAssign netMap "generic" (.map g)
    | none => netMap
  let netMap := mapAssign netMap "persist" (.bool n.persist)
  let netMap := if 0 < n.ipamV4Config.length
    then mapAssign netMap "ipamV4Config"
      (.str (L.render (.arr (n.ipamV4Config.map IpamConf.toJson))))
    else netMap
  match (if 0 < n.ipamV4Info.length then
      match marshalInfos L n.ipamV4Info with
      | .error err => Except.error err
      | .ok iis => .ok (mapAssign netMap "ipamV4Info" (.str (L.render (.arr iis))))
    else .ok netMap) with
  | .error err => .error err
  | .ok netMap =>
    let netMap := if 0 < n.ipamV6Config.length
      then mapAssign netMap "ipamV6Config"
        (.str (L.render (.arr (n.ipamV6Config.map IpamConf.toJson))))
      else netMap
    match (if 0 < n.ipamV6Info.length then
        match marshalInfos L n.ipamV6Info with
        | .error err => Except.error err
        | .ok iis => .ok (mapAssign netMap "ipamV6Info" (.str (L.render (.arr iis))))
      else .ok netMap) with
    | .error err => .error err
    | .ok netMap => GoVal.marshal L (.map netMap)

/-- The step `json.Unmarshal([]byte(v.(string)), &dst)` of `network.UnmarshalJSON`
for one of the four IPAM lists: absent member, nothing; a member that is not a
string, panic; otherwise the text is parsed and decoded into the list. -/
def unmarshalNested {α : Type} (L : Codec) (f : Json → Except Error α) (cur : List α) :
    Option GoVal → Except Error (List α)
  | none => .ok cur
  | some (.str s) =>
    match L.parse s with
    | none => .error (.json "invalid JSON text")
    | some j => decodeSlice f cur j
  | some _ => .error (.panic "interface conversion: interface is not string")

/-- The method `network.UnmarshalJSON`.  A failed type assertion is a panic. -/
def network.UnmarshalJSON (L : Codec) (n : network) (b : String) : Except Error network :=
  match L.parse b with
  | none => .error (.json "invalid JSON text")
  | some (.obj kvs) =>
    let netMap := Json.toIfaceFields kvs
    match mapIndex netMap "name", mapIndex netMap "id", mapIndex netMap "ipamType",
          mapIndex netMap "addrSpace", mapIndex netMap "networkType",
          mapIndex netMap "endpointCnt", mapIndex netMap "enableIPv6" with
    | some (.str name), some (.str id), some (.str ipamType), some (.str addrSpace),
      some (.str networkType), some (.float64 cnt), some (.bool v6) =>
      let n := { n with name := name, id := id, ipamType := ipamType, addrSpace := addrSpace,
                        networkType := networkType, endpointCnt := L.toUint64 cnt,
                        enableIPv6 := v6 }
      let rg : Except Error network :=
        match mapIndex netMap "generic" with
        | none => .ok n
        | some (.map g) => .ok { n with generic := some g }
        | some _ => .error (.panic "interface conversion: interface is not map")
      match rg with
      | .error err => .error err
      | .ok n =>
        let rp : Except Error network :=
          match mapIndex netMap "persist" with
          | none => .ok n
          | some (.bool p) => .ok { n with persist := p }
          | some _ => .error (.panic "interface conversion: interface is not bool")
        match rp with
        | .error err => .error err
        | .ok n =>
          match unmarshalNested L IpamConf.fromJson n.ipamV4Config
              (mapIndex netMap "ipamV4Config") with
          | .error err => .error err
          | .ok v4c =>
            let n := { n with ipamV4Config := v4c }
            match unmarshalNested L (IpamInfo.UnmarshalJSON L IpamInfo.zero) n.ipamV4Info
                (mapIndex netMap "ipamV4Info") with
            | .error err => .error err
            | .ok v4i =>
              let n := { n with ipamV4Info := v4i }
              match unmarshalNested L IpamConf.fromJson n.ipamV6Config
                  (mapIndex netMap "ipamV6Config") with
              | .error err => .error err
              | .ok v6c =>
                let n := { n with ipamV6Config := v6c }
                match unmarshalNested L (IpamInfo.UnmarshalJSON L IpamInfo.zero) n.ipamV6Info
                    (mapIndex netMap "ipamV6Info") with
                | .error err => .error err
                | .ok v6i => .ok { n with ipamV6Info := v6i }
    | _, _, _, _, _, _, _ => .error (.panic "interface conversion: wrong dynamic type")
  | some _ => .error (.panic "interface conversion: interface is nil, not string")

/-- The method `network.Value`: the text of `MarshalJSON`, or nil on error. -/
def network.Value (L : Codec) (n : network) : String :=
  match network.MarshalJSON L n with
  | .error _ => ""
  | .ok doc => L.render doc

/-- The method `network.SetValue`. -/
def network.SetValue (L : Codec) (n : network) (value : String) : Except Error network :=
  network.UnmarshalJSON L n value

/-- The network that `SetValue` is to leave in a blank instance when given
`n.Value()`: the persisted fields of `n`, the endpoint count through `float64`,
the generic options through their encoding. -/
def network.reread (L : Codec) (n : network) (once : Nat) : network :=
  { ctrlr := n.ctrlr, name := n.name, networkType := n.networkType, id := n.id,
    ipamType := n.ipamType, addrSpace := n.addrSpace, ipamV4Config := n.ipamV4Config,
    ipamV6Config := n.ipamV6Config, ipamV4Info := n.ipamV4Info, ipamV6Info := n.ipamV6Info,
    enableIPv6 := n.enableIPv6, endpointCnt := L.toUint64 (roundF64 n.endpointCnt),
    generic := n.generic.map (recodeFields L), dbIndex := 0, svcRecords := [], dbExists := false,
    persist := n.persist, scope := "", drvOnce := once }

/-- The method `network.SetIndex`. -/
def network.SetIndex (n : network) (index : Nat) : network :=
  { n with dbIndex := index, dbExists := true }

/-- The method `network.Skip`. -/
def network.Skip (n : network) : Bool := !n.persist

/-- The method `network.New`: a blank network of the same controller; `once`
names the `sync.Once` it allocates. -/
def network.New (n : network) (once : Nat) : network :=
  { ctrlr := n.ctrlr, name := "", networkType := "", id := "", ipamType := "", addrSpace := "",
    ipamV4Config := [], ipamV6Config := [], ipamV4Info := [], ipamV6Info := [],
    enableIPv6 := false, endpointCnt := 0, generic := none, dbIndex := 0, svcRecords := [],
    dbExists := false, persist := false, scope := "", drvOnce := once }

/-- The function `types.GetIPNetCopy`, on a pointer that may be nil. -/
def GetIPNetCopy (from_ : Option IPNet) : Option IPNet := from_

/-- The loop body `dstI.AuxAddresses[k] = types.GetIPNetCopy(v)`; the map values
are non-nil pointers. -/
def GetIPNetCopyInto (m : List (String × IPNet)) (kv : String × IPNet) : List (String × IPNet) :=
  mapAssign m kv.1 kv.2

/-- The method `IpamInfo.CopyTo`. -/
def IpamInfo.CopyTo (i : IpamInfo) (dstI : IpamInfo) : IpamInfo :=
  let dstI := { dstI with PoolID := i.PoolID }
  let dstI : IpamInfo := match i.Meta with
    | some mt =>
      { dstI with Meta := some (mt.foldl (fun m (kv : String × String) => mapAssign m kv.1 kv.2) []) }
    | none => dstI
  let dstI := { dstI with IPAMData := { dstI.IPAMData with AddressSpace := i.IPAMData.AddressSpace } }
  let dstI := { dstI with IPAMData := { dstI.IPAMData with Pool := GetIPNetCopy i.IPAMData.Pool } }
  let dstI := { dstI with IPAMData := { dstI.IPAMData with Gateway := GetIPNetCopy i.IPAMData.Gateway } }
  match i.IPAMData.AuxAddresses with
  | some aux =>
    { dstI with IPAMData := { dstI.IPAMData with
        AuxAddresses :=
          some (aux.foldl (fun m (kv : String × IPNet) => GetIPNetCopyInto m kv) []) } }
  | none => dstI

/-- The method `network.CopyTo`. -/
def network.CopyTo (n : network) (dstN : network) : network :=
  let dstN := { dstN with name := n.name, id := n.id, networkType := n.networkType,
                          ipamType := n.ipamType, endpointCnt := n.endpointCnt,
                          enableIPv6 := n.enableIPv6, persist := n.persist,
                          dbIndex := n.dbIndex, dbExists := n.dbExists, drvOnce := n.drvOnce }
  let dstN := n.ipamV4Info.foldl
    (fun (d : network) v4info =>
      { d with ipamV4Info := d.ipamV4Info ++ [IpamInfo.CopyTo v4info IpamInfo.zero] })
    dstN
  let dstN : network := { dstN with generic := some [] }
  (n.generic.getD []).foldl
    (fun (d : network) (kv : String × GoVal) =>
      { d with generic := some (mapAssign (d.generic.getD []) kv.1 kv.2) })
    dstN

/-! ## Collaborators and effects -/

/-- The address part of `endpointInterface`: `Address()` is nil or a network. -/
structure endpointInterface where
  addr : Option IPNet

/-- The fields of `endpoint` that `network.go` reads or writes. -/
structure endpoint where
  name : String
  id : String
  network : Option network
  generic : List (String × GoVal)
  iface : endpointInterface

/-- A `datastore.KVObject` handed to the store: a network or an endpoint. -/
inductive KVObject where
  | network (n : network)
  | endpoint (ep : endpoint)

/-- The entry of the controller's driver table: the driver (named by a number)
and the data scope of its capability. -/
structure driverData where
  driver : Nat
  DataScope : String

/-- The entry of the controller's IPAM driver table, as far as
`deriveAddressSpace` reads it. -/
structure ipamData where
  defaultLocalAddressSpace : String
  defaultGlobalAddressSpace : String

/-- The struct `etchosts.Record`. -/
structure Record where
  Hosts : String
  IP : String
  deriving DecidableEq, Repr

/-- A call that leaves `network.go`, with its arguments. -/
inductive Event where
  | getEndpointsFromStore (n : network)
  | getNetworkFromStore (id : String)
  | epGetNetworkFromStore (ep : endpoint)
  | GenerateRandomID
  | assignAddress (ep : endpoint)
  | releaseAddress (ep : endpoint)
  | deleteEndpoint (ep : endpoint)
  | updateToStore (o : KVObject)
  | deleteFromStore (o : KVObject)
  | addNetwork (n : network)
  | loadDriver (networkType : String)
  | DeleteNetwork (d : Nat) (nid : String)
  | CreateEndpoint (d : Nat) (nid : String) (eid : String)
  | getIpamDriver (name : String)
  | ReleaseAddress (ipam : Nat) (poolID : String) (ip : IP)
  | ReleasePool (ipam : Nat) (poolID : String)
  | RequestPool (ipam : Nat) (addrSpace : String) (pool : String) (subPool : String)
      (options : Option (List (String × String))) (v6 : Bool)
  | RequestAddress (ipam : Nat) (poolID : String) (pref : Option IP)
  | addHostsEntries (sb : Nat) (recs : List Record)
  | deleteHostsEntries (sb : Nat) (recs : List Record)

/-- The events through which the store is written by `network.go`. -/
def Event.isStoreWrite : Event → Bool
  | .updateToStore _ => true
  | .deleteFromStore _ => true
  | _ => false

/-- The events that release an IPAM resource. -/
def Event.isIpamRelease : Event → Bool
  | .ReleaseAddress _ _ _ => true
  | .ReleasePool _ _ => true
  | _ => false

/-- What runs around `network.go`: the calls made so far, in order, and the
`sync.Once` latches that have fired. -/
structure World where
  trace : List Event
  done : List Nat

/-- Records a call. -/
def World.emit (w : World) (ev : Event) : World :=
  { w with trace := w.trace ++ [ev] }

/-- The calls `log.Warnf` and `log.Error`: log output is not part of the world. -/
def World.Warnf (w : World) (_format : String) : World := w

/-- The collaborators.  Each answers a call from the calls made before it
(`List Event`) and the arguments of the call. -/
structure Env where
  /-- The call `config.IsValidName`. -/
  IsValidName : String → Bool
  /-- The call `stringid.GenerateRandomID`. -/
  GenerateRandomID : List Event → String
  /-- The call `network.getEndpointsFromStore`: the endpoints found, and the error. -/
  getEndpointsFromStore : List Event → network → List endpoint × Option Error
  /-- The call `controller.getNetworkFromStore`. -/
  getNetworkFromStore : List Event → String → Except Error network
  /-- The call `endpoint.getNetworkFromStore`. -/
  epGetNetworkFromStore : List Event → endpoint → Except Error network
  /-- The call `endpoint.assignAddress`: the endpoint with its address on success. -/
  assignAddress : List Event → endpoint → Except Error endpoint
  /-- The call `endpoint.deleteEndpoint`. -/
  deleteEndpoint : List Event → endpoint → Option Error
  /-- The call `controller.updateToStore`: on success, the index the store hands to
  `SetIndex`, if it does. -/
  updateToStore : List Event → KVObject → Except Error (Option Nat)
  /-- The call `controller.deleteFromStore`. -/
  deleteFromStore : List Event → KVObject → Option Error
  /-- The call `controller.addNetwork`. -/
  addNetwork : List Event → network → Option Error
  /-- Lookup in the table `controller.drivers`. -/
  drivers : List Event → String → Option driverData
  /-- The call `controller.loadDriver`. -/
  loadDriver : List Event → String → Except Error driverData
  /-- The call `driverapi.Driver.DeleteNetwork`. -/
  DeleteNetwork : List Event → Nat → String → Option ExtError
  /-- The call `driverapi.Driver.CreateEndpoint`. -/
  CreateEndpoint : List Event → Nat → String → String → endpoint → Option ExtError
  /-- The call `controller.getIpamDriver`: the IPAM driver, named by a number. -/
  getIpamDriver : List Event → String → Except Error Nat
  /-- The call `ipamapi.Ipam.ReleaseAddress`. -/
  ReleaseAddress : List Event → Nat → String → IP → Option Error
  /-- The call `ipamapi.Ipam.ReleasePool`. -/
  ReleasePool : List Event → Nat → String → Option Error
  /-- The call `ipamapi.Ipam.RequestPool`: on success the pool id, the pool and
  the metadata. -/
  RequestPool : List Event → Nat → String → String → String → Option (List (String × String)) →
    Bool → Except Error (String × Option IPNet × Option (List (String × String)))
  /-- The call `ipamapi.Ipam.RequestAddress` with no options: on success the
  address, a pointer that may be nil. -/
  RequestAddress : List Event → Nat → String → Option IP → Except Error (Option IPNet)
  /-- The function `net.ParseIP`: nil for a text that is no IP address. -/
  ParseIP : String → Option IP
  /-- The function `types.ParseCIDR`: a pointer and an error. -/
  ParseCIDR : String → Except Error (Option IPNet)
  /-- The method `net.IP.String`. -/
  IPString : IP → String
  /-- The constant `netlabel.Gateway`. -/
  netlabelGateway : String
  /-- The constant `datastore.GlobalScope`. -/
  GlobalScope : String
  /-- Lookup in the table `controller.ipamDrivers`. -/
  ipamDrivers : List Event → String → Option ipamData
  /-- The call `endpoint.getSandbox`: the sandbox, named by a number, if the
  endpoint has one. -/
  getSandbox : List Event → endpoint → Option Nat

/-- Deferred calls, most recent first, run at return: each receives the value
of the variable `err` at that moment and the object it closes over. -/
def runDeferred {σ : Type} : List (Option Error → σ → World → World) → Option Error → σ →
    World → World
  | [], _, _, w => w
  | d :: rest, err, s, w => runDeferred rest err s (d err s w)

/-! ## Accessors, store bookkeeping and the endpoint count -/

/-- The method `network.Name`. -/
def network.Name (n : network) : String := n.name

/-- The method `network.ID`. -/
def network.ID (n : network) : String := n.id

/-- The method `network.Type`. -/
def network.Type (n : network) : String := n.networkType

/-- The method `network.EndpointCnt`. -/
def network.EndpointCnt (n : network) : Nat := n.endpointCnt

/-- The call `c.updateToStore(obj)` on a network: the store is asked, and on
success may set the index of the object through `SetIndex`. -/
def network.updateToStore (E : Env) (w : World) (n : network) : World × network × Option Error :=
  match E.updateToStore w.trace (.network n) with
  | .error err => (w.emit (.updateToStore (.network n)), n, some err)
  | .ok none => (w.emit (.updateToStore (.network n)), n, none)
  | .ok (some index) => (w.emit (.updateToStore (.network n)), n.SetIndex index, none)

/-- The call `c.updateToStore(ep)` on an endpoint; the endpoint's own store
bookkeeping is not modelled. -/
def endpoint.updateToStore (E : Env) (w : World) (ep : endpoint) : World × Option Error :=
  match E.updateToStore w.trace (.endpoint ep) with
  | .error err => (w.emit (.updateToStore (.endpoint ep)), some err)
  | .ok _ => (w.emit (.updateToStore (.endpoint ep)), none)

/-- The method `network.IncEndpointCnt`. -/
def network.IncEndpointCnt (E : Env) (w : World) (n : network) : World × network × Option Error :=
  let n := { n with endpointCnt := (n.endpointCnt + 1) % 2 ^ 64 }
  n.updateToStore E w

/-- The method `network.DecEndpointCnt`. -/
def network.DecEndpointCnt (E : Env) (w : World) (n : network) : World × network × Option Error :=
  let n := { n with endpointCnt := (n.endpointCnt + 2 ^ 64 - 1) % 2 ^ 64 }
  n.updateToStore E w

/-! ## Drivers -/

/-- The method `network.driver`. -/
def network.driver (E : Env) (w : World) (n : network) : World × Except Error Nat :=
  match E.drivers w.trace n.networkType with
  | some dd => (w, .ok dd.driver)
  | none =>
    match E.loadDriver w.trace n.networkType with
    | .error err => (w.emit (.loadDriver n.networkType), .error err)
    | .ok dd => (w.emit (.loadDriver n.networkType), .ok dd.driver)

/-- The block shared by `deleteNetwork` and `addEndpoint`: for a bridge network,
`n.drvOnce.Do(func() { err = n.getController().addNetwork(n) })`.  The result is
the value of `err` after the block (nil when the latch had fired before). -/
def network.bridgeOnce (E : Env) (w : World) (n : network) : World × Option Error :=
  if n.Type = "bridge" then
    if n.drvOnce ∈ w.done then (w, none)
    else
      let err := E.addNetwork w.trace n
      ({ (w.emit (.addNetwork n)) with done := n.drvOnce :: w.done }, err)
  else (w, none)

/-- The method `network.deleteNetwork`. -/
def network.deleteNetwork (E : Env) (w : World) (n : network) : World × Option Error :=
  match n.driver E w with
  | (w, .error err) => (w, some (.Errorf "failed deleting network: %v" err))
  | (w, .ok d) =>
    match n.bridgeOnce E w with
    | (w, some err) => (w, some err)
    | (w, none) =>
      match E.DeleteNetwork w.trace d n.ID with
      | some err =>
        if err.forbidden then (w.emit (.DeleteNetwork d n.ID), some (.external err))
        else ((w.emit (.DeleteNetwork d n.ID)).Warnf "driver error deleting network %s : %v", none)
      | none => (w.emit (.DeleteNetwork d n.ID), none)

/-- The method `network.addEndpoint`. -/
def network.addEndpoint (E : Env) (w : World) (n : network) (ep : endpoint) :
    World × Option Error :=
  match n.driver E w with
  | (w, .error err) => (w, some (.Errorf "failed to add endpoint: %v" err))
  | (w, .ok d) =>
    match n.bridgeOnce E w with
    | (w, some err) => (w, some err)
    | (w, none) =>
      match E.CreateEndpoint w.trace d n.id ep.id ep with
      | some err =>
        (w.emit (.CreateEndpoint d n.id ep.id),
          some (.InternalErrorfErr "failed to create endpoint %s on network %s: %v"
            [ep.name, n.Name] (.external err)))
      | none => (w.emit (.CreateEndpoint d n.id ep.id), none)

/-! ## Endpoint lookup -/

/-- The method `network.Endpoints`. -/
def network.Endpoints (E : Env) (w : World) (n : network) : World × List endpoint :=
  let r := E.getEndpointsFromStore w.trace n
  let w := w.emit (.getEndpointsFromStore n)
  let w := match r.2 with
    | some _ => w.Warnf "%v"
    | none => w
  (w, r.1.foldl (fun list ep => list ++ [ep]) [])

/-- The loop of `network.WalkEndpoints`: `walker` is called on each endpoint in
turn, threading the variables it closes over, until it returns true. -/
def walkLoop {σ : Type} (walker : σ → endpoint → σ × Bool) : σ → List endpoint → σ
  | s, [] => s
  | s, e :: es =>
    match walker s e with
    | (s, true) => s
    | (s, false) => walkLoop walker s es

/-- The method `network.WalkEndpoints`. -/
def network.WalkEndpoints {σ : Type} (E : Env) (w : World) (n : network)
    (walker : σ → endpoint → σ × Bool) (s : σ) : World × σ :=
  match n.Endpoints E w with
  | (w, eps) => (w, walkLoop walker s eps)

/-- The method `network.EndpointByName`. -/
def network.EndpointByName (E : Env) (w : World) (n : network) (name : String) :
    World × Except Error endpoint :=
  if name = "" then (w, .error (.ErrInvalidName name))
  else
    let s : Option endpoint → endpoint → Option endpoint × Bool := fun e current =>
      if current.name = name then (some current, true) else (e, false)
    match n.WalkEndpoints E w s none with
    | (w, none) => (w, .error (.ErrNoSuchEndpoint name))
    | (w, some e) => (w, .ok e)

/-! ## Endpoint creation -/

/-- The method `endpoint.processOptions`: each option is applied in turn. -/
def endpoint.processOptions (ep : endpoint) (options : List (endpoint → endpoint)) : endpoint :=
  options.foldl (fun ep opt => opt ep) ep

/-- First deferred call of `CreateEndpoint`: release the address. -/
def CreateEndpoint.deferRelease : Option Error → endpoint → World → World
  | some _, ep, w => w.emit (.releaseAddress ep)
  | none, _, w => w

/-- Second deferred call of `CreateEndpoint`: delete the endpoint from the driver. -/
def CreateEndpoint.deferDeleteEndpoint (E : Env) : Option Error → endpoint → World → World
  | some _, ep, w =>
    match E.deleteEndpoint w.trace ep with
    | some _ => (w.emit (.deleteEndpoint ep)).Warnf "cleaning up endpoint failed %s : %v"
    | none => w.emit (.deleteEndpoint ep)
  | none, _, w => w

/-- Third deferred call of `CreateEndpoint`: delete the endpoint from the store. -/
def CreateEndpoint.deferDeleteFromStore (E : Env) : Option Error → endpoint → World → World
  | some _, ep, w =>
    match E.deleteFromStore w.trace (.endpoint ep) with
    | some _ =>
      (w.emit (.deleteFromStore (.endpoint ep))).Warnf "error rolling back endpoint %s from store: %v"
    | none => w.emit (.deleteFromStore (.endpoint ep))
  | none, _, w => w

/-- The method `network.CreateEndpoint` up to and including `ep.assignAddress()`:
name check, lookup of a same-named endpoint, construction of the endpoint on
the network fetched from the store, options, address.  On success it yields the
endpoint and the fetched network. -/
def network.CreateEndpoint.prepare (E : Env) (w : World) (n : network) (name : String)
    (options : List (endpoint → endpoint)) : World × Except Error (endpoint × network) :=
  if !E.IsValidName name then (w, .error (.ErrInvalidName name))
  else
    match n.EndpointByName E w name with
    | (w, .ok _) =>
      (w, .error (.ForbiddenErrorf "service endpoint with name %s already exists" [name]))
    | (w, .error _) =>
      let ep : endpoint :=
        { name := name, id := "", network := none, generic := [], iface := { addr := none } }
      let ep := { ep with id := E.GenerateRandomID w.trace }
      let w := w.emit .GenerateRandomID
      let ep := { ep with network := some n }
      match E.epGetNetworkFromStore w.trace ep with
      | .error err =>
        (w.emit (.epGetNetworkFromStore ep),
          .error (.Errorf "failed to get network during CreateEndpoint: %v" err))
      | .ok fetched =>
        let w := w.emit (.epGetNetworkFromStore ep)
        let ep := { ep with network := some fetched }
        let n := fetched
        let ep := ep.processOptions options
        match E.assignAddress w.trace ep with
        | .error err => (w.emit (.assignAddress ep), .error err)
        | .ok ep' => (w.emit (.assignAddress ep), .ok (ep', n))

/-- The method `network.CreateEndpoint` after `ep.assignAddress()` has
succeeded: driver, endpoint store write, endpoint count, each guarded by the
deferred calls registered before it.  On success it yields the endpoint and the
final state of the network it points to. -/
def network.CreateEndpoint.commit (E : Env) (w : World) (n : network) (ep : endpoint) :
    World × Except Error (endpoint × network) :=
  let deferred := [CreateEndpoint.deferRelease]
  match n.addEndpoint E w ep with
  | (w, some err) => (runDeferred deferred (some err) ep w, .error err)
  | (w, none) =>
    let deferred := CreateEndpoint.deferDeleteEndpoint E :: deferred
    match ep.updateToStore E w with
    | (w, some err) => (runDeferred deferred (some err) ep w, .error err)
    | (w, none) =>
      let deferred := CreateEndpoint.deferDeleteFromStore E :: deferred
      match n.IncEndpointCnt E w with
      | (w, _, some err) => (runDeferred deferred (some err) ep w, .error err)
      | (w, n, none) => (runDeferred deferred none ep w, .ok (ep, n))

/-- The method `network.CreateEndpoint`. -/
def network.CreateEndpoint (E : Env) (w : World) (n : network) (name : String)
    (options : List (endpoint → endpoint)) : World × Except Error (endpoint × network) :=
  match network.CreateEndpoint.prepare E w n name options with
  | (w, .error err) => (w, .error err)
  | (w, .ok (ep, n)) => network.CreateEndpoint.commit E w n ep

/-! ## IPAM release and network deletion -/

/-- The statement `if err := ipam.ReleaseAddress(poolID, ip); err != nil { log.Warnf(..) }`. -/
def ipamReleaseAddress (E : Env) (ipam : Nat) (poolID : String) (format : String) (w : World)
    (ip : IP) : World :=
  match E.ReleaseAddress w.trace ipam poolID ip with
  | some _ => (w.emit (.ReleaseAddress ipam poolID ip)).Warnf format
  | none => w.emit (.ReleaseAddress ipam poolID ip)

/-- The statement `if err := ipam.ReleasePool(poolID); err != nil { log.Warnf(..) }`. -/
def ipamReleasePool (E : Env) (ipam : Nat) (poolID : String) (format : String) (w : World) :
    World :=
  match E.ReleasePool w.trace ipam poolID with
  | some _ => (w.emit (.ReleasePool ipam poolID)).Warnf format
  | none => w.emit (.ReleasePool ipam poolID)

/-- The body of the loop of `ipamRelease` for one entry of `ipamV4Info`. -/
def network.ipamReleaseInfo (E : Env) (ipam : Nat) (w : World) (d : IpamInfo) : World :=
  let w := match d.IPAMData.Gateway with
    | some gw =>
      ipamReleaseAddress E ipam d.PoolID
        "Failed to release gateway ip address %s on delete of network %s (%s): %v" w gw.IP
    | none => w
  let w := match d.IPAMData.AuxAddresses with
    | some aux =>
      aux.foldl (fun (w : World) (knw : String × IPNet) =>
        ipamReleaseAddress E ipam d.PoolID
          "Failed to release secondary ip address %s (%v) on delete of network %s (%s): %v"
          w knw.2.IP) w
    | none => w
  ipamReleasePool E ipam d.PoolID
    "Failed to release address pool %s on delete of network %s (%s): %v" w

/-- The method `network.ipamRelease`. -/
def network.ipamRelease (E : Env) (w : World) (n : network) : World :=
  if n.Type = "host" ∨ n.Type = "null" ∨ n.Type = "bridge" then w
  else
    match E.getIpamDriver w.trace n.ipamType with
    | .error _ =>
      (w.emit (.getIpamDriver n.ipamType)).Warnf
        "Failed to retrieve ipam driver to release address pool(s) on delete of network %s (%s): %v"
    | .ok ipam =>
      n.ipamV4Info.foldl (network.ipamReleaseInfo E ipam) (w.emit (.getIpamDriver n.ipamType))

/-- First deferred call of `Delete`: re-add the network. -/
def Delete.deferAddNetwork (E : Env) : Option Error → network → World → World
  | some _, n, w =>
    match E.addNetwork w.trace n with
    | some _ => (w.emit (.addNetwork n)).Warnf "failed to rollback deleteNetwork for network %s: %v"
    | none => w.emit (.addNetwork n)
  | none, _, w => w

/-- Second deferred call of `Delete`: mark the network as absent and write it
back. -/
def Delete.deferRecreate (E : Env) : Option Error → network → World → World
  | some _, n, w =>
    let n := { n with dbExists := false }
    match n.updateToStore E w with
    | (w, _, some _) => w.Warnf "failed to recreate network in store %s : %v"
    | (w, _, none) => w
  | none, _, w => w

/-- The method `network.Delete` after `n.deleteNetwork()` has returned nil:
conditional store delete, IPAM release, and the deferred calls. -/
def network.Delete.afterDriver (E : Env) (w : World) (n : network) : World × Option Error :=
  let deferred := [Delete.deferAddNetwork E]
  match E.deleteFromStore w.trace (.network n) with
  | some err =>
    let w := w.emit (.deleteFromStore (.network n))
    if err = .ErrKeyModified then
      (runDeferred deferred (some err) n w,
        some (.InternalErrorf
          "operation in progress. delete failed for network %s. Please try again." []))
    else (runDeferred deferred (some err) n w, some err)
  | none =>
    let w := w.emit (.deleteFromStore (.network n))
    let deferred := Delete.deferRecreate E :: deferred
    let w := n.ipamRelease E w
    (runDeferred deferred none n w, none)

/-- The method `network.Delete`. -/
def network.Delete (E : Env) (w : World) (n : network) : World × Option Error :=
  let name := n.name
  let id := n.id
  match E.getNetworkFromStore w.trace id with
  | .error _ => (w.emit (.getNetworkFromStore id), some (.UnknownNetworkError name id))
  | .ok n =>
    let w := w.emit (.getNetworkFromStore id)
    let numEps := n.EndpointCnt
    if numEps ≠ 0 then (w, some (.ActiveEndpointsError n.name n.id))
    else
      match n.deleteNetwork E w with
      | (w, some err) => (w, some err)
      | (w, none) => network.Delete.afterDriver E w n

/-- The events `ipamRelease` is to produce for one entry of `ipamV4Info`:
release of the gateway when there is one, release of every auxiliary address,
then release of the pool. -/
def releaseEvents (ipam : Nat) (d : IpamInfo) : List Event :=
  (match d.IPAMData.Gateway with
    | some gw => [Event.ReleaseAddress ipam d.PoolID gw.IP]
    | none => []) ++
  (match d.IPAMData.AuxAddresses with
    | some aux => aux.map (fun knw => Event.ReleaseAddress ipam d.PoolID knw.2.IP)
    | none => []) ++
  [Event.ReleasePool ipam d.PoolID]

/-! ## Network options -/

/-- The method `network.Exists`. -/
def network.Exists (n : network) : Bool := n.dbExists

/-- The function `NetworkOptionPersist`: the option setter it returns. -/
def NetworkOptionPersist (persist : Bool) : network → network :=
  fun n => { n with persist := persist }

/-- The function `NetworkOptionIpam`: the option setter it returns. -/
def NetworkOptionIpam (ipamDriver : String) (addrSpace : String) (ipV4 : List IpamConf)
    (ipV6 : List IpamConf) : network → network :=
  fun n => { n with ipamType := ipamDriver, addrSpace := addrSpace, ipamV4Config := ipV4,
                    ipamV6Config := ipV6 }

/-- The method `network.processOptions`: every option that is not nil is applied,
in order. -/
def network.processOptions (n : network) (options : List (Option (network → network))) :
    network :=
  options.foldl (fun n opt =>
    match opt with
    | some f => f n
    | none => n) n

/-! ## IPAM allocation -/

/-- The method `IpamConf.Validate`. -/
def IpamConf.Validate (E : Env) (c : IpamConf) : Option Error :=
  if c.Gateway ≠ "" ∧ E.ParseIP c.Gateway = none then
    some (.BadRequestErrorf "invalid gateway address %s in IpamConf dtructure" [c.Gateway])
  else none

/-- The method `network.driverScope`. -/
def network.driverScope (E : Env) (w : World) (n : network) : World × String :=
  match E.drivers w.trace n.networkType with
  | some dd => (w, dd.DataScope)
  | none =>
    match E.loadDriver w.trace n.networkType with
    | .error _ => (w.emit (.loadDriver n.networkType), "")
    | .ok dd => (w.emit (.loadDriver n.networkType), dd.DataScope)

/-- The method `network.DataScope`. -/
def network.DataScope (E : Env) (w : World) (n : network) : World × String :=
  n.driverScope E w

/-- The method `network.deriveAddressSpace`. -/
def network.deriveAddressSpace (E : Env) (w : World) (n : network) :
    World × Except Error String :=
  match E.ipamDrivers w.trace n.ipamType with
  | none =>
    (w, .error (.NotFoundErrorf
      "could not find ipam driver %s to get default address space" [n.ipamType]))
  | some ipd =>
    match n.DataScope E w with
    | (w, scope) =>
      if scope = E.GlobalScope then (w, .ok ipd.defaultGlobalAddressSpace)
      else (w, .ok ipd.defaultLocalAddressSpace)

/-- An element of the list `ipamAllocate` returns, a `func()`: run in a world it
makes its calls, or panics. -/
abbrev CancelFunc := World → Except Error World

/-- The closure appended to `cnl` for one block: it releases `d.Gateway.IP` on
the pool `d.PoolID`.  Neither field of `d` is written after the closure is
made, so the closure is given their values; a nil gateway makes it panic. -/
def ipamAllocate.cancelGateway (E : Env) (ipam : Nat) (poolID : String)
    (gateway : Option IPNet) : CancelFunc :=
  fun w =>
    match gateway with
    | some gw =>
      .ok (ipamReleaseAddress E ipam poolID
        "Failed to release gw address %s after failure to create network %s (%s)" w gw.IP)
    | none => .error (.panic "invalid memory address or nil pointer dereference")

/-- The closure deferred for one block: when `err` is not nil at return, it
releases the pool `d.PoolID`. -/
def ipamAllocate.deferReleasePool (E : Env) (ipam : Nat) (poolID : String) :
    Option Error → Unit → World → World
  | some _, _, w =>
    ipamReleasePool E ipam poolID
      "Failed to release address pool %s after failure to create network %s (%s)" w
  | none, _, w => w

/-- How a `return nil, e` inside the loop of `ipamAllocate` leaves the function:
the value of the variable `err` at that moment, which the deferred closures
test, and the error returned. -/
structure allocFailure where
  errVar : Option Error
  returned : Error

/-- The loop over `cfg.AuxAddresses` in `ipamAllocate`: `aux` is the map
`d.IPAMData.AuxAddresses` filled so far, and the order of the list is the order
in which `range` visits the map.  An entry for which the driver answers with a
nil address and no error is left out of the map. -/
def ipamAllocate.auxLoop (E : Env) (ipam : Nat) (poolID : String) (nName : String) :
    World → List (String × IPNet) → List (String × String) →
    World × List (String × IPNet) × Option allocFailure
  | w, aux, [] => (w, aux, none)
  | w, aux, (k, v) :: rest =>
    match E.ParseIP v with
    | none =>
      (w, aux, some
        { errVar := none
          returned := .BadRequestErrorf
            "non parsable secondary ip address %s (%s) passed for network %s" [k, v, nName] })
    | some ip =>
      match E.RequestAddress w.trace ipam poolID (some ip) with
      | .error err =>
        (w.emit (.RequestAddress ipam poolID (some ip)), aux, some
          { errVar := some err
            returned := .InternalErrorfErr "failed to allocate secondary ip address %s(%s): %v"
              [k, v] err })
      | .ok (some nw) =>
        ipamAllocate.auxLoop E ipam poolID nName
          (w.emit (.RequestAddress ipam poolID (some ip))) (mapAssign aux k nw) rest
      | .ok none =>
        ipamAllocate.auxLoop E ipam poolID nName
          (w.emit (.RequestAddress ipam poolID (some ip))) aux rest

/-- What the loop of `ipamAllocate` carries from block to block: the world, the
entries of `n.ipamV4Info` reached so far, the list `cnl`, and the deferred
closures, most recent first. -/
structure allocState where
  w : World
  infos : List IpamInfo
  cnl : List CancelFunc
  deferred : List (Option Error → Unit → World → World)

/-- The statements of the loop body that settle `d.Gateway`: the gateway of the
pool metadata is parsed, and a gateway address is requested when the config
names one or none is known.  The result is the world, the entry and the failure
of a `return`; the fields a failed call assigns are not modelled. -/
def ipamAllocate.gateway (E : Env) (ipam : Nat) (w : World) (d : IpamInfo) (cfg : IpamConf) :
    World × IpamInfo × Option allocFailure :=
  let parsed : Except Error IpamInfo :=
    match mapIndex (d.Meta.getD []) E.netlabelGateway with
    | some gws =>
      match E.ParseCIDR gws with
      | .error err => .error err
      | .ok gw => .ok { d with IPAMData := { d.IPAMData with Gateway := gw } }
    | none => .ok d
  match parsed with
  | .error err =>
    (w, d, some
      { errVar := some err
        returned := .BadRequestErrorfErr
          "failed to parse gateway address (%v) returned by ipam driver: %v"
          [(mapIndex (d.Meta.getD []) E.netlabelGateway).getD ""] err })
  | .ok d =>
    if cfg.Gateway ≠ "" ∨ d.IPAMData.Gateway = none then
      match E.RequestAddress w.trace ipam d.PoolID (E.ParseIP cfg.Gateway) with
      | .error err =>
        (w.emit (.RequestAddress ipam d.PoolID (E.ParseIP cfg.Gateway)), d, some
          { errVar := some err
            returned := .InternalErrorfErr "failed to allocate gateway (%v): %v"
              [cfg.Gateway] err })
      | .ok gw =>
        (w.emit (.RequestAddress ipam d.PoolID (E.ParseIP cfg.Gateway)),
          { d with IPAMData := { d.IPAMData with Gateway := gw } }, none)
    else (w, d, none)

/-- The statement `if cfg.AuxAddresses != nil { .. }` of the loop body. -/
def ipamAllocate.auxAddresses (E : Env) (ipam : Nat) (nName : String) (w : World) (d : IpamInfo)
    (cfg : IpamConf) : World × IpamInfo × Option allocFailure :=
  match cfg.AuxAddresses with
  | some auxCfg =>
    match ipamAllocate.auxLoop E ipam d.PoolID nName w [] auxCfg with
    | (w, aux, failure) =>
      (w, { d with IPAMData := { d.IPAMData with AuxAddresses := some aux } }, failure)
  | none => (w, d, none)

/-- The body of the loop of `ipamAllocate` for one config block.  On a `return`
the state is the one reached and the failure is given. -/
def ipamAllocate.block (E : Env) (ipam : Nat) (n : network) (st : allocState) (cfg : IpamConf) :
    allocState × Option allocFailure :=
  match cfg.Validate E with
  | some err => (st, some { errVar := some err, returned := err })
  | none =>
    let d : IpamInfo := IpamInfo.zero
    match E.RequestPool st.w.trace ipam n.addrSpace cfg.PreferredPool cfg.SubPool cfg.Options
        cfg.IsV6 with
    | .error err =>
      ({ st with
          w := st.w.emit (.RequestPool ipam n.addrSpace cfg.PreferredPool cfg.SubPool cfg.Options
            cfg.IsV6)
          infos := st.infos ++ [d] },
        some { errVar := some err, returned := err })
    | .ok (poolID, pool, pmeta) =>
      let w := st.w.emit (.RequestPool ipam n.addrSpace cfg.PreferredPool cfg.SubPool cfg.Options
        cfg.IsV6)
      let d : IpamInfo :=
        { d with PoolID := poolID, Meta := pmeta, IPAMData := { d.IPAMData with Pool := pool } }
      let deferred := ipamAllocate.deferReleasePool E ipam d.PoolID :: st.deferred
      match ipamAllocate.gateway E ipam w d cfg with
      | (w, d, some failure) =>
        ({ w := w, infos := st.infos ++ [d], cnl := st.cnl, deferred := deferred }, some failure)
      | (w, d, none) =>
        let cnl := st.cnl ++ [ipamAllocate.cancelGateway E ipam d.PoolID d.IPAMData.Gateway]
        match ipamAllocate.auxAddresses E ipam n.Name w d cfg with
        | (w, d, failure) =>
          ({ w := w, infos := st.infos ++ [d], cnl := cnl, deferred := deferred }, failure)

/-- The loop `for i, cfg := range n.ipamV4Config` of `ipamAllocate`. -/
def ipamAllocate.loop (E : Env) (ipam : Nat) (n : network) :
    allocState → List IpamConf → allocState × Option allocFailure
  | st, [] => (st, none)
  | st, cfg :: rest =>
    match ipamAllocate.block E ipam n st cfg with
    | (st, some failure) => (st, some failure)
    | (st, none) => ipamAllocate.loop E ipam n st rest

/-- The method `network.ipamAllocate`.  The list representation does not tell a
nil slice from an empty one, so `nilV4Config` says whether `n.ipamV4Config ==
nil` holds when the list is empty.  The result is the world, the network as the
call leaves it (of `ipamV4Info`, the entries reached) and the list or the error
returned. -/
def network.ipamAllocate (E : Env) (w : World) (n : network) (nilV4Config : Bool) :
    World × network × Except Error (List CancelFunc) :=
  if n.Type = "host" ∨ n.Type = "null" ∨ n.Type = "bridge" then (w, n, .ok [])
  else
    match E.getIpamDriver w.trace n.ipamType with
    | .error err => (w.emit (.getIpamDriver n.ipamType), n, .error err)
    | .ok ipam =>
      let w := w.emit (.getIpamDriver n.ipamType)
      let derived : World × Except Error network :=
        if n.addrSpace = "" then
          match n.deriveAddressSpace E w with
          | (w, .error err) => (w, .error err)
          | (w, .ok addrSpace) => (w, .ok { n with addrSpace := addrSpace })
        else (w, .ok n)
      match derived with
      | (w, .error err) => (w, { n with addrSpace := "" }, .error err)
      | (w, .ok n) =>
        let n : network :=
          if n.ipamV4Config = [] ∧ nilV4Config = true then
            { n with ipamV4Config := [IpamConf.zero] }
          else n
        match ipamAllocate.loop E ipam n { w := w, infos := [], cnl := [], deferred := [] }
            n.ipamV4Config with
        | (st, some failure) =>
          (runDeferred st.deferred failure.errVar () st.w, { n with ipamV4Info := st.infos },
            .error failure.returned)
        | (st, none) =>
          (runDeferred st.deferred none () st.w, { n with ipamV4Info := st.infos }, .ok st.cnl)

/-- A caller that invokes the whole list returned by `ipamAllocate`, in order
(`for _, cn := range cnl { cn() }`); a panic ends it. -/
def invokeAll : List CancelFunc → World → Except Error World
  | [], w => .ok w
  | cn :: rest, w =>
    match cn w with
    | .error err => .error err
    | .ok w => invokeAll rest w

/-- The pools requested in a trace, in order: the pool id the driver answered
with, for each `RequestPool` the driver did not refuse. -/
def requestedPools (E : Env) : List Event → List Event → List String
  | _, [] => []
  | before, ev :: rest =>
    match ev with
    | .RequestPool ipam addrSpace pool subPool options v6 =>
      match E.RequestPool before ipam addrSpace pool subPool options v6 with
      | .ok (poolID, _, _) => poolID :: requestedPools E (before ++ [ev]) rest
      | .error _ => requestedPools E (before ++ [ev]) rest
    | _ => requestedPools E (before ++ [ev]) rest

/-- The pools released in a trace, in order. -/
def releasedPools : List Event → List String
  | [] => []
  | .ReleasePool _ poolID :: rest => poolID :: releasedPools rest
  | _ :: rest => releasedPools rest

/-- The gateway release that the returned list is to make for a result entry. -/
def gatewayRelease (ipam : Nat) (d : IpamInfo) : List Event :=
  match d.IPAMData.Gateway with
  | some gw => [Event.ReleaseAddress ipam d.PoolID gw.IP]
  | none => []

/-- The address requests that the loop over the auxiliary addresses of a block
makes when every text parses: one per entry, with the parsed address as the
preferred one. -/
def auxRequests (E : Env) (ipam : Nat) (poolID : String) (auxCfg : List (String × String)) :
    List Event :=
  auxCfg.filterMap (fun kv =>
    (E.ParseIP kv.2).map (fun ip => Event.RequestAddress ipam poolID (some ip)))

/-- A caller that invokes the whole list a call of `ipamAllocate` returned, in
the world the call left: the world after the last action, or `none` when the
call failed or an action panicked. -/
def invokeReturned (r : World × network × Except Error (List CancelFunc)) : Option World :=
  match r.2.2 with
  | .ok cnl =>
    match invokeAll cnl r.1 with
    | .ok w => some w
    | .error _ => none
  | .error _ => none

/-! ## Service records -/

/-- The type `svcMap`, a `map[string]net.IP`. -/
abbrev svcMap := List (String × IP)

/-- The statement `delete(m, k)` on a Go map. -/
def mapDelete {α : Type} (m : List (String × α)) (k : String) : List (String × α) :=
  m.filter (fun kv => decide (kv.1 ≠ k))

/-- The loop of `updateSvcRecord` that pushes the records to every sandbox of
the list. -/
def updateSvcRecord.push (isAdd : Bool) (recs : List Record) : World → List Nat → World
  | w, [] => w
  | w, sb :: rest =>
    if isAdd then updateSvcRecord.push isAdd recs (w.emit (.addHostsEntries sb recs)) rest
    else updateSvcRecord.push isAdd recs (w.emit (.deleteHostsEntries sb recs)) rest

/-- The method `network.updateSvcRecord`.  `svcDb` is the table `c.svcDb` of the
controller; the result holds the table as the call leaves it. -/
def network.updateSvcRecord (E : Env) (w : World) (svcDb : List (String × svcMap))
    (n : network) (ep : endpoint) (localEps : List endpoint) (isAdd : Bool) :
    World × List (String × svcMap) :=
  let svcDb : List (String × svcMap) :=
    match mapIndex svcDb n.ID with
    | some _ => svcDb
    | none => mapAssign svcDb n.ID []
  let sr : svcMap := (mapIndex svcDb n.ID).getD []
  let updated : svcMap × List Record :=
    match ep.iface.addr with
    | some addr =>
      let sr : svcMap :=
        if isAdd then mapAssign (mapAssign sr ep.name addr.IP) (ep.name ++ "." ++ n.name) addr.IP
        else mapDelete (mapDelete sr ep.name) (ep.name ++ "." ++ n.name)
      (sr, [{ Hosts := ep.name, IP := E.IPString addr.IP },
            { Hosts := ep.name ++ "." ++ n.name, IP := E.IPString addr.IP }])
    | none => (sr, [])
  let svcDb := mapAssign svcDb n.ID updated.1
  if updated.2.length = 0 then (w, svcDb)
  else
    let sbList : List Nat :=
      localEps.foldl (fun sbList ep =>
        match E.getSandbox w.trace ep with
        | some sb => sbList ++ [sb]
        | none => sbList) []
    (updateSvcRecord.push isAdd updated.2 w sbList, svcDb)

/-- A collaborator set in which every call succeeds: every name is valid, the
store holds no endpoints and returns the network `stored` for every id, the
driver table holds driver `1` for every type, IPAM driver `1` resolves and
hands out the pool `p1` (`p2` for the preferred pool `10.1.0.0/24`) with no
metadata and the preferred address (or `10.0.0.1`), three address texts parse,
and every endpoint but `e-nosb` has a sandbox. -/
def Env.allOk (stored : network) : Env :=
  { IsValidName := fun _ => true
    GenerateRandomID := fun _ => "ep-id"
    getEndpointsFromStore := fun _ _ => ([], none)
    getNetworkFromStore := fun _ _ => .ok stored
    epGetNetworkFromStore := fun _ _ => .ok stored
    assignAddress := fun _ ep => .ok ep
    deleteEndpoint := fun _ _ => none
    updateToStore := fun _ _ => .ok none
    deleteFromStore := fun _ _ => none
    addNetwork := fun _ _ => none
    drivers := fun _ _ => some { driver := 1, DataScope := "local" }
    loadDriver := fun _ _ => .ok { driver := 1, DataScope := "local" }
    DeleteNetwork := fun _ _ _ => none
    CreateEndpoint := fun _ _ _ _ _ => none
    getIpamDriver := fun _ _ => .ok 1
    ReleaseAddress := fun _ _ _ _ => none
    ReleasePool := fun _ _ _ => none
    RequestPool := fun _ _ _ pool _ _ _ =>
      if pool = "10.1.0.0/24" then
        .ok ("p2", some { IP := [10, 1, 0, 0], Mask := [255, 255, 255, 0] }, none)
      else .ok ("p1", some { IP := [10, 0, 0, 0], Mask := [255, 255, 255, 0] }, none)
    RequestAddress := fun _ _ _ pref =>
      .ok (some { IP := pref.getD [10, 0, 0, 1], Mask := [255, 255, 255, 0] })
    ParseIP := fun s =>
      if s = "10.0.0.1" then some [10, 0, 0, 1]
      else if s = "10.0.0.2" then some [10, 0, 0, 2]
      else if s = "10.0.0.5" then some [10, 0, 0, 5]
      else none
    ParseCIDR := fun s =>
      if s = "10.0.0.1/24" then .ok (some { IP := [10, 0, 0, 1], Mask := [255, 255, 255, 0] })
      else .error (.external { code := 22, forbidden := false })
    IPString := fun ip => ".".intercalate (ip.map toString)
    netlabelGateway := "com.docker.network.gateway"
    GlobalScope := "global"
    ipamDrivers := fun _ _ =>
      some { defaultLocalAddressSpace := "LocalDefault",
             defaultGlobalAddressSpace := "GlobalDefault" }
    getSandbox := fun _ ep => if ep.id = "e-nosb" then none else some ep.id.length }

/-- A network of type `overlay` named `app`, with no endpoints and an empty
IPAM state. -/
def sampleNet : network :=
  { ctrlr := 1, name := "app", networkType := "overlay", id := "net-1", ipamType := "default",
    addrSpace := "", ipamV4Config := [], ipamV6Config := [], ipamV4Info := [], ipamV6Info := [],
    enableIPv6 := false, endpointCnt := 0, generic := none, dbIndex := 0, svcRecords := [],
    dbExists := true, persist := true, scope := "", drvOnce := 1 }

/-- A network of type `overlay` with one IPv4 config block and its IPAM result:
pool `p1`, a gateway and two auxiliary addresses. -/
def sampleIpamNet : network :=
  { sampleNet with
    ipamV4Config := [{ IpamConf.zero with PreferredPool := "10.0.0.0/24" }]
    ipamV4Info :=
      [{ PoolID := "p1", Meta := some [("com.docker.network.gateway", "10.0.0.1/24")]
         IPAMData :=
          { AddressSpace := "local"
            Pool := some { IP := [10, 0, 0, 0], Mask := [255, 255, 255, 0] }
            Gateway := some { IP := [10, 0, 0, 1], Mask := [255, 255, 255, 0] }
            AuxAddresses :=
              some [("a", { IP := [10, 0, 0, 2], Mask := [255, 255, 255, 0] }),
                    ("b", { IP := [10, 0, 0, 3], Mask := [255, 255, 255, 0] })] } }] }

/-- The network `sampleNet` with an odd endpoint count just above `2 ^ 53` and a
generic option holding a `uint64`. -/
def oddCountNet : network :=
  { sampleNet with endpointCnt := 9007199254740993, generic := some [("mtu", .uint64 1500)] }

/-- The network `sampleIpamNet` in the address space `local`; its generic
options are nil. -/
def localIpamNet : network :=
  { sampleIpamNet with addrSpace := "local" }

/-- The network `localIpamNet` with generic options that are an empty map, not
nil. -/
def localOptsNet : network :=
  { localIpamNet with generic := some [] }

/-- The network `sampleIpamNet` with endpoint count `2 ^ 53` and generic options
of the kinds JSON decoding produces. -/
def nativeIpamNet : network :=
  { sampleIpamNet with
    endpointCnt := 9007199254740992
    generic := some [("mtu", .float64 (.finite 1500)), ("ratio", .float64 (.finite (3 / 2))),
                     ("offset", .float64 (.finite (-1))), ("tags", .slice [.str "a", .nil])] }

/-- A network of type `overlay` whose generic options hold a `float64` that is
not a number. -/
def nanOptionNet : network :=
  { sampleNet with generic := some [("rate", .float64 .nan)] }

/-- The world before any call. -/
def World.init : World := { trace := [], done := [] }

/-- One IPv4 config block that asks for the pool `10.0.0.0/24` and names no
gateway. -/
def poolConf : IpamConf := { IpamConf.zero with PreferredPool := "10.0.0.0/24" }

/-- The network `sampleNet` configured with the block `poolConf`. -/
def poolNet : network := { sampleNet with ipamV4Config := [poolConf] }

/-- One IPv4 config block whose auxiliary address `b` is not the text of an IP
address. -/
def badAuxConf : IpamConf :=
  { IpamConf.zero with
    PreferredPool := "10.1.0.0/24"
    AuxAddresses := some [("a", "10.0.0.2"), ("b", "bogus")] }

/-- The network `sampleNet` configured with the blocks `poolConf` and
`badAuxConf`. -/
def badAuxNet : network := { sampleNet with ipamV4Config := [poolConf, badAuxConf] }

/-- The endpoint `web` of `sampleNet`, with the address `10.0.0.5`. -/
def webEndpoint : endpoint :=
  { name := "web", id := "e1", network := some sampleNet, generic := []
    iface := { addr := some { IP := [10, 0, 0, 5], Mask := [255, 255, 255, 0] } } }

/-- Two endpoints of the host: `e-nosb` has no sandbox, `e22` has sandbox `3`. -/
def localEndpoints : List endpoint :=
  [{ name := "x", id := "e-nosb", network := none, generic := [], iface := { addr := none } },
   { name := "y", id := "e22", network := none, generic := [], iface := { addr := none } }]

/-- The collaborators `Env.allOk`, with an IPAM driver whose pools carry the
gateway `10.0.0.1/24` in their metadata. -/
def Env.gatewayMeta (stored : network) : Env :=
  { Env.allOk stored with
    RequestPool := fun _ _ _ _ _ _ _ =>
      .ok ("p1", some { IP := [10, 0, 0, 0], Mask := [255, 255, 255, 0] },
        some [("com.docker.network.gateway", "10.0.0.1/24")]) }

/-- One IPv4 config block that names the gateway `10.0.0.5`. -/
def gatewayConf : IpamConf := { IpamConf.zero with Gateway := "10.0.0.5" }

/-! ## A concrete codec

A small self-delimiting text form for documents, with which the statements
about `Codec` are instantiated.  It is one codec among those the theorems
quantify over; it is not the text form of `encoding/json`. -/

namespace Plain

/-- Each character of a string, preceded by `+`. -/
def quote : List Char → List Char
  | [] => []
  | c :: cs => '+' :: c :: quote cs

/-- Binary digits, least significant first, as characters. -/
def bits (ds : List Nat) : List Char :=
  ds.map (fun d => if d = 0 then '0' else '1')

/-- The number with the sign `sgn`, the numerator `a` and the denominator `b`. -/
def mkNum (sgn : Char) (a b : Nat) : ℚ :=
  (if sgn = '-' then -1 else 1) * (a : ℚ) / (b : ℚ)

mutual
/-- Text of a document. -/
def render : Json → List Char
  | .null => ['n']
  | .bool true => ['t']
  | .bool false => ['f']
  | .num q =>
    '#' :: (if q < 0 then '-' else '+') ::
      (bits (Nat.digits 2 q.num.natAbs) ++ '.' :: (bits (Nat.digits 2 q.den) ++ ['.']))
  | .str s => 's' :: (quote s.data ++ ['.'])
  | .arr xs => '[' :: (renderList xs ++ [']'])
  | .obj kvs => '{' :: (renderFields kvs ++ ['}'])
/-- Text of the elements of an array. -/
def renderList : List Json → List Char
  | [] => []
  | x :: xs => render x ++ renderList xs
/-- Text of the members of an object, each key before its value. -/
def renderFields : List (String × Json) → List Char
  | [] => []
  | (k, x) :: xs => 's' :: (quote k.data ++ ['.']) ++ (render x ++ renderFields xs)
end

/-- Reads a quoted string up to its closing `.`. -/
def parseQuoted : List Char → Option (List Char × List Char)
  | '+' :: c :: rest =>
    match parseQuoted rest with
    | some (s, r) => some (c :: s, r)
    | none => none
  | '.' :: rest => some ([], rest)
  | _ => none

/-- Reads binary digits up to the closing `.`. -/
def parseBits : List Char → Option (List Nat × List Char)
  | '0' :: rest =>
    match parseBits rest with
    | some (ds, r) => some (0 :: ds, r)
    | none => none
  | '1' :: rest =>
    match parseBits rest with
    | some (ds, r) => some (1 :: ds, r)
    | none => none
  | '.' :: rest => some ([], rest)
  | _ => none

mutual
/-- Reads one document; the first argument bounds the nesting and length. -/
def parseVal : Nat → List Char → Option (Json × List Char)
  | 0, _ => none
  | _ + 1, [] => none
  | fuel + 1, c :: rest =>
    if c = 'n' then some (.null, rest)
    else if c = 't' then some (.bool true, rest)
    else if c = 'f' then some (.bool false, rest)
    else if c = '#' then
      match rest with
      | sgn :: rest1 =>
        match parseBits rest1 with
        | some (ds, r) =>
          match parseBits r with
          | some (ds2, r2) => some (.num (mkNum sgn (Nat.ofDigits 2 ds) (Nat.ofDigits 2 ds2)), r2)
          | none => none
        | none => none
      | [] => none
    else if c = 's' then
      match parseQuoted rest with
      | some (s, r) => some (.str (String.mk s), r)
      | none => none
    else if c = '[' then
      match parseList fuel rest with
      | some (xs, r) => some (.arr xs, r)
      | none => none
    else if c = '{' then
      match parseFields fuel rest with
      | some (kvs, r) => some (.obj kvs, r)
      | none => none
    else none
/-- Reads array elements up to the closing bracket. -/
def parseList : Nat → List Char → Option (List Json × List Char)
  | 0, _ => none
  | _ + 1, [] => none
  | fuel + 1, c :: rest =>
    if c = ']' then some ([], rest)
    else
      match parseVal fuel (c :: rest) with
      | some (x, r) =>
        match parseList fuel r with
        | some (xs, r2) => some (x :: xs, r2)
        | none => none
      | none => none
/-- Reads object members up to the closing brace. -/
def parseFields : Nat → List Char → Option (List (String × Json) × List Char)
  | 0, _ => none
  | _ + 1, [] => none
  | fuel + 1, c :: rest =>
    if c = '}' then some ([], rest)
    else if c = 's' then
      match parseQuoted rest with
      | some (k, r) =>
        match parseVal fuel r with
        | some (x, r2) =>
          match parseFields fuel r2 with
          | some (kvs, r3) => some ((String.mk k, x) :: kvs, r3)
          | none => none
        | none => none
      | none => none
    else none
end

/-- Reads a whole text as one document. -/
def parse (s : String) : Option Json :=
  match parseVal (s.data.length + 1) s.data with
  | some (j, []) => some j
  | _ => none

/-- Document for a `net.IPNet` pointer. -/
def ipNetToJson : Option IPNet → Json
  | none => .null
  | some nw =>
    .arr [.arr (nw.IP.map (fun (b : Nat) => Json.num (b : ℚ))),
          .arr (nw.Mask.map (fun (b : Nat) => Json.num (b : ℚ)))]

/-- Reads a list of numbers. -/
def numsFromJson : List Json → Option (List Nat)
  | [] => some []
  | .num q :: rest =>
    match numsFromJson rest with
    | some ns => some (q.num.toNat :: ns)
    | none => none
  | _ :: _ => none

/-- Reads a `net.IPNet` pointer. -/
def ipNetFromJson : Json → Option (Option IPNet)
  | .null => some none
  | .arr [.arr ip, .arr mask] =>
    match numsFromJson ip, numsFromJson mask with
    | some i, some m => some (some { IP := i, Mask := m })
    | _, _ => none
  | _ => none

/-- Document for the auxiliary addresses of an `IPAMData`. -/
def auxToJson : Option (List (String × IPNet)) → Json
  | none => .null
  | some l =>
    .arr (l.map (fun kv =>
      Json.arr [.str kv.1, .arr (kv.2.IP.map (fun (b : Nat) => Json.num (b : ℚ))),
        .arr (kv.2.Mask.map (fun (b : Nat) => Json.num (b : ℚ)))]))

/-- Reads the entries of the auxiliary addresses. -/
def auxElemsFromJson : List Json → Option (List (String × IPNet))
  | [] => some []
  | .arr [.str k, .arr ip, .arr mask] :: rest =>
    match numsFromJson ip, numsFromJson mask, auxElemsFromJson rest with
    | some i, some m, some r => some ((k, { IP := i, Mask := m }) :: r)
    | _, _, _ => none
  | _ :: _ => none

/-- Reads the auxiliary addresses of an `IPAMData`. -/
def auxFromJson : Json → Option (Option (List (String × IPNet)))
  | .null => some none
  | .arr xs =>
    match auxElemsFromJson xs with
    | some l => some (some l)
    | none => none
  | _ => none

/-- Document for an `IPAMData`. -/
def ipamDataToJson (d : IPAMData) : Json :=
  .arr [.str d.AddressSpace, ipNetToJson d.Pool, ipNetToJson d.Gateway,
        auxToJson d.AuxAddresses]

/-- Reads an `IPAMData`. -/
def ipamDataFromJson : Json → Option IPAMData
  | .arr [.str a, p, g, aux] =>
    match ipNetFromJson p, ipNetFromJson g, auxFromJson aux with
    | some pool, some gw, some ax =>
      some { AddressSpace := a, Pool := pool, Gateway := gw, AuxAddresses := ax }
    | _, _, _ => none
  | _ => none

/-- The concrete codec.  For a finite `float64` it writes the value itself. -/
def codec : Codec :=
  { render := fun j => String.mk (render j)
    parse := parse
    formatFloat := fun q => q
    marshalIPAMData := fun d => .ok (String.mk (render (ipamDataToJson d)))
    unmarshalIPAMData := fun s _ =>
      match parse s with
      | some j =>
        match ipamDataFromJson j with
        | some d => .ok d
        | none => .error (.json "invalid IPAMData")
      | none => .error (.json "invalid JSON text")
    uint64OfOther := fun _ => 2 ^ 63 }

end Plain

/-! # Theorems -/

@[simp] theorem World.Warnf_eq (w : World) (s : String) : w.Warnf s = w := rfl

@[simp] theorem World.emit_trace (w : World) (ev : Event) : (w.emit ev).trace = w.trace ++ [ev] := rfl

@[simp] theorem World.emit_done (w : World) (ev : Event) : (w.emit ev).done = w.done := rfl

theorem Endpoints_fst (E : Env) (w : World) (n : network) :
    (n.Endpoints E w).1 = w.emit (.getEndpointsFromStore n) := by
  unfold network.Endpoints
  simp only
  split <;> rfl

theorem EndpointByName_ok (E : Env) (w : World) (n : network) (name : String) (e : endpoint)
    (h : (n.EndpointByName E w name).2 = .ok e) :
    n.EndpointByName E w name = (w.emit (.getEndpointsFromStore n), .ok e) := by
  unfold network.EndpointByName at h ⊢
  by_cases hn : name = ""
  · simp [hn] at h
  · simp only [hn, if_false] at h ⊢
    unfold network.WalkEndpoints at h ⊢
    have h1 := Endpoints_fst E w n
    revert h h1
    cases n.Endpoints E w with
    | mk w1 eps =>
      intro h h1
      simp only at h h1 ⊢
      subst h1
      revert h
      cases walkLoop (fun (e : Option endpoint) (current : endpoint) =>
          if current.name = name then (some current, true) else (e, false)) none eps with
      | none => intro h; simp at h
      | some e1 => intro h; simp at h; simp [h]

/-- C3.  When the name is valid and `EndpointByName` finds an endpoint of that
name, `CreateEndpoint` returns the error `service endpoint with name %s already
exists` (built by `types.ForbiddenErrorf`) and no endpoint, and the only call
it has made is the read of the endpoints from the store: no address is assigned,
no driver is called, nothing is written to the store, no network state (and so
no endpoint count) is changed. -/
theorem CreateEndpoint_existing_name (E : Env) (w : World) (n : network) (name : String)
    (options : List (endpoint → endpoint)) (e : endpoint)
    (hvalid : E.IsValidName name = true)
    (hexists : (n.EndpointByName E w name).2 = .ok e) :
    n.CreateEndpoint E w name options =
      (w.emit (.getEndpointsFromStore n),
        .error (.ForbiddenErrorf "service endpoint with name %s already exists" [name])) := by
  unfold network.CreateEndpoint network.CreateEndpoint.prepare
  rw [EndpointByName_ok E w n name e hexists]
  simp [hvalid]

/-- C6.  When the network fetched from the store has an endpoint count other
than 0, `Delete` returns `ActiveEndpointsError` for the fetched network and
the only call it has made is that fetch: no driver call, no store write, no
IPAM release. -/
theorem Delete_active_endpoints (E : Env) (w : World) (n m : network)
    (hfetch : E.getNetworkFromStore w.trace n.id = .ok m)
    (hcnt : m.endpointCnt ≠ 0) :
    n.Delete E w =
      (w.emit (.getNetworkFromStore n.id), some (.ActiveEndpointsError m.name m.id)) := by
  unfold network.Delete
  simp [hfetch, network.EndpointCnt, hcnt]



theorem updateToStore_fst (E : Env) (w : World) (n : network) :
    (n.updateToStore E w).1 = w.emit (.updateToStore (.network n)) := by
  unfold network.updateToStore
  split <;> rfl

theorem updateToStore_cnt (E : Env) (w : World) (n : network) :
    (n.updateToStore E w).2.1.endpointCnt = n.endpointCnt := by
  unfold network.updateToStore
  split <;> rfl

/-- C7 (as amended).  On a network whose endpoint count is greater than 0,
`DecEndpointCnt` leaves the count one lower, hence at most the count before,
and hands the network with that count to the store. -/
theorem DecEndpointCnt_positive (E : Env) (w : World) (n : network)
    (hpos : 0 < n.endpointCnt) (hlt : n.endpointCnt < 2 ^ 64) :
    (n.DecEndpointCnt E w).2.1.endpointCnt = n.endpointCnt - 1 ∧
    (n.DecEndpointCnt E w).2.1.endpointCnt ≤ n.endpointCnt ∧
    (n.DecEndpointCnt E w).1 =
      w.emit (.updateToStore (.network { n with endpointCnt := n.endpointCnt - 1 })) := by
  have h : (n.endpointCnt + 2 ^ 64 - 1) % 2 ^ 64 = n.endpointCnt - 1 := by
    norm_num at hlt ⊢
    omega
  unfold network.DecEndpointCnt
  simp only [updateToStore_fst, updateToStore_cnt, h]
  refine ⟨trivial, ?_, trivial⟩
  omega

/-- The amended C7 at a network with three endpoints. -/
theorem DecEndpointCnt_positive_witness :
    ((({ sampleNet with endpointCnt := 3 } : network).DecEndpointCnt
      (Env.allOk sampleNet) World.init).2.1.endpointCnt = 2) :=
  (DecEndpointCnt_positive (Env.allOk sampleNet) World.init { sampleNet with endpointCnt := 3 }
    (by decide) (by decide)).1

/-- C7 fails as stated: on `sampleNet`, whose endpoint count is 0,
`DecEndpointCnt` leaves the count at `2 ^ 64 - 1`, which is not at most 0, and
hands the network with that count to the store. -/
theorem DecEndpointCnt_zero_wraps :
    sampleNet.endpointCnt = 0 ∧
    (sampleNet.DecEndpointCnt (Env.allOk sampleNet) World.init).2.1.endpointCnt
      = 18446744073709551615 ∧
    ¬ ((sampleNet.DecEndpointCnt (Env.allOk sampleNet) World.init).2.1.endpointCnt
      ≤ sampleNet.endpointCnt) ∧
    (sampleNet.DecEndpointCnt (Env.allOk sampleNet) World.init).1.trace =
      [.updateToStore (.network { sampleNet with endpointCnt := 18446744073709551615 })] := by
  refine ⟨rfl, rfl, ?_, rfl⟩
  decide

theorem driver_trace (E : Env) (w : World) (n : network) :
    ∃ pre, (n.driver E w).1.trace = w.trace ++ pre ∧ (n.driver E w).1.done = w.done ∧
      ∀ ev ∈ pre, ev.isStoreWrite = false ∧ ev.isIpamRelease = false := by
  unfold network.driver
  split
  · exact ⟨[], by simp⟩
  · split
    · exact ⟨[.loadDriver n.networkType], by simp [Event.isStoreWrite, Event.isIpamRelease]⟩
    · exact ⟨[.loadDriver n.networkType], by simp [Event.isStoreWrite, Event.isIpamRelease]⟩

theorem bridgeOnce_trace (E : Env) (w : World) (n : network) :
    ∃ pre, (n.bridgeOnce E w).1.trace = w.trace ++ pre ∧
      ∀ ev ∈ pre, ev.isStoreWrite = false ∧ ev.isIpamRelease = false := by
  unfold network.bridgeOnce
  split
  · split
    · exact ⟨[], by simp⟩
    · exact ⟨[.addNetwork n], by simp [Event.isStoreWrite, Event.isIpamRelease]⟩
  · exact ⟨[], by simp⟩

theorem addEndpoint_trace (E : Env) (w : World) (n : network) (ep : endpoint) :
    ∃ pre, (n.addEndpoint E w ep).1.trace = w.trace ++ pre ∧
      (∀ ev ∈ pre, ev.isStoreWrite = false ∧ ev.isIpamRelease = false) ∧
      ((n.addEndpoint E w ep).2 = none →
        ∃ mid d, pre = mid ++ [.CreateEndpoint d n.id ep.id]) := by
  unfold network.addEndpoint
  obtain ⟨p1, h1, -, q1⟩ := driver_trace E w n
  rcases hd : n.driver E w with ⟨w1, r1⟩
  rw [hd] at h1
  cases r1 with
  | error err => exact ⟨p1, h1, q1, by simp⟩
  | ok d =>
    simp only
    obtain ⟨p2, h2, q2⟩ := bridgeOnce_trace E w1 n
    rcases hb : n.bridgeOnce E w1 with ⟨w2, r2⟩
    rw [hb] at h2
    simp only at h1 h2
    cases r2 with
    | some err =>
      refine ⟨p1 ++ p2, by simp [h2, h1], ?_, by simp⟩
      intro ev hev
      rcases List.mem_append.1 hev with h | h
      · exact q1 ev h
      · exact q2 ev h
    | none =>
      simp only
      have hq : ∀ ev ∈ p1 ++ p2 ++ [Event.CreateEndpoint d n.id ep.id],
          ev.isStoreWrite = false ∧ ev.isIpamRelease = false := by
        intro ev hev
        rcases List.mem_append.1 hev with h | h
        · rcases List.mem_append.1 h with h | h
          · exact q1 ev h
          · exact q2 ev h
        · simp at h; subst h; simp [Event.isStoreWrite, Event.isIpamRelease]
      split
      · exact ⟨p1 ++ p2 ++ [.CreateEndpoint d n.id ep.id], by simp [h2, h1], hq, by simp⟩
      · exact ⟨p1 ++ p2 ++ [.CreateEndpoint d n.id ep.id], by simp [h2, h1], hq,
          fun _ => ⟨p1 ++ p2, d, rfl⟩⟩

theorem ep_updateToStore_fst (E : Env) (w : World) (ep : endpoint) :
    (ep.updateToStore E w).1 = w.emit (.updateToStore (.endpoint ep)) := by
  unfold endpoint.updateToStore
  split <;> rfl

theorem IncEndpointCnt_fst (E : Env) (w : World) (n : network) :
    (n.IncEndpointCnt E w).1 =
      w.emit (.updateToStore (.network { n with endpointCnt := (n.endpointCnt + 1) % 2 ^ 64 })) := by
  unfold network.IncEndpointCnt
  simp only [updateToStore_fst]

theorem IncEndpointCnt_cnt (E : Env) (w : World) (n : network) :
    (n.IncEndpointCnt E w).2.1.endpointCnt = (n.endpointCnt + 1) % 2 ^ 64 := by
  unfold network.IncEndpointCnt
  simp only [updateToStore_cnt]

theorem deferRelease_some (err : Error) (ep : endpoint) (w : World) :
    CreateEndpoint.deferRelease (some err) ep w = w.emit (.releaseAddress ep) := rfl

theorem deferDeleteEndpoint_some (E : Env) (err : Error) (ep : endpoint) (w : World) :
    CreateEndpoint.deferDeleteEndpoint E (some err) ep w = w.emit (.deleteEndpoint ep) := by
  simp only [CreateEndpoint.deferDeleteEndpoint]
  split <;> rfl

theorem deferDeleteFromStore_some (E : Env) (err : Error) (ep : endpoint) (w : World) :
    CreateEndpoint.deferDeleteFromStore E (some err) ep w =
      w.emit (.deleteFromStore (.endpoint ep)) := by
  simp only [CreateEndpoint.deferDeleteFromStore]
  split <;> rfl

theorem prepare_ok (E : Env) (w : World) (n : network) (name : String)
    (options : List (endpoint → endpoint)) (w1 : World) (ep : endpoint) (fetched : network)
    (h : network.CreateEndpoint.prepare E w n name options = (w1, .ok (ep, fetched))) :
    ∃ (pre : List Event) (epA ep0 : endpoint),
      E.epGetNetworkFromStore (w.trace ++ pre) epA = .ok fetched ∧
      E.assignAddress (w.trace ++ pre ++ [.epGetNetworkFromStore epA]) ep0 = .ok ep ∧
      w1.trace = w.trace ++ pre ++ [.epGetNetworkFromStore epA, .assignAddress ep0] ∧
      w1.done = w.done ∧
      ∀ ev ∈ pre, ev.isStoreWrite = false ∧ ev.isIpamRelease = false := by
  unfold network.CreateEndpoint.prepare at h
  split at h
  · simp at h
  · rcases hb : n.EndpointByName E w name with ⟨w0, r0⟩
    rw [hb] at h
    have hw0 : ∃ p0, w0.trace = w.trace ++ p0 ∧ w0.done = w.done ∧
        ∀ ev ∈ p0, ev.isStoreWrite = false ∧ ev.isIpamRelease = false := by
      unfold network.EndpointByName at hb
      split at hb
      · simp at hb; exact ⟨[], by simp [← hb.1]⟩
      · unfold network.WalkEndpoints at hb
        have h1 := Endpoints_fst E w n
        rcases he : n.Endpoints E w with ⟨w', eps⟩
        rw [he] at hb h1
        simp only at h1 hb
        have : w0 = w' := by
          generalize walkLoop _ _ eps = r at hb
          cases r <;> (simp at hb; exact hb.1.symm)
        subst this
        exact ⟨[.getEndpointsFromStore n], by
          simp [h1, Event.isStoreWrite, Event.isIpamRelease]⟩
    obtain ⟨p0, hp0, hd0, hq0⟩ := hw0
    cases r0 with
    | ok e => simp at h
    | error e0 =>
      simp only at h
      split at h
      · simp at h
      · rename_i fetched' hf
        split at h
        · simp at h
        · rename_i ep' ha
          simp only [Prod.mk.injEq, Except.ok.injEq] at h
          obtain ⟨hw, hep, hn⟩ := h
          subst hw hep hn
          refine ⟨p0 ++ [.GenerateRandomID],
            { name := name, id := E.GenerateRandomID w0.trace, network := some n, generic := [],
              iface := { addr := none } },
            endpoint.processOptions
              { name := name, id := E.GenerateRandomID w0.trace, network := some fetched',
                generic := [], iface := { addr := none } } options, ?_, ?_, ?_, ?_, ?_⟩
          · simpa [hp0] using hf
          · simpa [hp0] using ha
          · simp [hp0]
          · simp [hd0]
          · intro ev hev
            rcases List.mem_append.1 hev with h | h
            · exact hq0 ev h
            · simp at h; subst h; simp [Event.isStoreWrite, Event.isIpamRelease]

theorem getLast?_append_three {α : Type} (l : List α) (a b c : α) :
    (l ++ [a, b, c]).getLast? = some c := by
  simp

theorem commit_deferred_none (E : Env) (ep : endpoint) (w : World) :
    runDeferred [CreateEndpoint.deferDeleteFromStore E, CreateEndpoint.deferDeleteEndpoint E,
      CreateEndpoint.deferRelease] none ep w = w := by
  simp [runDeferred, CreateEndpoint.deferDeleteFromStore, CreateEndpoint.deferDeleteEndpoint,
    CreateEndpoint.deferRelease]

/-- C4 (as amended).  When `CreateEndpoint` returns an endpoint `ep` on the
network state `m`, there is a network `fetched`, the answer of the store to the
re-fetch made at the start of the call, such that the endpoint count of `m` is
that of `fetched` plus one modulo `2 ^ 64`, which is exactly one more whenever
the fetched count is below `2 ^ 64 - 1`.  The calls made are, in order: the
re-fetch, the address assignment, the resolution of the driver (`mid`, no store
write), the driver call `CreateEndpoint`, the store write of the endpoint, and
last the store write of the network with the incremented count. -/
theorem CreateEndpoint_success (E : Env) (w : World) (n : network) (name : String)
    (options : List (endpoint → endpoint)) (ep : endpoint) (m : network)
    (hok : (n.CreateEndpoint E w name options).2 = .ok (ep, m)) :
    ∃ (pre mid : List Event) (epA ep0 : endpoint) (fetched written : network) (d : Nat),
      E.epGetNetworkFromStore (w.trace ++ pre) epA = .ok fetched ∧
      (n.CreateEndpoint E w name options).1.trace =
        w.trace ++ pre ++ [.epGetNetworkFromStore epA, .assignAddress ep0] ++ mid ++
          [.CreateEndpoint d fetched.id ep.id, .updateToStore (.endpoint ep),
           .updateToStore (.network written)] ∧
      (∀ ev ∈ pre ++ mid, ev.isStoreWrite = false) ∧
      written.endpointCnt = (fetched.endpointCnt + 1) % 2 ^ 64 ∧
      m.endpointCnt = (fetched.endpointCnt + 1) % 2 ^ 64 ∧
      (fetched.endpointCnt + 1 < 2 ^ 64 →
        m.endpointCnt = fetched.endpointCnt + 1 ∧
        written.endpointCnt = fetched.endpointCnt + 1) := by
  unfold network.CreateEndpoint at hok ⊢
  rcases hp : network.CreateEndpoint.prepare E w n name options with ⟨w1, r⟩
  rw [hp] at hok
  cases r with
  | error err => simp at hok
  | ok pr =>
    obtain ⟨ep1, fetched⟩ := pr
    obtain ⟨pre, epA, ep0, hf, -, hw1, -, hq1⟩ := prepare_ok E w n name options w1 ep1 fetched hp
    simp only at hok ⊢
    unfold network.CreateEndpoint.commit at hok ⊢
    obtain ⟨p2, h2, q2, hs2⟩ := addEndpoint_trace E w1 fetched ep1
    rcases ha : fetched.addEndpoint E w1 ep1 with ⟨w2, r2⟩
    rw [ha] at hok h2 hs2
    cases r2 with
    | some err => simp at hok
    | none =>
      obtain ⟨mid, d, hmid⟩ := hs2 rfl
      simp only at hok h2 ⊢
      have hu1 := ep_updateToStore_fst E w2 ep1
      rcases hu : ep1.updateToStore E w2 with ⟨w3, r3⟩
      rw [hu] at hok hu1
      cases r3 with
      | some err => simp at hok
      | none =>
        simp only at hok hu1 ⊢
        have hi1 := IncEndpointCnt_fst E w3 fetched
        have hi2 := IncEndpointCnt_cnt E w3 fetched
        rcases hi : fetched.IncEndpointCnt E w3 with ⟨w4, m', r4⟩
        rw [hi] at hok hi1 hi2
        cases r4 with
        | some err => simp at hok
        | none =>
          simp only [Except.ok.injEq, Prod.mk.injEq] at hok hi1 hi2 ⊢
          obtain ⟨hep, hm⟩ := hok
          subst hep hm
          have hmod : ∀ c : Nat, c + 1 < 2 ^ 64 → (c + 1) % 2 ^ 64 = c + 1 :=
            fun c hc => Nat.mod_eq_of_lt hc
          refine ⟨pre, mid, epA, ep0, fetched,
            { fetched with endpointCnt := (fetched.endpointCnt + 1) % 2 ^ 64 }, d, hf, ?_, ?_,
            rfl, hi2, ?_⟩
          · rw [commit_deferred_none, hi1, World.emit_trace, hu1, World.emit_trace, h2, hmid, hw1]
            simp
          · intro ev hev
            rcases List.mem_append.1 hev with h | h
            · exact (hq1 ev h).1
            · exact (q2 ev (by rw [hmid]; exact List.mem_append_left _ h)).1
          · intro hlt
            exact ⟨by rw [hi2, hmod _ hlt], hmod _ hlt⟩

/-- C4 fails as stated: when the store returns a network whose endpoint count
is `2 ^ 64 - 1`, `CreateEndpoint` succeeds and leaves the count at 0, not at one
more than the fetched count. -/
theorem CreateEndpoint_count_wraps :
    ∃ (ep : endpoint) (m : network),
      (sampleNet.CreateEndpoint (Env.allOk { sampleNet with endpointCnt := 18446744073709551615 })
        World.init "web" []).2 = .ok (ep, m) ∧
      (∀ tr e, ((Env.allOk { sampleNet with endpointCnt := 18446744073709551615 }).epGetNetworkFromStore
        tr e).map network.endpointCnt = .ok 18446744073709551615) ∧
      m.endpointCnt = 0 ∧
      m.endpointCnt ≠ 18446744073709551615 + 1 :=
  ⟨_, _, rfl, fun _ _ => rfl, rfl, by decide⟩

/-- The amended C4 on `sampleNet` with collaborators that all succeed: the
count goes from 0 to 1 and the last call writes the network with count 1. -/
theorem CreateEndpoint_success_witness :
    ∃ (ep : endpoint) (m written : network),
      (sampleNet.CreateEndpoint (Env.allOk sampleNet) World.init "web" []).2 = .ok (ep, m) ∧
      m.endpointCnt = 1 ∧
      (sampleNet.CreateEndpoint (Env.allOk sampleNet) World.init "web" []).1.trace.getLast? =
        some (.updateToStore (.network written)) ∧
      written.endpointCnt = 1 := by
  obtain ⟨pre, mid, epA, ep0, fetched, written, d, hf, htr, -, hw, hm, -⟩ :=
    CreateEndpoint_success (Env.allOk sampleNet) World.init sampleNet "web" [] _ _ rfl
  have hfe : fetched = sampleNet := by
    have : Except.ok sampleNet = Except.ok fetched := hf
    injection this with h
    exact h.symm
  subst hfe
  exact ⟨_, _, written, rfl, hm, (congrArg List.getLast? htr).trans (getLast?_append_three _ _ _ _), hw⟩

/-- C5.  Let `prepare` have succeeded: the address is assigned, `ep` is the
endpoint and `fetched` the network.  (a) If `addEndpoint` fails with `err`,
`CreateEndpoint` returns `err` and no endpoint, the only call after
`addEndpoint` is the release of the address, and no call since the address
assignment wrote to the store.  (b) If the store write of the endpoint fails
with `err`, `CreateEndpoint` returns `err` and then deletes the endpoint from
the driver and releases the address, in this order.  (c) If the increment of
the endpoint count fails with `err`, `CreateEndpoint` returns `err` and then
deletes the endpoint from the store, deletes it from the driver and releases
the address, in this order. -/
theorem CreateEndpoint_unwinds (E : Env) (w : World) (n : network) (name : String)
    (options : List (endpoint → endpoint)) (w1 : World) (ep : endpoint) (fetched : network)
    (hprep : network.CreateEndpoint.prepare E w n name options = (w1, .ok (ep, fetched))) :
    (∀ err, (fetched.addEndpoint E w1 ep).2 = some err →
      n.CreateEndpoint E w name options =
        ((fetched.addEndpoint E w1 ep).1.emit (.releaseAddress ep), .error err) ∧
      ∃ evs, (fetched.addEndpoint E w1 ep).1.trace = w1.trace ++ evs ∧
        ∀ ev ∈ evs, ev.isStoreWrite = false) ∧
    (∀ err, (fetched.addEndpoint E w1 ep).2 = none →
      (ep.updateToStore E (fetched.addEndpoint E w1 ep).1).2 = some err →
      n.CreateEndpoint E w name options =
        ((((fetched.addEndpoint E w1 ep).1.emit (.updateToStore (.endpoint ep))).emit
            (.deleteEndpoint ep)).emit (.releaseAddress ep), .error err)) ∧
    (∀ err, (fetched.addEndpoint E w1 ep).2 = none →
      (ep.updateToStore E (fetched.addEndpoint E w1 ep).1).2 = none →
      (fetched.IncEndpointCnt E
        ((fetched.addEndpoint E w1 ep).1.emit (.updateToStore (.endpoint ep)))).2.2 = some err →
      n.CreateEndpoint E w name options =
        ((((((fetched.addEndpoint E w1 ep).1.emit (.updateToStore (.endpoint ep))).emit
            (.updateToStore (.network
              { fetched with endpointCnt := (fetched.endpointCnt + 1) % 2 ^ 64 }))).emit
            (.deleteFromStore (.endpoint ep))).emit (.deleteEndpoint ep)).emit
            (.releaseAddress ep), .error err)) := by
  unfold network.CreateEndpoint
  rw [hprep]
  simp only
  unfold network.CreateEndpoint.commit
  obtain ⟨p2, h2, q2, -⟩ := addEndpoint_trace E w1 fetched ep
  rcases ha : fetched.addEndpoint E w1 ep with ⟨w2, r2⟩
  rw [ha] at h2
  simp only at h2 ⊢
  have hu1 := ep_updateToStore_fst E w2 ep
  rcases hu : ep.updateToStore E w2 with ⟨w3, r3⟩
  rw [hu] at hu1
  simp only at hu1 ⊢
  subst hu1
  have hi1 := IncEndpointCnt_fst E (w2.emit (.updateToStore (.endpoint ep))) fetched
  rcases hi : fetched.IncEndpointCnt E (w2.emit (.updateToStore (.endpoint ep)))
    with ⟨w4, m', r4⟩
  rw [hi] at hi1
  simp only at hi1 ⊢
  subst hi1
  refine ⟨?_, ?_, ?_⟩
  · intro err he
    subst he
    exact ⟨by simp [runDeferred, deferRelease_some], p2, h2, fun ev hev => (q2 ev hev).1⟩
  · intro err he1 he2
    subst he1 he2
    simp [hu, runDeferred, deferRelease_some, deferDeleteEndpoint_some]
  · intro err he1 he2 he3
    subst he1 he2 he3
    simp [hu, hi, runDeferred, deferRelease_some, deferDeleteEndpoint_some,
      deferDeleteFromStore_some]

/-- C5 (a) with a driver whose `CreateEndpoint` fails: the calls made and the
error returned. -/
theorem CreateEndpoint_unwinds_witness :
    (sampleNet.CreateEndpoint
      { Env.allOk sampleNet with CreateEndpoint := fun _ _ _ _ _ => some ⟨7, false⟩ }
      World.init "web" []).1.trace =
      [.getEndpointsFromStore sampleNet, .GenerateRandomID,
       .epGetNetworkFromStore
         { name := "web", id := "ep-id", network := some sampleNet, generic := [],
           iface := { addr := none } },
       .assignAddress
         { name := "web", id := "ep-id", network := some sampleNet, generic := [],
           iface := { addr := none } },
       .CreateEndpoint 1 "net-1" "ep-id",
       .releaseAddress
         { name := "web", id := "ep-id", network := some sampleNet, generic := [],
           iface := { addr := none } }] ∧
    (sampleNet.CreateEndpoint
      { Env.allOk sampleNet with CreateEndpoint := fun _ _ _ _ _ => some ⟨7, false⟩ }
      World.init "web" []).2 =
      .error (.InternalErrorfErr "failed to create endpoint %s on network %s: %v"
        ["web", "app"] (.external ⟨7, false⟩)) := by
  have h := (CreateEndpoint_unwinds
    { Env.allOk sampleNet with CreateEndpoint := fun _ _ _ _ _ => some ⟨7, false⟩ }
    World.init sampleNet "web" [] _ _ _ rfl).1 _ rfl
  rw [h.1]
  exact ⟨rfl, rfl⟩

theorem deleteNetwork_trace (E : Env) (w : World) (n : network) :
    ∃ pre, (n.deleteNetwork E w).1.trace = w.trace ++ pre ∧
      ∀ ev ∈ pre, ev.isStoreWrite = false ∧ ev.isIpamRelease = false := by
  unfold network.deleteNetwork
  obtain ⟨p1, h1, -, q1⟩ := driver_trace E w n
  rcases hd : n.driver E w with ⟨w1, r1⟩
  rw [hd] at h1
  cases r1 with
  | error err => exact ⟨p1, h1, q1⟩
  | ok d =>
    simp only
    obtain ⟨p2, h2, q2⟩ := bridgeOnce_trace E w1 n
    rcases hb : n.bridgeOnce E w1 with ⟨w2, r2⟩
    rw [hb] at h2
    simp only at h1 h2
    have q12 : ∀ ev ∈ p1 ++ p2, ev.isStoreWrite = false ∧ ev.isIpamRelease = false := by
      intro ev hev
      rcases List.mem_append.1 hev with h | h
      · exact q1 ev h
      · exact q2 ev h
    cases r2 with
    | some err => exact ⟨p1 ++ p2, by simp [h2, h1], q12⟩
    | none =>
      simp only
      have hq : ∀ ev ∈ p1 ++ p2 ++ [Event.DeleteNetwork d n.ID],
          ev.isStoreWrite = false ∧ ev.isIpamRelease = false := by
        intro ev hev
        rcases List.mem_append.1 hev with h | h
        · exact q12 ev h
        · simp at h; subst h; simp [Event.isStoreWrite, Event.isIpamRelease]
      split
      · split
        · exact ⟨p1 ++ p2 ++ [.DeleteNetwork d n.ID], by simp [h2, h1], hq⟩
        · exact ⟨p1 ++ p2 ++ [.DeleteNetwork d n.ID], by simp [h2, h1], hq⟩
      · exact ⟨p1 ++ p2 ++ [.DeleteNetwork d n.ID], by simp [h2, h1], hq⟩

theorem deferAddNetwork_some (E : Env) (err : Error) (n : network) (w : World) :
    Delete.deferAddNetwork E (some err) n w = w.emit (.addNetwork n) := by
  simp only [Delete.deferAddNetwork]
  split <;> rfl

theorem ipamReleaseAddress_eq (E : Env) (ipam : Nat) (poolID format : String) (w : World)
    (ip : IP) :
    ipamReleaseAddress E ipam poolID format w ip = w.emit (.ReleaseAddress ipam poolID ip) := by
  unfold ipamReleaseAddress
  split <;> rfl

theorem ipamReleasePool_eq (E : Env) (ipam : Nat) (poolID format : String) (w : World) :
    ipamReleasePool E ipam poolID format w = w.emit (.ReleasePool ipam poolID) := by
  unfold ipamReleasePool
  split <;> rfl

theorem releaseAux_trace (ipam : Nat) (poolID : String) (aux : List (String × IPNet))
    (w : World) :
    (aux.foldl (fun (w : World) (knw : String × IPNet) =>
        w.emit (.ReleaseAddress ipam poolID knw.2.IP)) w).trace =
      w.trace ++ aux.map (fun knw => Event.ReleaseAddress ipam poolID knw.2.IP) := by
  induction aux generalizing w with
  | nil => simp
  | cons a rest ih =>
    simp only [List.foldl_cons, List.map_cons]
    rw [ih]
    simp

theorem ipamReleaseInfo_trace (E : Env) (ipam : Nat) (w : World) (d : IpamInfo) :
    (network.ipamReleaseInfo E ipam w d).trace = w.trace ++ releaseEvents ipam d := by
  unfold network.ipamReleaseInfo releaseEvents
  simp only [ipamReleaseAddress_eq, ipamReleasePool_eq]
  cases d.IPAMData.Gateway <;> cases d.IPAMData.AuxAddresses <;> simp [releaseAux_trace]

theorem ipamRelease_fold_trace (E : Env) (ipam : Nat) (infos : List IpamInfo) (w : World) :
    (infos.foldl (network.ipamReleaseInfo E ipam) w).trace =
      w.trace ++ (infos.map (releaseEvents ipam)).flatten := by
  induction infos generalizing w with
  | nil => simp
  | cons d rest ih =>
    simp only [List.foldl_cons, List.map_cons, List.flatten_cons]
    rw [ih, ipamReleaseInfo_trace]
    simp

theorem ipamRelease_trace (E : Env) (w : World) (n : network) :
    ∃ evs, (n.ipamRelease E w).trace = w.trace ++ evs := by
  unfold network.ipamRelease
  split
  · exact ⟨[], by simp⟩
  · split
    · exact ⟨[.getIpamDriver n.ipamType], by simp⟩
    · exact ⟨_, by rw [ipamRelease_fold_trace, World.emit_trace, List.append_assoc]⟩

theorem afterDriver_first_call (E : Env) (w : World) (n : network) :
    ∃ rest, (network.Delete.afterDriver E w n).1.trace =
      w.trace ++ Event.deleteFromStore (.network n) :: rest := by
  unfold network.Delete.afterDriver
  split
  · split
    · exact ⟨[.addNetwork n], by simp [runDeferred, deferAddNetwork_some]⟩
    · exact ⟨[.addNetwork n], by simp [runDeferred, deferAddNetwork_some]⟩
  · obtain ⟨evs, h⟩ := ipamRelease_trace E (w.emit (.deleteFromStore (.network n))) n
    exact ⟨evs, by simp [runDeferred, Delete.deferRecreate, Delete.deferAddNetwork, h]⟩

/-- C8.  Let `Delete` have fetched `m` with endpoint count 0, resolved the
driver `d` and passed the bridge registration, reaching the world `w3` with no
store write and no IPAM release so far.  If
`DeleteNetwork` answers with a forbidden error, `Delete` returns that error and
the driver call is its last call: no store delete, no re-add of the network, no
IPAM release.  If `DeleteNetwork` answers with any other error, `Delete` is the
rest of the method (`afterDriver`: conditional store delete and what follows)
run from the world after the driver call, which is also what `Delete` is when
`DeleteNetwork` answers without error; its first call is the store delete. -/
theorem Delete_driver_answer (E : Env) (w : World) (n m : network) (w2 w3 : World) (d : Nat)
    (hfetch : E.getNetworkFromStore w.trace n.id = .ok m)
    (hcnt : m.endpointCnt = 0)
    (hdrv : m.driver E (w.emit (.getNetworkFromStore n.id)) = (w2, .ok d))
    (hreg : m.bridgeOnce E w2 = (w3, none)) :
    (∀ err, E.DeleteNetwork w3.trace d m.id = some err → err.forbidden = true →
      n.Delete E w = (w3.emit (.DeleteNetwork d m.id), some (.external err))) ∧
    (∀ err, E.DeleteNetwork w3.trace d m.id = some err → err.forbidden = false →
      n.Delete E w = network.Delete.afterDriver E (w3.emit (.DeleteNetwork d m.id)) m) ∧
    (E.DeleteNetwork w3.trace d m.id = none →
      n.Delete E w = network.Delete.afterDriver E (w3.emit (.DeleteNetwork d m.id)) m) ∧
    (∃ rest, (network.Delete.afterDriver E (w3.emit (.DeleteNetwork d m.id)) m).1.trace =
      w3.trace ++ [.DeleteNetwork d m.id, .deleteFromStore (.network m)] ++ rest) ∧
    (∃ pre, w3.trace = w.trace ++ [.getNetworkFromStore n.id] ++ pre ∧
      ∀ ev ∈ pre, ev.isStoreWrite = false ∧ ev.isIpamRelease = false) := by
  unfold network.Delete
  simp only [hfetch, network.EndpointCnt, hcnt, ne_eq, not_true_eq_false, if_false]
  unfold network.deleteNetwork
  simp only [hdrv, hreg, network.ID]
  refine ⟨?_, ?_, ?_, ?_, ?_⟩
  · intro err he hf
    simp [he, hf]
  · intro err he hf
    simp [he, hf]
  · intro he
    simp [he]
  · obtain ⟨rest, h⟩ := afterDriver_first_call E (w3.emit (.DeleteNetwork d m.id)) m
    exact ⟨rest, by rw [h]; simp⟩
  · obtain ⟨p1, h1, -, q1⟩ := driver_trace E (w.emit (.getNetworkFromStore n.id)) m
    obtain ⟨p2, h2, q2⟩ := bridgeOnce_trace E w2 m
    rw [hdrv] at h1
    rw [hreg] at h2
    simp only [World.emit_trace] at h1 h2
    refine ⟨p1 ++ p2, by rw [h2, h1]; simp, ?_⟩
    intro ev hev
    rcases List.mem_append.1 hev with h | h
    · exact q1 ev h
    · exact q2 ev h

/-- C8 with a driver whose `DeleteNetwork` answers with a forbidden error. -/
theorem Delete_driver_answer_witness :
    network.Delete
      { Env.allOk sampleNet with DeleteNetwork := fun _ _ _ => some ⟨3, true⟩ }
      World.init sampleNet =
      ((World.init.emit (.getNetworkFromStore "net-1")).emit (.DeleteNetwork 1 "net-1"),
        some (.external ⟨3, true⟩)) :=
  (Delete_driver_answer
    { Env.allOk sampleNet with DeleteNetwork := fun _ _ _ => some ⟨3, true⟩ }
    World.init sampleNet sampleNet _ _ 1 rfl rfl rfl rfl).1 ⟨3, true⟩ rfl rfl

/-- C9.  Let `Delete` have fetched `m` with endpoint count 0 and `deleteNetwork`
have returned nil in the world `w2`, with no store write or IPAM release so
far.  If the store delete answers with an error, the calls of `Delete` after
`w2` are exactly the one store delete and the re-add of the network
(`addNetwork`), so nothing is released from IPAM.  For `ErrKeyModified` the
result is the error `operation in progress. delete failed for network %s.
Please try again.` (built by `types.InternalErrorf`), not the error of the
store; for any other error the result is that error. -/
theorem Delete_store_delete_fails (E : Env) (w : World) (n m : network) (w2 : World)
    (err : Error)
    (hfetch : E.getNetworkFromStore w.trace n.id = .ok m)
    (hcnt : m.endpointCnt = 0)
    (hdrv : m.deleteNetwork E (w.emit (.getNetworkFromStore n.id)) = (w2, none))
    (hstore : E.deleteFromStore w2.trace (.network m) = some err) :
    (n.Delete E w).1.trace = w2.trace ++ [.deleteFromStore (.network m), .addNetwork m] ∧
    (∃ pre, w2.trace = w.trace ++ [.getNetworkFromStore n.id] ++ pre ∧
      ∀ ev ∈ pre, ev.isStoreWrite = false ∧ ev.isIpamRelease = false) ∧
    (err = .ErrKeyModified →
      (n.Delete E w).2 = some (.InternalErrorf
        "operation in progress. delete failed for network %s. Please try again." []) ∧
      (n.Delete E w).2 ≠ some err) ∧
    (err ≠ .ErrKeyModified → (n.Delete E w).2 = some err) := by
  obtain ⟨pre, hp, hq⟩ := deleteNetwork_trace E (w.emit (.getNetworkFromStore n.id)) m
  rw [hdrv] at hp
  unfold network.Delete
  simp only [hfetch, network.EndpointCnt, hcnt, ne_eq, not_true_eq_false, if_false, hdrv]
  unfold network.Delete.afterDriver
  simp only [hstore]
  refine ⟨?_, ⟨pre, by simpa using hp, hq⟩, ?_, ?_⟩
  · split <;> simp [runDeferred, deferAddNetwork_some]
  · intro he
    subst he
    simp
  · intro he
    simp [he]

/-- C9 with a store whose delete answers `ErrKeyModified`. -/
theorem Delete_store_delete_fails_witness :
    (network.Delete
      { Env.allOk sampleNet with deleteFromStore := fun _ _ => some .ErrKeyModified }
      World.init sampleNet).1.trace =
      [.getNetworkFromStore "net-1", .DeleteNetwork 1 "net-1",
       .deleteFromStore (.network sampleNet), .addNetwork sampleNet] ∧
    (network.Delete
      { Env.allOk sampleNet with deleteFromStore := fun _ _ => some .ErrKeyModified }
      World.init sampleNet).2 = some (.InternalErrorf
        "operation in progress. delete failed for network %s. Please try again." []) := by
  have h := Delete_store_delete_fails
    { Env.allOk sampleNet with deleteFromStore := fun _ _ => some .ErrKeyModified }
    World.init sampleNet sampleNet _ .ErrKeyModified rfl rfl rfl rfl
  exact ⟨h.1, (h.2.2.1 rfl).1⟩

/-- C10.  Let the fetched network `m` be of a type other than `host`, `null`
and `bridge`, with endpoint count 0, let `deleteNetwork` have returned nil in
the world `w2`, let the store delete succeed and the IPAM driver resolve to
`ipam`.  Then `Delete` returns nil and its calls after `w2` are the store
delete, the lookup of the IPAM driver and, for every entry of `ipamV4Info` in
order, `releaseEvents`: the release of the gateway when present, of every
auxiliary address, then of the pool, each once.  The answers of the release
calls are not constrained, so their failures change neither the calls nor the
result.  (The auxiliary addresses are released in the order of the
association list; Go ranges over the map in an unspecified order.) -/
theorem Delete_releases_ipam (E : Env) (w : World) (n m : network) (w2 : World) (ipam : Nat)
    (htype : m.networkType ≠ "host" ∧ m.networkType ≠ "null" ∧ m.networkType ≠ "bridge")
    (hfetch : E.getNetworkFromStore w.trace n.id = .ok m)
    (hcnt : m.endpointCnt = 0)
    (hdrv : m.deleteNetwork E (w.emit (.getNetworkFromStore n.id)) = (w2, none))
    (hstore : E.deleteFromStore w2.trace (.network m) = none)
    (hipam : E.getIpamDriver (w2.trace ++ [.deleteFromStore (.network m)]) m.ipamType
      = .ok ipam) :
    (n.Delete E w).2 = none ∧
    (n.Delete E w).1.trace =
      w2.trace ++ [.deleteFromStore (.network m), .getIpamDriver m.ipamType] ++
        (m.ipamV4Info.map (releaseEvents ipam)).flatten := by
  unfold network.Delete
  simp only [hfetch, network.EndpointCnt, hcnt, ne_eq, not_true_eq_false, if_false, hdrv]
  unfold network.Delete.afterDriver
  simp only [hstore]
  refine ⟨trivial, ?_⟩
  unfold network.ipamRelease
  simp only [network.Type, htype.1, htype.2.1, htype.2.2, or_self, if_false, World.emit_trace,
    hipam]
  simp [runDeferred, Delete.deferRecreate, Delete.deferAddNetwork, ipamRelease_fold_trace]

namespace Plain

theorem parseQuoted_quote (s rest : List Char) :
    parseQuoted (quote s ++ '.' :: rest) = some (s, rest) := by
  induction s with
  | nil => simp [quote, parseQuoted]
  | cons c cs ih => simp [quote, parseQuoted, ih]

theorem parseBits_bits (ds : List Nat) (rest : List Char) (h : ∀ d ∈ ds, d < 2) :
    parseBits (bits ds ++ '.' :: rest) = some (ds, rest) := by
  induction ds with
  | nil => simp [bits, parseBits]
  | cons d ds ih =>
    have hd : d < 2 := h d (List.mem_cons_self _ _)
    have ih' := ih (fun x hx => h x (List.mem_cons_of_mem _ hx))
    unfold bits at ih' ⊢
    rcases Nat.lt_succ_iff.1 hd with hd1
    interval_cases d
    · simp [parseBits, ih']
    · simp [parseBits, ih']

theorem mkNum_parts (q : ℚ) :
    mkNum (if q < 0 then '-' else '+') q.num.natAbs q.den = q := by
  unfold mkNum
  by_cases h : q < 0
  · have hn : q.num < 0 := Rat.num_neg.2 h
    have hc : (q.num.natAbs : ℚ) = -(q.num : ℚ) := by
      have h1 : ((q.num.natAbs : ℤ)) = -q.num := by omega
      calc (q.num.natAbs : ℚ) = ((q.num.natAbs : ℤ) : ℚ) := (Int.cast_natCast _).symm
        _ = ((-q.num : ℤ) : ℚ) := by rw [h1]
        _ = -(q.num : ℚ) := Int.cast_neg _
    rw [if_pos h, if_pos rfl, hc]
    simp [Rat.num_div_den]
  · have hn : 0 ≤ q.num := Rat.num_nonneg.2 (not_lt.1 h)
    have hc : (q.num.natAbs : ℚ) = (q.num : ℚ) := by
      have h1 : ((q.num.natAbs : ℤ)) = q.num := by omega
      calc (q.num.natAbs : ℚ) = ((q.num.natAbs : ℤ) : ℚ) := (Int.cast_natCast _).symm
        _ = (q.num : ℚ) := by rw [h1]
    rw [if_neg h, if_neg (by decide), hc]
    simp [Rat.num_div_den]

theorem render_ne_nil (j : Json) : ∃ c cs, render j = c :: cs ∧ c ≠ ']' ∧ c ≠ '}' := by
  cases j with
  | null => exact ⟨'n', [], by simp [render], by decide, by decide⟩
  | bool b => cases b
              · exact ⟨'f', [], by simp [render], by decide, by decide⟩
              · exact ⟨'t', [], by simp [render], by decide, by decide⟩
  | num q =>
    exact ⟨'#', (if q < 0 then '-' else '+') ::
      (bits (Nat.digits 2 q.num.natAbs) ++ '.' :: (bits (Nat.digits 2 q.den) ++ ['.'])),
      by simp [render], by decide, by decide⟩
  | str s => exact ⟨'s', quote s.data ++ ['.'], by simp [render], by decide, by decide⟩
  | arr xs => exact ⟨'[', renderList xs ++ [']'], by simp [render], by decide, by decide⟩
  | obj kvs => exact ⟨'{', renderFields kvs ++ ['}'], by simp [render], by decide, by decide⟩

mutual
theorem parseVal_render (j : Json) (fuel : Nat) (rest : List Char)
    (h : (render j).length < fuel) : parseVal fuel (render j ++ rest) = some (j, rest) := by
  cases fuel with
  | zero => omega
  | succ f =>
    cases j with
    | null => simp [render, parseVal]
    | bool b => cases b <;> simp [render, parseVal]
    | num q =>
      have h1 := parseBits_bits (Nat.digits 2 q.num.natAbs)
        (bits (Nat.digits 2 q.den) ++ '.' :: rest)
        (fun d hd => Nat.digits_lt_base (by decide) hd)
      have h2 := parseBits_bits (Nat.digits 2 q.den) rest
        (fun d hd => Nat.digits_lt_base (by decide) hd)
      simp [render, parseVal, h1, h2, Nat.ofDigits_digits, mkNum_parts]
    | str s =>
      simp [render, parseVal, parseQuoted_quote]
    | arr xs =>
      have hl : (renderList xs).length + 1 < f := by simp [render] at h; omega
      simp [render, parseVal, parseList_render xs f rest hl]
    | obj kvs =>
      have hl : (renderFields kvs).length + 1 < f := by simp [render] at h; omega
      simp [render, parseVal, parseFields_render kvs f rest hl]
theorem parseList_render (xs : List Json) (fuel : Nat) (rest : List Char)
    (h : (renderList xs).length + 1 < fuel) :
    parseList fuel (renderList xs ++ ']' :: rest) = some (xs, rest) := by
  cases fuel with
  | zero => omega
  | succ f =>
    cases xs with
    | nil => simp [renderList, parseList]
    | cons x xs =>
      obtain ⟨c, cs, hc, hne, -⟩ := render_ne_nil x
      have hx : (render x).length < f := by simp [renderList] at h; omega
      have hxs : (renderList xs).length + 1 < f := by
        simp [renderList, hc] at h; omega
      have h1 := parseVal_render x f (renderList xs ++ ']' :: rest) hx
      have h2 := parseList_render xs f rest hxs
      rw [hc] at h1
      simp only [renderList, hc, List.cons_append, List.append_assoc, parseList, hne, if_false]
      simp only [List.cons_append] at h1
      rw [h1]
      simp [h2]
theorem parseFields_render (kvs : List (String × Json)) (fuel : Nat) (rest : List Char)
    (h : (renderFields kvs).length + 1 < fuel) :
    parseFields fuel (renderFields kvs ++ '}' :: rest) = some (kvs, rest) := by
  cases fuel with
  | zero => omega
  | succ f =>
    cases kvs with
    | nil => simp [renderFields, parseFields]
    | cons kv kvs =>
      obtain ⟨k, x⟩ := kv
      have hx : (render x).length < f := by simp [renderFields] at h; omega
      have hxs : (renderFields kvs).length + 1 < f := by
        simp [renderFields] at h; omega
      have h1 := parseVal_render x f (renderFields kvs ++ '}' :: rest) hx
      have h2 := parseFields_render kvs f rest hxs
      have h3 := parseQuoted_quote k.data (render x ++ (renderFields kvs ++ '}' :: rest))
      simp [renderFields, parseFields, h3, h1, h2]
end

theorem parse_render (j : Json) : parse (String.mk (render j)) = some j := by
  unfold parse
  have := parseVal_render j ((render j).length + 1) [] (Nat.lt_succ_self _)
  simp only [List.append_nil] at this
  simp [this]

end Plain

theorem mapIndex_cons {α : Type} (k1 : String) (v : α) (m : List (String × α)) (k : String) :
    mapIndex ((k1, v) :: m) k =
      match mapIndex m k with
      | some w => some w
      | none => if k1 = k then some v else none := rfl

theorem mapIndex_append {α : Type} (l1 l2 : List (String × α)) (k : String) :
    mapIndex (l1 ++ l2) k =
      match mapIndex l2 k with
      | some w => some w
      | none => mapIndex l1 k := by
  induction l1 with
  | nil =>
    rw [List.nil_append]
    cases mapIndex l2 k <;> rfl
  | cons a l1 ih =>
    obtain ⟨k', v⟩ := a
    rw [List.cons_append, mapIndex_cons, mapIndex_cons, ih]
    cases mapIndex l2 k <;> rfl

theorem mapIndex_filter_ne {α : Type} (m : List (String × α)) (k k' : String) (h : k ≠ k') :
    mapIndex (m.filter (fun kv => decide (kv.1 ≠ k))) k' = mapIndex m k' := by
  induction m with
  | nil => rfl
  | cons a m ih =>
    obtain ⟨k1, v⟩ := a
    by_cases h1 : k1 = k
    · subst h1
      have hf : List.filter (fun kv => decide (kv.1 ≠ k1)) ((k1, v) :: m)
          = List.filter (fun kv => decide (kv.1 ≠ k1)) m :=
        List.filter_cons_of_neg (by simp)
      rw [hf, ih, mapIndex_cons, if_neg h]
      cases mapIndex m k' <;> rfl
    · have hf : List.filter (fun kv => decide (kv.1 ≠ k)) ((k1, v) :: m)
          = (k1, v) :: List.filter (fun kv => decide (kv.1 ≠ k)) m :=
        List.filter_cons_of_pos (by simpa using h1)
      rw [hf, mapIndex_cons, mapIndex_cons, ih]

theorem mapIndex_mapAssign {α : Type} (m : List (String × α)) (k k' : String) (v : α) :
    mapIndex (mapAssign m k v) k' = if k = k' then some v else mapIndex m k' := by
  unfold mapAssign
  rw [mapIndex_append, mapIndex_cons]
  by_cases h : k = k'
  · rw [if_pos h, if_pos h]
    rfl
  · rw [if_neg h, if_neg h, mapIndex_filter_ne m k k' h]
    rfl

theorem marshalFields_recode (L : Codec) (m : List (String × GoVal))
    (js : List (String × Json)) (h : GoVal.marshalFields L m = .ok js) :
    Json.toIfaceFields js = recodeFields L m := by
  induction m generalizing js with
  | nil =>
    simp [GoVal.marshalFields] at h
    subst h
    rfl
  | cons a m ih =>
    obtain ⟨k1, v⟩ := a
    simp only [GoVal.marshalFields] at h
    cases hv : GoVal.marshal L v with
    | error e => simp [hv] at h
    | ok j =>
      cases hm : GoVal.marshalFields L m with
      | error e => simp [hv, hm] at h
      | ok js1 =>
        simp [hv, hm] at h
        subst h
        simp [Json.toIfaceFields, recodeFields, GoVal.recode, hv, ih js1 hm]

mutual
theorem jsonNative_marshal (L : Codec)
    (hfmt : ∀ q, roundF64 q = .finite q → roundF64 (L.formatFloat q) = .finite q)
    (v : GoVal) (h : v.jsonNative = true) :
    ∃ j, GoVal.marshal L v = .ok j ∧ j.toIface = v := by
  cases v with
  | nil => exact ⟨.null, rfl, rfl⟩
  | bool b => exact ⟨.bool b, rfl, rfl⟩
  | uint64 n => simp [GoVal.jsonNative] at h
  | float64 f =>
    cases f with
    | finite q =>
      simp only [GoVal.jsonNative, decide_eq_true_eq] at h
      exact ⟨.num (L.formatFloat q), rfl, by simp [Json.toIface, hfmt q h]⟩
    | inf neg => simp [GoVal.jsonNative] at h
    | nan => simp [GoVal.jsonNative] at h
  | str s => exact ⟨.str s, rfl, rfl⟩
  | slice xs =>
    simp only [GoVal.jsonNative] at h
    obtain ⟨js, h1, h2⟩ := jsonNativeList_marshal L hfmt xs h
    exact ⟨.arr js, by simp [GoVal.marshal, h1], by simp [Json.toIface, h2]⟩
  | map kvs =>
    simp only [GoVal.jsonNative] at h
    obtain ⟨js, h1, h2⟩ := jsonNativeFields_marshal L hfmt kvs h
    exact ⟨.obj js, by simp [GoVal.marshal, h1], by simp [Json.toIface, h2]⟩
  | strMap kvs => simp [GoVal.jsonNative] at h
  | chan => simp [GoVal.jsonNative] at h
theorem jsonNativeList_marshal (L : Codec)
    (hfmt : ∀ q, roundF64 q = .finite q → roundF64 (L.formatFloat q) = .finite q)
    (xs : List GoVal) (h : GoVal.jsonNativeList xs = true) :
    ∃ js, GoVal.marshalList L xs = .ok js ∧ Json.toIfaceList js = xs := by
  cases xs with
  | nil => exact ⟨[], rfl, rfl⟩
  | cons x xs =>
    simp only [GoVal.jsonNativeList, Bool.and_eq_true] at h
    obtain ⟨j, h1, h2⟩ := jsonNative_marshal L hfmt x h.1
    obtain ⟨js, h3, h4⟩ := jsonNativeList_marshal L hfmt xs h.2
    exact ⟨j :: js, by simp [GoVal.marshalList, h1, h3], by simp [Json.toIfaceList, h2, h4]⟩
theorem jsonNativeFields_marshal (L : Codec)
    (hfmt : ∀ q, roundF64 q = .finite q → roundF64 (L.formatFloat q) = .finite q)
    (kvs : List (String × GoVal)) (h : GoVal.jsonNativeFields kvs = true) :
    ∃ js, GoVal.marshalFields L kvs = .ok js ∧ Json.toIfaceFields js = kvs := by
  cases kvs with
  | nil => exact ⟨[], rfl, rfl⟩
  | cons kv kvs =>
    obtain ⟨k, x⟩ := kv
    simp only [GoVal.jsonNativeFields, Bool.and_eq_true] at h
    obtain ⟨j, h1, h2⟩ := jsonNative_marshal L hfmt x h.1
    obtain ⟨js, h3, h4⟩ := jsonNativeFields_marshal L hfmt kvs h.2
    exact ⟨(k, j) :: js, by simp [GoVal.marshalFields, h1, h3],
      by simp [Json.toIfaceFields, h2, h4]⟩
end

theorem recodeFields_native (L : Codec)
    (hfmt : ∀ q, roundF64 q = .finite q → roundF64 (L.formatFloat q) = .finite q)
    (g : List (String × GoVal)) (h : GoVal.jsonNativeFields g = true) :
    recodeFields L g = g := by
  obtain ⟨js, h1, h2⟩ := jsonNativeFields_marshal L hfmt g h
  rw [← marshalFields_recode L g js h1, h2]

theorem decodeStrFields_map (kvs : List (String × String)) :
    decodeStrFields (kvs.map (fun kv => (kv.1, Json.str kv.2))) = .ok kvs := by
  induction kvs with
  | nil => rfl
  | cons a rest ih =>
    obtain ⟨k, v⟩ := a
    simp [decodeStrFields, ih]

theorem decodeStrMap_encode (o : Option (List (String × String))) :
    decodeStrMap none (encodeStrMap o) = .ok o := by
  cases o with
  | none => rfl
  | some kvs => simp [encodeStrMap, decodeStrMap, decodeStrFields_map]

theorem IpamConf_fromJson_toJson (c : IpamConf) : IpamConf.fromJson c.toJson = .ok c := by
  unfold IpamConf.toJson IpamConf.fromJson
  simp [mapIndex, decodeStrField, decodeBoolField, decodeStrMapField, decodeStrMap_encode]

theorem decodeElems_confs (cs : List IpamConf) :
    decodeElems IpamConf.fromJson (cs.map IpamConf.toJson) = .ok cs := by
  induction cs with
  | nil => rfl
  | cons c cs ih => simp [decodeElems, IpamConf_fromJson_toJson, ih]

theorem marshalFields_strs (L : Codec) (mt : List (String × String)) :
    GoVal.marshalFields L (Json.toIfaceFields (mt.map (fun kv => (kv.1, Json.str kv.2)))) =
      .ok (mt.map (fun kv => (kv.1, Json.str kv.2))) := by
  induction mt with
  | nil => rfl
  | cons a rest ih =>
    obtain ⟨k, v⟩ := a
    simp [Json.toIfaceFields, Json.toIface, GoVal.marshalFields, GoVal.marshal, ih]

theorem IpamInfo_roundtrip (L : Codec) (hparse : ∀ j, L.parse (L.render j) = some j)
    (i : IpamInfo) (s : String) (hm : L.marshalIPAMData i.IPAMData = .ok s)
    (hu : L.unmarshalIPAMData s IPAMData.zero = .ok i.IPAMData) :
    ∃ j, IpamInfo.MarshalJSON L i = .ok j ∧ IpamInfo.UnmarshalJSON L IpamInfo.zero j = .ok i := by
  obtain ⟨poolID, mt, data⟩ := i
  simp only at hm hu
  cases mt with
  | none =>
    refine ⟨.obj [("PoolID", .str poolID), ("IPAMData", .str s)], ?_, ?_⟩
    · simp [IpamInfo.MarshalJSON, hm, mapAssign, GoVal.marshal, GoVal.marshalFields]
    · simp [IpamInfo.UnmarshalJSON, Json.toIfaceFields, Json.toIface, mapIndex, IpamInfo.zero, hu]
  | some mt =>
    refine ⟨.obj [("PoolID", .str poolID), ("IPAMData", .str s),
      ("Meta", .obj (mt.map (fun kv => (kv.1, Json.str kv.2))))], ?_, ?_⟩
    · simp [IpamInfo.MarshalJSON, hm, mapAssign, GoVal.marshal, GoVal.marshalFields]
    · simp [IpamInfo.UnmarshalJSON, Json.toIfaceFields, Json.toIface, mapIndex, IpamInfo.zero, hu,
        GoVal.marshal, marshalFields_strs, hparse, decodeStrMap, decodeStrFields_map]

theorem infos_roundtrip (L : Codec) (hparse : ∀ j, L.parse (L.render j) = some j)
    (infos : List IpamInfo)
    (hdata : ∀ i ∈ infos, ∃ s, L.marshalIPAMData i.IPAMData = .ok s ∧
      L.unmarshalIPAMData s IPAMData.zero = .ok i.IPAMData) :
    ∃ js, marshalInfos L infos = .ok js ∧
      decodeElems (IpamInfo.UnmarshalJSON L IpamInfo.zero) js = .ok infos := by
  induction infos with
  | nil => exact ⟨[], rfl, rfl⟩
  | cons i rest ih =>
    obtain ⟨s, hm, hu⟩ := hdata i (List.mem_cons_self _ _)
    obtain ⟨j, h1, h2⟩ := IpamInfo_roundtrip L hparse i s hm hu
    obtain ⟨js, h3, h4⟩ := ih (fun x hx => hdata x (List.mem_cons_of_mem _ hx))
    exact ⟨j :: js, by simp [marshalInfos, h1, h3], by simp [decodeElems, h2, h4]⟩

set_option maxHeartbeats 2000000 in
theorem SetValue_Value (L : Codec) (n : network) (once : Nat)
    (hparse : ∀ j, L.parse (L.render j) = some j)
    (hdata : ∀ i ∈ n.ipamV4Info ++ n.ipamV6Info, ∃ s, L.marshalIPAMData i.IPAMData = .ok s ∧
      L.unmarshalIPAMData s IPAMData.zero = .ok i.IPAMData)
    (hgen : ∀ g, n.generic = some g → ∃ js, GoVal.marshalFields L g = .ok js) :
    network.SetValue L (n.New once) (n.Value L) = .ok (n.reread L once) := by
  obtain ⟨js4, h4m, h4d⟩ := infos_roundtrip L hparse n.ipamV4Info
    (fun i hi => hdata i (List.mem_append_left _ hi))
  obtain ⟨js6, h6m, h6d⟩ := infos_roundtrip L hparse n.ipamV6Info
    (fun i hi => hdata i (List.mem_append_right _ hi))
  obtain ⟨ctrlr, name, networkType, id, ipamType, addrSpace, v4c, v6c, v4i, v6i, enableIPv6,
    endpointCnt, generic, dbIndex, svcRecords, dbExists, persist, scope, drvOnce⟩ := n
  simp only at h4m h4d h6m h6d hgen
  cases generic with
  | none =>
    cases v4c <;> cases v6c <;> cases v4i <;> cases v6i <;>
    simp [network.Value, network.SetValue, network.MarshalJSON, network.UnmarshalJSON,
      network.New, network.reread, hparse, mapAssign, GoVal.marshal, GoVal.marshalFields,
      Json.toIfaceFields, Json.toIface, mapIndex, unmarshalNested, decodeSlice,
      decodeElems_confs, h4m, h4d, h6m, h6d, -List.map_cons]
  | some g =>
    obtain ⟨gjs, hg⟩ := hgen g rfl
    have hrec := marshalFields_recode L g gjs hg
    cases v4c <;> cases v6c <;> cases v4i <;> cases v6i <;>
    simp [network.Value, network.SetValue, network.MarshalJSON, network.UnmarshalJSON,
      network.New, network.reread, hparse, mapAssign, GoVal.marshal, GoVal.marshalFields,
      Json.toIfaceFields, Json.toIface, mapIndex, unmarshalNested, decodeSlice,
      decodeElems_confs, h4m, h4d, h6m, h6d, hg, hrec, -List.map_cons]

theorem log2Fuel_spec (fuel n : Nat) (hf : n ≤ fuel) (hn : 0 < n) :
    2 ^ log2Fuel fuel n ≤ n ∧ n < 2 ^ (log2Fuel fuel n + 1) := by
  induction fuel generalizing n with
  | zero => omega
  | succ f ih =>
    unfold log2Fuel
    by_cases h2 : n < 2
    · rw [if_pos h2]
      have : n = 1 := by omega
      subst this
      exact ⟨by norm_num, by norm_num⟩
    · rw [if_neg h2]
      have hd := Nat.div_add_mod n 2
      have hm := Nat.mod_lt n (by norm_num : 0 < 2)
      obtain ⟨h3, h4⟩ := ih (n / 2) (by omega) (by omega)
      rw [pow_succ] at h4 ⊢
      rw [pow_succ (n := log2Fuel f (n / 2) + 1), pow_succ]
      omega

theorem roundParts_small (n : Nat) (hn : 0 < n) (h : n < 2 ^ 53) :
    roundParts n 1 = (n * 2 ^ (52 - log2Fuel n n), (log2Fuel n n : Int) - 52) := by
  obtain ⟨h1, -⟩ := log2Fuel_spec n n (le_refl n) hn
  have hk : log2Fuel n n ≤ 52 := by
    by_contra hc
    have : 2 ^ 53 ≤ 2 ^ log2Fuel n n := Nat.pow_le_pow_right (by norm_num) (by omega)
    omega
  have h0 : log2Fuel 1 1 = 0 := rfl
  have hfl : floorLog2 n 1 = (log2Fuel n n : Int) := by
    unfold floorLog2
    simp only [h0, Nat.cast_zero, sub_zero, Int.toNat_ofNat]
    have : (-(log2Fuel n n : Int)).toNat = 0 := by omega
    rw [this, if_pos (by simpa using h1)]
  unfold roundParts
  simp only [hfl]
  have he : ¬ ((log2Fuel n n : Int) - 52 < -1074) := by omega
  have ht1 : (-((log2Fuel n n : Int) - 52)).toNat = 52 - log2Fuel n n := by omega
  have ht2 : ((log2Fuel n n : Int) - 52).toNat = 0 := by omega
  simp [he, ht1, ht2, Nat.mod_one]

theorem roundF64_of_le (n : Nat) (h : n ≤ 2 ^ 53) : roundF64 n = .finite n := by
  rcases Nat.lt_or_eq_of_le h with h | h
  · rcases Nat.eq_zero_or_pos n with h0 | h0
    · subst h0
      simp [roundF64]
    · have hp := roundParts_small n h0 h
      have hk : log2Fuel n n ≤ 52 := by
        obtain ⟨h1, -⟩ := log2Fuel_spec n n (le_refl n) h0
        by_contra hc
        have : 2 ^ 53 ≤ 2 ^ log2Fuel n n := Nat.pow_le_pow_right (by norm_num) (by omega)
        omega
      have hq : ((n : ℚ)) ≠ 0 := by exact_mod_cast (Nat.pos_iff_ne_zero.1 h0)
      have hneg : ¬ ((n : ℚ) < 0) := by
        have : (0 : ℚ) ≤ n := Nat.cast_nonneg n
        linarith
      have ht1 : (-((log2Fuel n n : Int) - 52)).toNat = 52 - log2Fuel n n := by omega
      have ht2 : ((log2Fuel n n : Int) - 52).toNat = 0 := by omega
      have h972 : ¬ ((972 : Int) ≤ (log2Fuel n n : Int) - 52) := by omega
      have h971 : ¬ ((log2Fuel n n : Int) - 52 = 971) := by omega
      simp only [roundF64, if_neg hq, Rat.num_natCast, Int.natAbs_ofNat, Rat.den_natCast, hp,
        h972, h971, false_and, or_self, if_false, if_neg hneg, ht1, ht2, pow_zero, mul_one,
        one_mul, Nat.cast_mul, Nat.cast_pow, Nat.cast_ofNat]
      congr 1
      field_simp
  · subst h
    have hp : roundParts 9007199254740992 1 = (4503599627370496, 1) := by decide
    simp [roundF64, hp]
    norm_num

theorem toUint64_natCast (L : Codec) (n : Nat) (h : n < 2 ^ 64) :
    L.toUint64 (.finite n) = n := by
  simp only [Codec.toUint64, Rat.num_natCast, Rat.den_natCast, Int.toNat_ofNat, Nat.div_one]
  rw [if_pos (by omega), if_pos h]

namespace Plain

theorem numsFromJson_map (l : List Nat) :
    numsFromJson (l.map (fun (b : Nat) => Json.num (b : ℚ))) = some l := by
  induction l with
  | nil => rfl
  | cons a l ih => simp [numsFromJson, ih]

theorem ipNetFromJson_toJson (o : Option IPNet) : ipNetFromJson (ipNetToJson o) = some o := by
  cases o with
  | none => rfl
  | some nw => simp [ipNetToJson, ipNetFromJson, numsFromJson_map]

theorem auxElemsFromJson_map (l : List (String × IPNet)) :
    auxElemsFromJson (l.map (fun kv =>
      Json.arr [.str kv.1, .arr (kv.2.IP.map (fun (b : Nat) => Json.num (b : ℚ))),
        .arr (kv.2.Mask.map (fun (b : Nat) => Json.num (b : ℚ)))]))
      = some l := by
  induction l with
  | nil => rfl
  | cons a l ih => simp [auxElemsFromJson, numsFromJson_map, ih]

theorem auxFromJson_toJson (o : Option (List (String × IPNet))) :
    auxFromJson (auxToJson o) = some o := by
  cases o with
  | none => rfl
  | some l => simp [auxToJson, auxFromJson, auxElemsFromJson_map]

theorem ipamDataFromJson_toJson (d : IPAMData) : ipamDataFromJson (ipamDataToJson d) = some d := by
  simp [ipamDataToJson, ipamDataFromJson, ipNetFromJson_toJson, auxFromJson_toJson]

theorem codec_parse_render (j : Json) : codec.parse (codec.render j) = some j :=
  parse_render j

theorem codec_ipamData (d : IPAMData) (cur : IPAMData) :
    ∃ s, codec.marshalIPAMData d = .ok s ∧ codec.unmarshalIPAMData s cur = .ok d :=
  ⟨String.mk (render (ipamDataToJson d)), rfl, by
    simp [codec, parse_render, ipamDataFromJson_toJson]⟩

end Plain

/-- C1 (as amended).  Let the codec read back every document it writes and write,
for a `float64`, a literal that reads back as that `float64`; let the `IPAMData`
of every IPAM result entry of `n` come back from its own `MarshalJSON` and
`UnmarshalJSON`, let the endpoint count of `n` be a `uint64` that a `float64`
holds exactly (every count up to `2 ^ 53` is one, see `roundF64_of_le`), and
let the generic option values be values JSON decoding produces, the `float64`
ones finite.  Strings are Unicode strings throughout.  Then decoding
`n.Value()` into the blank instance `n.New()` succeeds and yields a network
with the name, id, networkType, ipamType, addrSpace, endpointCnt, enableIPv6,
persist, generic options and the four IPAM lists of `n`, elements in the same
order. -/
theorem Value_SetValue_roundtrip (L : Codec) (n : network) (once : Nat)
    (hparse : ∀ j, L.parse (L.render j) = some j)
    (hfmt : ∀ q, roundF64 q = .finite q → roundF64 (L.formatFloat q) = .finite q)
    (hdata : ∀ i ∈ n.ipamV4Info ++ n.ipamV6Info, ∃ s, L.marshalIPAMData i.IPAMData = .ok s ∧
      L.unmarshalIPAMData s IPAMData.zero = .ok i.IPAMData)
    (hcnt : n.endpointCnt < 2 ^ 64)
    (hfloat : roundF64 n.endpointCnt = .finite n.endpointCnt)
    (hgen : ∀ g, n.generic = some g → GoVal.jsonNativeFields g = true) :
    ∃ m, network.SetValue L (n.New once) (n.Value L) = .ok m ∧
      m.name = n.name ∧ m.id = n.id ∧ m.networkType = n.networkType ∧
      m.ipamType = n.ipamType ∧ m.addrSpace = n.addrSpace ∧ m.endpointCnt = n.endpointCnt ∧
      m.enableIPv6 = n.enableIPv6 ∧ m.persist = n.persist ∧ m.generic = n.generic ∧
      m.ipamV4Config = n.ipamV4Config ∧ m.ipamV4Info = n.ipamV4Info ∧
      m.ipamV6Config = n.ipamV6Config ∧ m.ipamV6Info = n.ipamV6Info := by
  refine ⟨n.reread L once, SetValue_Value L n once hparse hdata ?_, rfl, rfl, rfl, rfl, rfl, ?_,
    rfl, rfl, ?_, rfl, rfl, rfl, rfl⟩
  · intro g hg
    obtain ⟨js, h1, -⟩ := jsonNativeFields_marshal L hfmt g (hgen g hg)
    exact ⟨js, h1⟩
  · show L.toUint64 (roundF64 n.endpointCnt) = n.endpointCnt
    rw [hfloat, toUint64_natCast L _ hcnt]
  · cases hg : n.generic with
    | none => simp [network.reread, hg]
    | some g => simp [network.reread, hg, recodeFields_native L hfmt g (hgen g hg)]

theorem roundF64_three_halves : roundF64 (3 / 2) = .finite (3 / 2) := by
  have hn : ((3 : ℚ) / 2).num = 3 := by norm_num
  have hd : ((3 : ℚ) / 2).den = 2 := by norm_num
  have hp : roundParts 3 2 = (6755399441055744, -52) := by decide
  simp [roundF64, hn, hd, hp]
  norm_num

theorem roundF64_minus_one : roundF64 (-1) = .finite (-1) := by
  have hp : roundParts 1 1 = (4503599627370496, -52) := by decide
  simp [roundF64, hp]
  norm_num

theorem roundF64_odd_count : roundF64 9007199254740993 = .finite 9007199254740992 := by
  have hp : roundParts 9007199254740993 1 = (4503599627370496, 1) := by decide
  simp [roundF64, hp]
  norm_num

/-- The amended C1 on `nativeIpamNet` with the concrete codec: the count `2 ^ 53`
and the options `1500`, `3 / 2` and `-1` come back as they are. -/
theorem Value_SetValue_roundtrip_witness :
    ∃ m, network.SetValue Plain.codec (nativeIpamNet.New 2) (nativeIpamNet.Value Plain.codec)
        = .ok m ∧
      m.endpointCnt = 9007199254740992 ∧ m.ipamV4Info = sampleIpamNet.ipamV4Info ∧
      m.generic = some [("mtu", .float64 (.finite 1500)), ("ratio", .float64 (.finite (3 / 2))),
        ("offset", .float64 (.finite (-1))), ("tags", .slice [.str "a", .nil])] := by
  obtain ⟨m, h, -, -, -, -, -, hc, -, -, hg, -, hi, -, -⟩ :=
    Value_SetValue_roundtrip Plain.codec nativeIpamNet 2
      Plain.codec_parse_render (fun q hq => hq) (fun i _ => Plain.codec_ipamData i.IPAMData _)
      (by decide) (roundF64_of_le 9007199254740992 (by norm_num))
      (by
        intro g hg
        simp only [nativeIpamNet, Option.some.injEq] at hg
        subst hg
        have h1500 : roundF64 1500 = .finite 1500 := by
          have := roundF64_of_le 1500 (by norm_num)
          simpa using this
        simp [GoVal.jsonNativeFields, GoVal.jsonNative, GoVal.jsonNativeList, h1500,
          roundF64_three_halves, roundF64_minus_one])
  exact ⟨m, h, hc, hi, hg⟩

/-- C1 fails as stated.  For `oddCountNet`, whose endpoint count is `2 ^ 53 + 1`
and whose generic options hold a `uint64`, decoding its `Value()` into a blank
instance succeeds, but the count comes back as `2 ^ 53` and the option value as
a `float64`.  For `nanOptionNet`, whose generic options hold a `float64` that is
not a number, `Value()` is empty and decoding it fails. -/
theorem Value_SetValue_changes_count :
    (∃ m, network.SetValue Plain.codec (oddCountNet.New 2) (oddCountNet.Value Plain.codec)
        = .ok m ∧
      oddCountNet.endpointCnt = 9007199254740993 ∧ m.endpointCnt = 9007199254740992 ∧
      m.endpointCnt ≠ oddCountNet.endpointCnt ∧
      oddCountNet.generic = some [("mtu", .uint64 1500)] ∧
      m.generic = some [("mtu", .float64 (.finite 1500))] ∧
      m.generic ≠ oddCountNet.generic) ∧
    nanOptionNet.generic = some [("rate", .float64 .nan)] ∧
    nanOptionNet.Value Plain.codec = "" ∧
    network.SetValue Plain.codec (nanOptionNet.New 2) (nanOptionNet.Value Plain.codec) =
      .error (.json "invalid JSON text") := by
  have h := SetValue_Value Plain.codec oddCountNet 2 Plain.codec_parse_render
    (fun i _ => Plain.codec_ipamData i.IPAMData _)
    (by
      intro g hg
      exact ⟨[("mtu", .num 1500)], by
        simp only [oddCountNet, Option.some.injEq] at hg
        subst hg
        simp [GoVal.marshalFields, GoVal.marshal]⟩)
  have h1500 : roundF64 1500 = .finite 1500 := by
    have := roundF64_of_le 1500 (by norm_num)
    simpa using this
  have hc : (oddCountNet.reread Plain.codec 2).endpointCnt = 9007199254740992 := by
    have ht := toUint64_natCast Plain.codec 9007199254740992 (by norm_num)
    simp only [Nat.cast_ofNat] at ht
    simp [network.reread, oddCountNet, roundF64_odd_count, ht]
  have hg : (oddCountNet.reread Plain.codec 2).generic
      = some [("mtu", .float64 (.finite 1500))] := by
    simp [network.reread, oddCountNet, recodeFields, GoVal.recode, GoVal.marshal, Json.toIface,
      h1500]
  have hv : nanOptionNet.Value Plain.codec = "" := by
    simp [network.Value, network.MarshalJSON, nanOptionNet, sampleNet, mapAssign, GoVal.marshal,
      GoVal.marshalFields]
  refine ⟨⟨_, h, rfl, hc, ?_, rfl, hg, ?_⟩, rfl, hv, ?_⟩
  · rw [hc]; decide
  · rw [hg]; simp [oddCountNet]
  · rw [hv]
    rfl

theorem mapAssign_fresh {α : Type} (acc : List (String × α)) (k : String) (v : α)
    (h : k ∉ acc.map Prod.fst) : mapAssign acc k v = acc ++ [(k, v)] := by
  unfold mapAssign
  congr 1
  apply List.filter_eq_self.2
  intro kv hkv
  have : kv.1 ≠ k := fun e => h (e ▸ List.mem_map_of_mem Prod.fst hkv)
  simpa using this

theorem foldl_mapAssign {α : Type} (l acc : List (String × α))
    (h : ((acc ++ l).map Prod.fst).Nodup) :
    l.foldl (fun m (kv : String × α) => mapAssign m kv.1 kv.2) acc = acc ++ l := by
  induction l generalizing acc with
  | nil => simp
  | cons a l ih =>
    have hfresh : a.1 ∉ acc.map Prod.fst := by
      intro hmem
      rw [List.map_append, List.map_cons] at h
      have := (List.nodup_append.1 h).2.2
      exact this hmem (List.mem_cons_self _ _)
    rw [List.foldl_cons, mapAssign_fresh acc a.1 a.2 hfresh]
    have h' : (((acc ++ [(a.1, a.2)]) ++ l).map Prod.fst).Nodup := by
      simpa using h
    rw [ih _ h']
    simp

theorem IpamInfo_CopyTo_zero (i : IpamInfo) (h : i.keysNodup) :
    IpamInfo.CopyTo i IpamInfo.zero = i := by
  obtain ⟨poolID, mt, ⟨as, pool, gw, aux⟩⟩ := i
  obtain ⟨h1, h2⟩ := h
  cases mt with
  | none =>
    cases aux with
    | none => rfl
    | some aux =>
      have := foldl_mapAssign aux [] (by simpa [keysNodup] using h2)
      simp only [List.nil_append] at this
      simp [IpamInfo.CopyTo, IpamInfo.zero, IPAMData.zero, GetIPNetCopy, GetIPNetCopyInto, this]
  | some mt =>
    have hm := foldl_mapAssign mt [] (by simpa [keysNodup] using h1)
    simp only [List.nil_append] at hm
    cases aux with
    | none => simp [IpamInfo.CopyTo, IpamInfo.zero, IPAMData.zero, GetIPNetCopy, hm]
    | some aux =>
      have := foldl_mapAssign aux [] (by simpa [keysNodup] using h2)
      simp only [List.nil_append] at this
      simp [IpamInfo.CopyTo, IpamInfo.zero, IPAMData.zero, GetIPNetCopy, GetIPNetCopyInto, this,
        hm]

theorem CopyTo_foldInfo (infos : List IpamInfo) (d : network) :
    infos.foldl (fun (d : network) v4info =>
      { d with ipamV4Info := d.ipamV4Info ++ [IpamInfo.CopyTo v4info IpamInfo.zero] }) d =
    { d with ipamV4Info :=
        d.ipamV4Info ++ infos.map (fun v4info => IpamInfo.CopyTo v4info IpamInfo.zero) } := by
  induction infos generalizing d with
  | nil => simp
  | cons i rest ih => rw [List.foldl_cons, ih]; simp

theorem CopyTo_foldGeneric (l : List (String × GoVal)) (d : network) (acc : List (String × GoVal))
    (h : d.generic = some acc) :
    l.foldl (fun (d : network) (kv : String × GoVal) =>
      { d with generic := some (mapAssign (d.generic.getD []) kv.1 kv.2) }) d =
    { d with generic := some (l.foldl (fun m (kv : String × GoVal) => mapAssign m kv.1 kv.2) acc) } := by
  induction l generalizing d acc with
  | nil => cases d; simp at h; simp [h]
  | cons a rest ih =>
    rw [List.foldl_cons, ih _ (mapAssign acc a.1 a.2) (by simp [h])]
    simp

theorem CopyTo_New (n : network) (once : Nat)
    (hgen : keysNodup (n.generic.getD []))
    (hinfo : ∀ i ∈ n.ipamV4Info, i.keysNodup) :
    n.CopyTo (n.New once) =
      { n.New once with name := n.name, id := n.id, networkType := n.networkType,
                        ipamType := n.ipamType, endpointCnt := n.endpointCnt,
                        enableIPv6 := n.enableIPv6, persist := n.persist,
                        dbIndex := n.dbIndex, dbExists := n.dbExists, drvOnce := n.drvOnce,
                        ipamV4Info := n.ipamV4Info, generic := some (n.generic.getD []) } := by
  have hi : n.ipamV4Info.map (fun v4info => IpamInfo.CopyTo v4info IpamInfo.zero)
      = n.ipamV4Info := by
    conv_rhs => rw [← List.map_id n.ipamV4Info]
    apply List.map_congr_left
    intro i hmem
    exact IpamInfo_CopyTo_zero i (hinfo i hmem)
  have hg := foldl_mapAssign (n.generic.getD []) [] (by simpa [keysNodup] using hgen)
  simp only [List.nil_append] at hg
  unfold network.CopyTo
  simp only [CopyTo_foldInfo]
  rw [CopyTo_foldGeneric _ _ [] rfl, hg]
  simp [network.New, hi]

/-- What `CopyTo` does copy.  For a network `n` whose maps are represented without
repeated keys and the blank `dst = n.New()`, after `n.CopyTo(dst)`: name, id,
networkType, ipamType, endpointCnt, enableIPv6, persist, dbIndex and dbExists
of `dst` are those of `n`; the latch of `dst` is the latch of `n`; the generic
options of `dst` are a non-nil map with the entries of those of `n` (empty when
`n` has none); the IPv4 IPAM result list of `dst` is that of `n`, entry by
entry in order.  `dst.Value()` equals `n.Value()` when the generic options of
`n` are non-nil and its addrSpace, IPAM config lists and IPv6 result list are
empty.  Nothing is stated about addrSpace, the IPAM config lists and the IPv6
result list of `dst` otherwise. -/
theorem CopyTo_blank (n : network) (once : Nat)
    (hgen : keysNodup (n.generic.getD []))
    (hinfo : ∀ i ∈ n.ipamV4Info, i.keysNodup) :
    (n.CopyTo (n.New once)).name = n.name ∧
    (n.CopyTo (n.New once)).id = n.id ∧
    (n.CopyTo (n.New once)).networkType = n.networkType ∧
    (n.CopyTo (n.New once)).ipamType = n.ipamType ∧
    (n.CopyTo (n.New once)).endpointCnt = n.endpointCnt ∧
    (n.CopyTo (n.New once)).enableIPv6 = n.enableIPv6 ∧
    (n.CopyTo (n.New once)).persist = n.persist ∧
    (n.CopyTo (n.New once)).dbIndex = n.dbIndex ∧
    (n.CopyTo (n.New once)).dbExists = n.dbExists ∧
    (n.CopyTo (n.New once)).drvOnce = n.drvOnce ∧
    (n.CopyTo (n.New once)).generic = some (n.generic.getD []) ∧
    (n.CopyTo (n.New once)).ipamV4Info = n.ipamV4Info ∧
    (∀ L : Codec, n.generic ≠ none → n.addrSpace = "" → n.ipamV4Config = [] →
      n.ipamV6Config = [] → n.ipamV6Info = [] →
      (n.CopyTo (n.New once)).Value L = n.Value L) := by
  rw [CopyTo_New n once hgen hinfo]
  refine ⟨rfl, rfl, rfl, rfl, rfl, rfl, rfl, rfl, rfl, rfl, rfl, rfl, ?_⟩
  intro L h1 h2 h3 h4 h5
  cases hg : n.generic with
  | none => exact absurd hg h1
  | some g =>
    simp [network.Value, network.MarshalJSON, network.New, h2, h3, h4, h5, hg]

/-- The fields `CopyTo` copies, on `sampleIpamNet`. -/
theorem CopyTo_blank_witness :
    (sampleIpamNet.CopyTo (sampleIpamNet.New 5)).ipamV4Info = sampleIpamNet.ipamV4Info ∧
    (sampleIpamNet.CopyTo (sampleIpamNet.New 5)).drvOnce = 1 ∧
    (sampleIpamNet.CopyTo (sampleIpamNet.New 5)).generic = some [] := by
  have h := CopyTo_blank sampleIpamNet 5 (by simp [keysNodup, sampleIpamNet, sampleNet])
    (by
      intro i hi
      simp only [sampleIpamNet, List.mem_singleton] at hi
      subst hi
      simp [IpamInfo.keysNodup, keysNodup])
  exact ⟨h.2.2.2.2.2.2.2.2.2.2.2.1, h.2.2.2.2.2.2.2.2.2.1, h.2.2.2.2.2.2.2.2.2.2.1⟩

set_option maxRecDepth 8192 in
/-- C2 fails as stated: for `localOptsNet` (address space `local`, one IPv4
config block, one IPv4 result entry, generic options an empty map) and the
blank `dst = localOptsNet.New()`, after `CopyTo` the fields next to them are
copied (`ipamType`, the IPv4 result list, the generic options), but `dst` has an
empty address space and no IPv4 config block, and `dst.Value()` differs from
`localOptsNet.Value()`. -/
theorem CopyTo_leaves_fields :
    localOptsNet.addrSpace = "local" ∧
    (localOptsNet.CopyTo (localOptsNet.New 5)).addrSpace = "" ∧
    localOptsNet.ipamV4Config = [{ IpamConf.zero with PreferredPool := "10.0.0.0/24" }] ∧
    (localOptsNet.CopyTo (localOptsNet.New 5)).ipamV4Config = [] ∧
    (localOptsNet.CopyTo (localOptsNet.New 5)).ipamType = localOptsNet.ipamType ∧
    (localOptsNet.CopyTo (localOptsNet.New 5)).ipamV4Info = localOptsNet.ipamV4Info ∧
    (localOptsNet.CopyTo (localOptsNet.New 5)).generic = localOptsNet.generic ∧
    (localOptsNet.CopyTo (localOptsNet.New 5)).Value Plain.codec ≠
      localOptsNet.Value Plain.codec := by
  refine ⟨rfl, rfl, rfl, rfl, rfl, rfl, rfl, ?_⟩
  intro h
  have hgen : ∀ (m : network), m.generic = some [] →
      ∀ g, m.generic = some g → ∃ js, GoVal.marshalFields Plain.codec g = .ok js := by
    intro m hm g hg
    have hg2 : some [] = some g := hm.symm.trans hg
    injection hg2 with hg2
    subst hg2
    exact ⟨[], rfl⟩
  have h1 := SetValue_Value Plain.codec localOptsNet 2 Plain.codec_parse_render
    (fun i _ => Plain.codec_ipamData i.IPAMData _) (hgen _ rfl)
  have h2 := SetValue_Value Plain.codec (localOptsNet.CopyTo (localOptsNet.New 5)) 2
    Plain.codec_parse_render (fun i _ => Plain.codec_ipamData i.IPAMData _) (hgen _ rfl)
  have hnew : (localOptsNet.CopyTo (localOptsNet.New 5)).New 2 = localOptsNet.New 2 := rfl
  rw [hnew, h, h1] at h2
  injection h2 with h2
  have h3 : ("local" : String) = "" := congrArg network.addrSpace h2
  exact absurd h3 (by decide)

/-- C3 with a store that holds an endpoint named `web`. -/
theorem CreateEndpoint_existing_name_witness :
    network.CreateEndpoint
      { Env.allOk sampleNet with
        getEndpointsFromStore := fun _ _ =>
          ([{ name := "web", id := "e1", network := some sampleNet, generic := [],
              iface := { addr := none } }], none) }
      World.init sampleNet "web" [] =
      (World.init.emit (.getEndpointsFromStore sampleNet),
        .error (.ForbiddenErrorf "service endpoint with name %s already exists" ["web"])) :=
  CreateEndpoint_existing_name
    { Env.allOk sampleNet with
      getEndpointsFromStore := fun _ _ =>
        ([{ name := "web", id := "e1", network := some sampleNet, generic := [],
            iface := { addr := none } }], none) }
    World.init sampleNet "web" []
    { name := "web", id := "e1", network := some sampleNet, generic := [],
      iface := { addr := none } } rfl rfl

/-- C6 with a stored network that has two endpoints. -/
theorem Delete_active_endpoints_witness :
    network.Delete (Env.allOk { sampleNet with endpointCnt := 2 }) World.init sampleNet =
      (World.init.emit (.getNetworkFromStore "net-1"),
        some (.ActiveEndpointsError "app" "net-1")) :=
  Delete_active_endpoints (Env.allOk { sampleNet with endpointCnt := 2 }) World.init sampleNet
    { sampleNet with endpointCnt := 2 } rfl (by decide)

/-- C10 on `sampleIpamNet` with an IPAM driver whose `ReleaseAddress` always
fails. -/
theorem Delete_releases_ipam_witness :
    (network.Delete
      { Env.allOk sampleIpamNet with
        ReleaseAddress := fun _ _ _ _ => some (.external ⟨9, false⟩) }
      World.init sampleIpamNet).2 = none ∧
    (network.Delete
      { Env.allOk sampleIpamNet with
        ReleaseAddress := fun _ _ _ _ => some (.external ⟨9, false⟩) }
      World.init sampleIpamNet).1.trace =
      [.getNetworkFromStore "net-1", .DeleteNetwork 1 "net-1",
       .deleteFromStore (.network sampleIpamNet), .getIpamDriver "default",
       .ReleaseAddress 1 "p1" [10, 0, 0, 1], .ReleaseAddress 1 "p1" [10, 0, 0, 2],
       .ReleaseAddress 1 "p1" [10, 0, 0, 3], .ReleasePool 1 "p1"] :=
  Delete_releases_ipam
    { Env.allOk sampleIpamNet with
      ReleaseAddress := fun _ _ _ _ => some (.external ⟨9, false⟩) }
    World.init sampleIpamNet sampleIpamNet _ 1 (by decide) rfl rfl rfl rfl rfl

/-! ## The persistence flag -/

theorem processOptions_append (n : network) (l1 l2 : List (Option (network → network))) :
    n.processOptions (l1 ++ l2) = (n.processOptions l1).processOptions l2 := by
  unfold network.processOptions
  rw [List.foldl_append]

theorem processOptions_persist (post : List (Option (network → network)))
    (h : ∀ f, some f ∈ post → ∀ m : network, (f m).persist = m.persist) (n : network) :
    (n.processOptions post).persist = n.persist := by
  induction post generalizing n with
  | nil => rfl
  | cons opt rest ih =>
    have hrest : ∀ f, some f ∈ rest → ∀ m : network, (f m).persist = m.persist :=
      fun f hf => h f (List.mem_cons_of_mem _ hf)
    cases opt with
    | none => exact ih hrest n
    | some f =>
      have h1 : (network.processOptions n (some f :: rest)) = network.processOptions (f n) rest :=
        rfl
      rw [h1, ih hrest (f n)]
      exact h f (List.mem_cons_self _ _) n

/-- Claim C11: for every network `Skip()` is true exactly when the flag `persist`
is false; the option `NetworkOptionPersist(b)` makes `Skip()` the negation of
`b`, also when it is one of a list of options handed to `processOptions` and the
options after it leave the flag alone; with `b = false`, `Skip()` is true. -/
theorem Skip_iff_not_persist :
    (∀ n : network, n.Skip = true ↔ n.persist = false) ∧
    (∀ (b : Bool) (n : network), (NetworkOptionPersist b n).Skip = !b) ∧
    (∀ (b : Bool) (n : network) (pre post : List (Option (network → network))),
      (∀ f, some f ∈ post → ∀ m : network, (f m).persist = m.persist) →
      (n.processOptions (pre ++ some (NetworkOptionPersist b) :: post)).Skip = !b) ∧
    (∀ (n : network) (pre post : List (Option (network → network))),
      (∀ f, some f ∈ post → ∀ m : network, (f m).persist = m.persist) →
      (n.processOptions (pre ++ some (NetworkOptionPersist false) :: post)).Skip = true) := by
  have key : ∀ (b : Bool) (n : network) (pre post : List (Option (network → network))),
      (∀ f, some f ∈ post → ∀ m : network, (f m).persist = m.persist) →
      (n.processOptions (pre ++ some (NetworkOptionPersist b) :: post)).Skip = !b := by
    intro b n pre post h
    rw [processOptions_append]
    have h1 : network.processOptions (n.processOptions pre)
        (some (NetworkOptionPersist b) :: post)
        = network.processOptions (NetworkOptionPersist b (n.processOptions pre)) post := rfl
    rw [h1]
    unfold network.Skip
    rw [processOptions_persist post h]
    rfl
  refine ⟨?_, ?_, key, ?_⟩
  · intro n
    unfold network.Skip
    cases n.persist <;> simp
  · intro b n
    rfl
  · intro n pre post h
    exact key false n pre post h

/-- C11 on `sampleNet`, whose flag is set: the options of a network created
with `NetworkOptionPersist(false)` followed by an IPAM option make `Skip()`
true. -/
theorem Skip_iff_not_persist_witness :
    sampleNet.persist = true ∧
    (sampleNet.processOptions
      [some (NetworkOptionPersist false), some (NetworkOptionIpam "default" "" [poolConf] [])]).Skip
      = true :=
  ⟨rfl, Skip_iff_not_persist.2.2.2 sampleNet []
    [some (NetworkOptionIpam "default" "" [poolConf] [])]
    (by
      intro f hf m
      simp only [List.mem_singleton, Option.some.injEq] at hf
      subst hf
      rfl)⟩

/-! ## IPAM allocation -/

theorem requestedPools_append (E : Env) (evs1 evs2 before : List Event) :
    requestedPools E before (evs1 ++ evs2) =
      requestedPools E before evs1 ++ requestedPools E (before ++ evs1) evs2 := by
  induction evs1 generalizing before with
  | nil => simp [requestedPools]
  | cons ev rest ih =>
    have hb : before ++ ev :: rest = (before ++ [ev]) ++ rest := by simp
    rw [List.cons_append, hb]
    cases ev <;> simp only [requestedPools] <;> rw [ih]
    split <;> simp

theorem releasedPools_append (evs1 evs2 : List Event) :
    releasedPools (evs1 ++ evs2) = releasedPools evs1 ++ releasedPools evs2 := by
  induction evs1 with
  | nil => simp [releasedPools]
  | cons ev rest ih =>
    rw [List.cons_append]
    cases ev <;> simp only [releasedPools] <;> rw [ih]
    simp

theorem requestAddress_no_pools (E : Env) (ipam : Nat) (poolID : String) (evs : List Event)
    (h : ∀ ev ∈ evs, ∃ pref, ev = Event.RequestAddress ipam poolID pref) (before : List Event) :
    requestedPools E before evs = [] ∧ releasedPools evs = [] := by
  induction evs generalizing before with
  | nil => exact ⟨rfl, rfl⟩
  | cons ev rest ih =>
    obtain ⟨pref, hev⟩ := h ev (List.mem_cons_self _ _)
    have hrest := fun b => ih (fun e he => h e (List.mem_cons_of_mem _ he)) b
    subst hev
    exact ⟨by simp only [requestedPools]; exact (hrest _).1,
      by simp only [releasedPools]; exact (hrest []).2⟩

theorem auxLoop_spec (E : Env) (ipam : Nat) (poolID nName : String)
    (l : List (String × String)) (w : World) (aux : List (String × IPNet)) :
    ∃ evs, (ipamAllocate.auxLoop E ipam poolID nName w aux l).1.trace = w.trace ++ evs ∧
      (ipamAllocate.auxLoop E ipam poolID nName w aux l).1.done = w.done ∧
      (∀ ev ∈ evs, ∃ pref, ev = Event.RequestAddress ipam poolID pref) ∧
      ((ipamAllocate.auxLoop E ipam poolID nName w aux l).2.2 = none →
        evs = auxRequests E ipam poolID l) ∧
      (∀ f, (ipamAllocate.auxLoop E ipam poolID nName w aux l).2.2 = some f →
        f.errVar = none →
        ∃ k v, f.returned = .BadRequestErrorf
          "non parsable secondary ip address %s (%s) passed for network %s" [k, v, nName]) := by
  induction l generalizing w aux with
  | nil =>
    refine ⟨[], ?_, rfl, ?_, ?_, ?_⟩
    · simp [ipamAllocate.auxLoop]
    · intro ev hev
      cases hev
    · intro _
      rfl
    · intro f hf
      simp [ipamAllocate.auxLoop] at hf
  | cons kv rest ih =>
    obtain ⟨k, v⟩ := kv
    cases hp : E.ParseIP v with
    | none =>
      refine ⟨[], ?_, ?_, ?_, ?_, ?_⟩
      · simp [ipamAllocate.auxLoop, hp]
      · simp [ipamAllocate.auxLoop, hp]
      · intro ev hev
        cases hev
      · intro hn
        simp [ipamAllocate.auxLoop, hp] at hn
      · intro f hf _
        simp only [ipamAllocate.auxLoop, hp, Option.some.injEq] at hf
        subst hf
        exact ⟨k, v, rfl⟩
    | some ip =>
      rcases hra : E.RequestAddress w.trace ipam poolID (some ip) with err | gw
      · refine ⟨[.RequestAddress ipam poolID (some ip)], ?_, ?_, ?_, ?_, ?_⟩
        · simp [ipamAllocate.auxLoop, hp, hra]
        · simp [ipamAllocate.auxLoop, hp, hra]
        · intro ev hev
          simp only [List.mem_singleton] at hev
          exact ⟨_, hev⟩
        · intro hn
          simp [ipamAllocate.auxLoop, hp, hra] at hn
        · intro f hf hnone
          simp only [ipamAllocate.auxLoop, hp, hra, Option.some.injEq] at hf
          subst hf
          cases hnone
      · have hstep : ∃ aux2, ipamAllocate.auxLoop E ipam poolID nName w aux ((k, v) :: rest) =
            ipamAllocate.auxLoop E ipam poolID nName
              (w.emit (.RequestAddress ipam poolID (some ip))) aux2 rest := by
          cases gw with
          | none => exact ⟨aux, by simp only [ipamAllocate.auxLoop, hp, hra]⟩
          | some nw => exact ⟨mapAssign aux k nw, by simp only [ipamAllocate.auxLoop, hp, hra]⟩
        obtain ⟨aux2, hstep⟩ := hstep
        obtain ⟨evs, h1, h2, h3, h4, h5⟩ :=
          ih (w.emit (.RequestAddress ipam poolID (some ip))) aux2
        rw [hstep]
        refine ⟨.RequestAddress ipam poolID (some ip) :: evs, ?_, ?_, ?_, ?_, h5⟩
        · rw [h1]
          simp
        · rw [h2]
          rfl
        · intro ev hev
          rcases List.mem_cons.1 hev with he | he
          · exact ⟨_, he⟩
          · exact h3 ev he
        · intro hn
          rw [h4 hn]
          simp [auxRequests, List.filterMap_cons, hp]

theorem gateway_spec (E : Env) (ipam : Nat) (w : World) (d : IpamInfo) (cfg : IpamConf)
    (hd : d.IPAMData.Gateway = none) :
    (∃ ras, (ipamAllocate.gateway E ipam w d cfg).1.trace = w.trace ++ ras ∧
      (∀ ev ∈ ras, ∃ pref, ev = Event.RequestAddress ipam d.PoolID pref)) ∧
    (ipamAllocate.gateway E ipam w d cfg).1.done = w.done ∧
    (∀ f, (ipamAllocate.gateway E ipam w d cfg).2.2 = some f → f.errVar ≠ none) ∧
    (ipamAllocate.gateway E ipam w d cfg).2.1.PoolID = d.PoolID ∧
    (ipamAllocate.gateway E ipam w d cfg).2.1.Meta = d.Meta ∧
    (ipamAllocate.gateway E ipam w d cfg).2.1.IPAMData.Pool = d.IPAMData.Pool ∧
    ((ipamAllocate.gateway E ipam w d cfg).2.2 = none →
      ((cfg.Gateway ≠ "" ∨ mapIndex (d.Meta.getD []) E.netlabelGateway = none) →
        E.RequestAddress w.trace ipam d.PoolID (E.ParseIP cfg.Gateway) =
            .ok (ipamAllocate.gateway E ipam w d cfg).2.1.IPAMData.Gateway ∧
          (ipamAllocate.gateway E ipam w d cfg).1.trace =
            w.trace ++ [.RequestAddress ipam d.PoolID (E.ParseIP cfg.Gateway)]) ∧
      (cfg.Gateway = "" → ∀ gws, mapIndex (d.Meta.getD []) E.netlabelGateway = some gws →
        E.ParseCIDR gws ≠ .ok none →
        E.ParseCIDR gws = .ok (ipamAllocate.gateway E ipam w d cfg).2.1.IPAMData.Gateway ∧
          (ipamAllocate.gateway E ipam w d cfg).1 = w)) := by
  cases hm : mapIndex (d.Meta.getD []) E.netlabelGateway with
  | none =>
    rcases hra : E.RequestAddress w.trace ipam d.PoolID (E.ParseIP cfg.Gateway) with err | gw
    · simp [ipamAllocate.gateway, hm, hd, hra]
    · simp [ipamAllocate.gateway, hm, hd, hra]
  | some gws =>
    rcases hpc : E.ParseCIDR gws with err | gwo
    · simp [ipamAllocate.gateway, hm, hd, hpc]
    · by_cases hg : cfg.Gateway = ""
      · cases gwo with
        | none =>
          rcases hra : E.RequestAddress w.trace ipam d.PoolID (E.ParseIP cfg.Gateway) with err | gw
          · rw [hg] at hra
            simp [ipamAllocate.gateway, hm, hd, hpc, hg, hra]
          · rw [hg] at hra
            simp [ipamAllocate.gateway, hm, hd, hpc, hg, hra]
        | some gw0 =>
          simp [ipamAllocate.gateway, hm, hd, hpc, hg]
      · rcases hra : E.RequestAddress w.trace ipam d.PoolID (E.ParseIP cfg.Gateway) with err | gw
        · simp [ipamAllocate.gateway, hm, hd, hpc, hg, hra]
        · simp [ipamAllocate.gateway, hm, hd, hpc, hg, hra]

theorem auxAddresses_spec (E : Env) (ipam : Nat) (nName : String) (w : World) (d : IpamInfo)
    (cfg : IpamConf) :
    (∃ ras, (ipamAllocate.auxAddresses E ipam nName w d cfg).1.trace = w.trace ++ ras ∧
      (∀ ev ∈ ras, ∃ pref, ev = Event.RequestAddress ipam d.PoolID pref) ∧
      ((ipamAllocate.auxAddresses E ipam nName w d cfg).2.2 = none →
        ras = auxRequests E ipam d.PoolID (cfg.AuxAddresses.getD []))) ∧
    (ipamAllocate.auxAddresses E ipam nName w d cfg).1.done = w.done ∧
    (∀ f, (ipamAllocate.auxAddresses E ipam nName w d cfg).2.2 = some f → f.errVar = none →
      ∃ k v, f.returned = .BadRequestErrorf
        "non parsable secondary ip address %s (%s) passed for network %s" [k, v, nName]) ∧
    (ipamAllocate.auxAddresses E ipam nName w d cfg).2.1.PoolID = d.PoolID ∧
    (ipamAllocate.auxAddresses E ipam nName w d cfg).2.1.Meta = d.Meta ∧
    (ipamAllocate.auxAddresses E ipam nName w d cfg).2.1.IPAMData.Pool = d.IPAMData.Pool ∧
    (ipamAllocate.auxAddresses E ipam nName w d cfg).2.1.IPAMData.Gateway =
      d.IPAMData.Gateway := by
  cases hax : cfg.AuxAddresses with
  | none =>
    refine ⟨⟨[], ?_, ?_, ?_⟩, ?_, ?_, ?_, ?_, ?_, ?_⟩ <;>
      simp [ipamAllocate.auxAddresses, hax, auxRequests]
  | some auxCfg =>
    obtain ⟨evs, h1, h2, h3, h4, h5⟩ := auxLoop_spec E ipam d.PoolID nName auxCfg w []
    rcases hl : ipamAllocate.auxLoop E ipam d.PoolID nName w [] auxCfg with ⟨w', aux', fo⟩
    rw [hl] at h1 h2 h4 h5
    have hb : ipamAllocate.auxAddresses E ipam nName w d cfg =
        (w', { d with IPAMData := { d.IPAMData with AuxAddresses := some aux' } }, fo) := by
      simp only [ipamAllocate.auxAddresses, hax, hl]
    rw [hb]
    exact ⟨⟨evs, h1, h3, fun hn => by simpa using h4 hn⟩, h2, h5, rfl, rfl, rfl, rfl⟩

theorem requestedPools_pool_then_addresses (E : Env) (before : List Event) (ipam : Nat)
    (addrSpace pool subPool : String) (options : Option (List (String × String))) (v6 : Bool)
    (poolID : String) (p : Option IPNet) (pmeta : Option (List (String × String)))
    (hrp : E.RequestPool before ipam addrSpace pool subPool options v6 = .ok (poolID, p, pmeta))
    (ras : List Event) (h : ∀ ev ∈ ras, ∃ pref, ev = Event.RequestAddress ipam poolID pref) :
    requestedPools E before (.RequestPool ipam addrSpace pool subPool options v6 :: ras)
        = [poolID] ∧
      releasedPools (.RequestPool ipam addrSpace pool subPool options v6 :: ras) = [] := by
  refine ⟨?_, ?_⟩
  · simp only [requestedPools, hrp]
    rw [(requestAddress_no_pools E ipam poolID ras h _).1]
  · simp only [releasedPools]
    exact (requestAddress_no_pools E ipam poolID ras h []).2

theorem block_spec (E : Env) (ipam : Nat) (n : network) (st : allocState) (cfg : IpamConf) :
    (∃ evs, (ipamAllocate.block E ipam n st cfg).1.w.trace = st.w.trace ++ evs ∧
      releasedPools evs = [] ∧
      (ipamAllocate.block E ipam n st cfg).1.deferred =
        (requestedPools E st.w.trace evs).reverse.map (ipamAllocate.deferReleasePool E ipam)
          ++ st.deferred ∧
      ((ipamAllocate.block E ipam n st cfg).2 = none →
        ∃ d, (ipamAllocate.block E ipam n st cfg).1.infos = st.infos ++ [d] ∧
          (ipamAllocate.block E ipam n st cfg).1.cnl =
            st.cnl ++ [ipamAllocate.cancelGateway E ipam d.PoolID d.IPAMData.Gateway] ∧
          requestedPools E st.w.trace evs = [d.PoolID])) ∧
    (ipamAllocate.block E ipam n st cfg).1.w.done = st.w.done ∧
    (∀ f, (ipamAllocate.block E ipam n st cfg).2 = some f → f.errVar = none →
      ∃ k v, f.returned = .BadRequestErrorf
        "non parsable secondary ip address %s (%s) passed for network %s" [k, v, n.Name]) := by
  cases hv : cfg.Validate E with
  | some err =>
    have hb : ipamAllocate.block E ipam n st cfg =
        (st, some { errVar := some err, returned := err }) := by
      simp only [ipamAllocate.block, hv]
    rw [hb]
    refine ⟨⟨[], by simp, rfl, by simp [requestedPools], fun hn => by simp at hn⟩, rfl, ?_⟩
    intro f hf hn
    simp only [Option.some.injEq] at hf
    subst hf
    cases hn
  | none =>
    rcases hrp : E.RequestPool st.w.trace ipam n.addrSpace cfg.PreferredPool cfg.SubPool
        cfg.Options cfg.IsV6 with err | ⟨poolID, pool, pmeta⟩
    · have hb : ipamAllocate.block E ipam n st cfg =
          ({ st with
              w := st.w.emit (.RequestPool ipam n.addrSpace cfg.PreferredPool cfg.SubPool
                cfg.Options cfg.IsV6)
              infos := st.infos ++ [IpamInfo.zero] },
            some { errVar := some err, returned := err }) := by
        simp only [ipamAllocate.block, hv, hrp]
      rw [hb]
      refine ⟨⟨[.RequestPool ipam n.addrSpace cfg.PreferredPool cfg.SubPool cfg.Options
        cfg.IsV6], by simp, rfl, by simp [requestedPools, hrp], fun hn => by simp at hn⟩,
        rfl, ?_⟩
      intro f hf hn
      simp only [Option.some.injEq] at hf
      subst hf
      cases hn
    · obtain ⟨⟨ras1, hg1, hg2⟩, hg3, hg4, hg5, -, -, -⟩ :=
        gateway_spec E ipam
          (st.w.emit (.RequestPool ipam n.addrSpace cfg.PreferredPool cfg.SubPool cfg.Options
            cfg.IsV6))
          { IpamInfo.zero with
            PoolID := poolID, Meta := pmeta
            IPAMData := { IpamInfo.zero.IPAMData with Pool := pool } } cfg rfl
      rcases hgw : ipamAllocate.gateway E ipam
          (st.w.emit (.RequestPool ipam n.addrSpace cfg.PreferredPool cfg.SubPool cfg.Options
            cfg.IsV6))
          { IpamInfo.zero with
            PoolID := poolID, Meta := pmeta
            IPAMData := { IpamInfo.zero.IPAMData with Pool := pool } } cfg with ⟨w2, d2, fo⟩
      rw [hgw] at hg1 hg3 hg4 hg5
      simp only at hg1 hg2 hg3 hg4 hg5
      cases fo with
      | some f2 =>
        have hb : ipamAllocate.block E ipam n st cfg =
            ({ w := w2, infos := st.infos ++ [d2], cnl := st.cnl
               deferred := ipamAllocate.deferReleasePool E ipam poolID :: st.deferred },
              some f2) := by
          simp only [ipamAllocate.block, hv, hrp, hgw]
        rw [hb]
        obtain ⟨hp1, hp2⟩ := requestedPools_pool_then_addresses E st.w.trace ipam n.addrSpace
          cfg.PreferredPool cfg.SubPool cfg.Options cfg.IsV6 poolID pool pmeta hrp ras1 hg2
        refine ⟨⟨.RequestPool ipam n.addrSpace cfg.PreferredPool cfg.SubPool cfg.Options
          cfg.IsV6 :: ras1, ?_, hp2, ?_, fun hn => by simp at hn⟩, hg3, ?_⟩
        · simp only [hg1, World.emit_trace, List.append_assoc, List.singleton_append]
        · rw [hp1]
          rfl
        · intro f hf hn
          simp only [Option.some.injEq] at hf
          subst hf
          exact absurd hn (hg4 _ rfl)
      | none =>
        obtain ⟨⟨ras2, ha1, ha2, -⟩, ha3, ha4, ha5, -, -, ha6⟩ :=
          auxAddresses_spec E ipam n.Name w2 d2 cfg
        rcases hax : ipamAllocate.auxAddresses E ipam n.Name w2 d2 cfg with ⟨w3, d3, fo3⟩
        rw [hax] at ha1 ha3 ha4 ha5 ha6
        simp only at ha1 ha3 ha4 ha5 ha6
        have hb : ipamAllocate.block E ipam n st cfg =
            ({ w := w3, infos := st.infos ++ [d3]
               cnl := st.cnl ++ [ipamAllocate.cancelGateway E ipam d2.PoolID d2.IPAMData.Gateway]
               deferred := ipamAllocate.deferReleasePool E ipam poolID :: st.deferred },
              fo3) := by
          simp only [ipamAllocate.block, hv, hrp, hgw, hax]
        rw [hb]
        have hras : ∀ ev ∈ ras1 ++ ras2, ∃ pref, ev = Event.RequestAddress ipam poolID pref := by
          intro ev hev
          rcases List.mem_append.1 hev with he | he
          · exact hg2 ev he
          · have := ha2 ev he
            rwa [hg5] at this
        obtain ⟨hp1, hp2⟩ := requestedPools_pool_then_addresses E st.w.trace ipam n.addrSpace
          cfg.PreferredPool cfg.SubPool cfg.Options cfg.IsV6 poolID pool pmeta hrp
          (ras1 ++ ras2) hras
        refine ⟨⟨.RequestPool ipam n.addrSpace cfg.PreferredPool cfg.SubPool cfg.Options
          cfg.IsV6 :: (ras1 ++ ras2), ?_, hp2, ?_, ?_⟩, ?_, ha4⟩
        · simp [ha1, hg1]
        · rw [hp1]
          rfl
        · intro _
          refine ⟨d3, rfl, ?_, ?_⟩
          · simp only [ha5, ha6]
          · rw [hp1, ha5, hg5]
        · rw [ha3, hg3]
          rfl

theorem Validate_none (E : Env) (cfg : IpamConf) (h : cfg.Validate E = none)
    (hg : cfg.Gateway ≠ "") : ∃ ip, E.ParseIP cfg.Gateway = some ip := by
  unfold IpamConf.Validate at h
  cases hp : E.ParseIP cfg.Gateway with
  | some ip => exact ⟨ip, rfl⟩
  | none => simp [hg, hp] at h

theorem block_ok (E : Env) (ipam : Nat) (n : network) (st : allocState) (cfg : IpamConf)
    (h : (ipamAllocate.block E ipam n st cfg).2 = none) :
    ∃ poolID pool pmeta d,
      cfg.Validate E = none ∧
      E.RequestPool st.w.trace ipam n.addrSpace cfg.PreferredPool cfg.SubPool cfg.Options
        cfg.IsV6 = .ok (poolID, pool, pmeta) ∧
      (ipamAllocate.block E ipam n st cfg).1.infos = st.infos ++ [d] ∧
      d.PoolID = poolID ∧ d.Meta = pmeta ∧ d.IPAMData.Pool = pool ∧
      ((cfg.Gateway ≠ "" ∨ mapIndex (pmeta.getD []) E.netlabelGateway = none) →
        E.RequestAddress
            (st.w.trace ++ [.RequestPool ipam n.addrSpace cfg.PreferredPool cfg.SubPool
              cfg.Options cfg.IsV6])
            ipam poolID (E.ParseIP cfg.Gateway) = .ok d.IPAMData.Gateway ∧
          (ipamAllocate.block E ipam n st cfg).1.w.trace =
            st.w.trace ++
              .RequestPool ipam n.addrSpace cfg.PreferredPool cfg.SubPool cfg.Options cfg.IsV6 ::
              .RequestAddress ipam poolID (E.ParseIP cfg.Gateway) ::
              auxRequests E ipam poolID (cfg.AuxAddresses.getD [])) ∧
      (cfg.Gateway = "" → ∀ gws, mapIndex (pmeta.getD []) E.netlabelGateway = some gws →
        E.ParseCIDR gws ≠ .ok none →
        E.ParseCIDR gws = .ok d.IPAMData.Gateway ∧
          (ipamAllocate.block E ipam n st cfg).1.w.trace =
            st.w.trace ++
              .RequestPool ipam n.addrSpace cfg.PreferredPool cfg.SubPool cfg.Options cfg.IsV6 ::
              auxRequests E ipam poolID (cfg.AuxAddresses.getD [])) := by
  cases hv : cfg.Validate E with
  | some err =>
    have hb : ipamAllocate.block E ipam n st cfg =
        (st, some { errVar := some err, returned := err }) := by
      simp only [ipamAllocate.block, hv]
    rw [hb] at h
    simp at h
  | none =>
    rcases hrp : E.RequestPool st.w.trace ipam n.addrSpace cfg.PreferredPool cfg.SubPool
        cfg.Options cfg.IsV6 with err | ⟨poolID, pool, pmeta⟩
    · have hb : ipamAllocate.block E ipam n st cfg =
          ({ st with
              w := st.w.emit (.RequestPool ipam n.addrSpace cfg.PreferredPool cfg.SubPool
                cfg.Options cfg.IsV6)
              infos := st.infos ++ [IpamInfo.zero] },
            some { errVar := some err, returned := err }) := by
        simp only [ipamAllocate.block, hv, hrp]
      rw [hb] at h
      simp at h
    · obtain ⟨-, -, -, hg5, hg6, hg7, hg8⟩ :=
        gateway_spec E ipam
          (st.w.emit (.RequestPool ipam n.addrSpace cfg.PreferredPool cfg.SubPool cfg.Options
            cfg.IsV6))
          { IpamInfo.zero with
            PoolID := poolID, Meta := pmeta
            IPAMData := { IpamInfo.zero.IPAMData with Pool := pool } } cfg rfl
      rcases hgw : ipamAllocate.gateway E ipam
          (st.w.emit (.RequestPool ipam n.addrSpace cfg.PreferredPool cfg.SubPool cfg.Options
            cfg.IsV6))
          { IpamInfo.zero with
            PoolID := poolID, Meta := pmeta
            IPAMData := { IpamInfo.zero.IPAMData with Pool := pool } } cfg with ⟨w2, d2, fo⟩
      rw [hgw] at hg5 hg6 hg7 hg8
      simp only at hg5 hg6 hg7 hg8
      cases fo with
      | some f2 =>
        have hb : ipamAllocate.block E ipam n st cfg =
            ({ w := w2, infos := st.infos ++ [d2], cnl := st.cnl
               deferred := ipamAllocate.deferReleasePool E ipam poolID :: st.deferred },
              some f2) := by
          simp only [ipamAllocate.block, hv, hrp, hgw]
        rw [hb] at h
        simp at h
      | none =>
        obtain ⟨hreq, hparsed⟩ := hg8 rfl
        obtain ⟨⟨ras2, ha1, -, ha2⟩, -, -, ha5, ha6, ha7, ha8⟩ :=
          auxAddresses_spec E ipam n.Name w2 d2 cfg
        rcases hax : ipamAllocate.auxAddresses E ipam n.Name w2 d2 cfg with ⟨w3, d3, fo3⟩
        rw [hax] at ha1 ha2 ha5 ha6 ha7 ha8
        simp only at ha1 ha2 ha5 ha6 ha7 ha8
        have hb : ipamAllocate.block E ipam n st cfg =
            ({ w := w3, infos := st.infos ++ [d3]
               cnl := st.cnl ++ [ipamAllocate.cancelGateway E ipam d2.PoolID d2.IPAMData.Gateway]
               deferred := ipamAllocate.deferReleasePool E ipam poolID :: st.deferred },
              fo3) := by
          simp only [ipamAllocate.block, hv, hrp, hgw, hax]
        rw [hb] at h ⊢
        simp only at h
        have hras := ha2 h
        rw [hg5] at hras
        refine ⟨poolID, pool, pmeta, d3, rfl, rfl, rfl, by rw [ha5, hg5], by rw [ha6, hg6],
          by rw [ha7, hg7], ?_, ?_⟩
        · intro hc
          obtain ⟨hr1, hr2⟩ := hreq hc
          refine ⟨?_, ?_⟩
          · rw [ha8]
            exact hr1
          · simp [ha1, hr2, hras]
        · intro hc gws hgws hne
          obtain ⟨hr1, hr2⟩ := hparsed hc gws hgws hne
          refine ⟨?_, ?_⟩
          · rw [ha8]
            exact hr1
          · simp [ha1, hr2, hras]

theorem loop_spec (E : Env) (ipam : Nat) (n : network) (cfgs : List IpamConf)
    (st : allocState) :
    (∃ evs, (ipamAllocate.loop E ipam n st cfgs).1.w.trace = st.w.trace ++ evs ∧
      releasedPools evs = [] ∧
      (ipamAllocate.loop E ipam n st cfgs).1.deferred =
        (requestedPools E st.w.trace evs).reverse.map (ipamAllocate.deferReleasePool E ipam)
          ++ st.deferred ∧
      ((ipamAllocate.loop E ipam n st cfgs).2 = none →
        ∃ ds : List IpamInfo, ds.length = cfgs.length ∧
          (ipamAllocate.loop E ipam n st cfgs).1.infos = st.infos ++ ds ∧
          (ipamAllocate.loop E ipam n st cfgs).1.cnl =
            st.cnl ++ ds.map (fun d =>
              ipamAllocate.cancelGateway E ipam d.PoolID d.IPAMData.Gateway) ∧
          requestedPools E st.w.trace evs = ds.map (fun d => d.PoolID))) ∧
    (ipamAllocate.loop E ipam n st cfgs).1.w.done = st.w.done ∧
    (∀ f, (ipamAllocate.loop E ipam n st cfgs).2 = some f → f.errVar = none →
      ∃ k v, f.returned = .BadRequestErrorf
        "non parsable secondary ip address %s (%s) passed for network %s" [k, v, n.Name]) := by
  induction cfgs generalizing st with
  | nil =>
    refine ⟨⟨[], by simp [ipamAllocate.loop], rfl, by simp [ipamAllocate.loop, requestedPools],
      fun _ => ⟨[], rfl, by simp [ipamAllocate.loop], by simp [ipamAllocate.loop], rfl⟩⟩,
      rfl, ?_⟩
    intro f hf
    simp [ipamAllocate.loop] at hf
  | cons cfg rest ih =>
    obtain ⟨⟨evs1, hb1, hb2, hb3, hb4⟩, hb5, hb6⟩ := block_spec E ipam n st cfg
    rcases hb : ipamAllocate.block E ipam n st cfg with ⟨st1, fo⟩
    rw [hb] at hb1 hb3 hb4 hb5 hb6
    simp only at hb1 hb3 hb4 hb5 hb6
    cases fo with
    | some f1 =>
      have hl : ipamAllocate.loop E ipam n st (cfg :: rest) = (st1, some f1) := by
        simp only [ipamAllocate.loop, hb]
      rw [hl]
      exact ⟨⟨evs1, hb1, hb2, hb3, fun hn => by simp at hn⟩, hb5, hb6⟩
    | none =>
      have hl : ipamAllocate.loop E ipam n st (cfg :: rest) =
          ipamAllocate.loop E ipam n st1 rest := by
        simp only [ipamAllocate.loop, hb]
      rw [hl]
      obtain ⟨⟨evs2, hl1, hl2, hl3, hl4⟩, hl5, hl6⟩ := ih st1
      obtain ⟨d, hd1, hd2, hd3⟩ := hb4 rfl
      refine ⟨⟨evs1 ++ evs2, ?_, ?_, ?_, ?_⟩, by rw [hl5, hb5], hl6⟩
      · rw [hl1, hb1, List.append_assoc]
      · rw [releasedPools_append, hb2, hl2]
        rfl
      · rw [hl3, hb3, requestedPools_append, ← hb1]
        simp
      · intro hn
        obtain ⟨ds, hs1, hs2, hs3, hs4⟩ := hl4 hn
        refine ⟨d :: ds, by simp [hs1], ?_, ?_, ?_⟩
        · rw [hs2, hd1]
          simp
        · rw [hs3, hd2]
          simp
        · rw [requestedPools_append, hd3, ← hb1, hs4]
          rfl

theorem loop_gateways (E : Env) (ipam : Nat) (n : network)
    (hcidr : ∀ s, E.ParseCIDR s ≠ .ok none)
    (hdrv : ∀ tr i p pref, E.RequestAddress tr i p pref ≠ .ok none)
    (cfgs : List IpamConf) (st : allocState)
    (h : (ipamAllocate.loop E ipam n st cfgs).2 = none) :
    ∀ d ∈ (ipamAllocate.loop E ipam n st cfgs).1.infos,
      d ∈ st.infos ∨ d.IPAMData.Gateway ≠ none := by
  induction cfgs generalizing st with
  | nil =>
    intro d hd
    exact Or.inl (by simpa [ipamAllocate.loop] using hd)
  | cons cfg rest ih =>
    rcases hb : ipamAllocate.block E ipam n st cfg with ⟨st1, fo⟩
    cases fo with
    | some f1 =>
      have hl : ipamAllocate.loop E ipam n st (cfg :: rest) = (st1, some f1) := by
        simp only [ipamAllocate.loop, hb]
      rw [hl] at h
      simp at h
    | none =>
      have hl : ipamAllocate.loop E ipam n st (cfg :: rest) =
          ipamAllocate.loop E ipam n st1 rest := by
        simp only [ipamAllocate.loop, hb]
      rw [hl] at h ⊢
      have hok : (ipamAllocate.block E ipam n st cfg).2 = none := by rw [hb]
      obtain ⟨poolID, pool, pmeta, d0, -, -, hi, -, -, -, hreq, hparsed⟩ :=
        block_ok E ipam n st cfg hok
      rw [hb] at hi
      simp only at hi
      have hd0 : d0.IPAMData.Gateway ≠ none := by
        intro hnone
        by_cases hc : cfg.Gateway ≠ "" ∨ mapIndex (pmeta.getD []) E.netlabelGateway = none
        · have h1 := (hreq hc).1
          rw [hnone] at h1
          exact hdrv _ _ _ _ h1
        · have hg : cfg.Gateway = "" := by
            by_contra hg
            exact hc (Or.inl hg)
          cases hm : mapIndex (pmeta.getD []) E.netlabelGateway with
          | none => exact hc (Or.inr hm)
          | some gws =>
            have h1 := (hparsed hg gws hm (hcidr gws)).1
            rw [hnone] at h1
            exact hcidr gws h1
      intro d hd
      rcases ih st1 h d hd with h1 | h1
      · rw [hi] at h1
        rcases List.mem_append.1 h1 with h2 | h2
        · exact Or.inl h2
        · rw [List.mem_singleton] at h2
          rw [h2]
          exact Or.inr hd0
      · exact Or.inr h1

theorem runDeferred_pools_none (E : Env) (ipam : Nat) (pools : List String) (w : World) :
    runDeferred (pools.map (ipamAllocate.deferReleasePool E ipam)) none () w = w := by
  induction pools generalizing w with
  | nil => rfl
  | cons p rest ih =>
    simp only [List.map_cons, runDeferred, ipamAllocate.deferReleasePool]
    exact ih w

theorem runDeferred_pools_some (E : Env) (ipam : Nat) (err : Error) (pools : List String)
    (w : World) :
    (runDeferred (pools.map (ipamAllocate.deferReleasePool E ipam)) (some err) () w).trace =
      w.trace ++ pools.map (fun p => Event.ReleasePool ipam p) := by
  induction pools generalizing w with
  | nil => simp [runDeferred]
  | cons p rest ih =>
    simp only [List.map_cons, runDeferred, ipamAllocate.deferReleasePool]
    rw [ih, ipamReleasePool_eq]
    simp

theorem releasePool_events (E : Env) (ipam : Nat) (pools : List String) (before : List Event) :
    requestedPools E before (pools.map (fun p => Event.ReleasePool ipam p)) = [] ∧
      releasedPools (pools.map (fun p => Event.ReleasePool ipam p)) = pools := by
  induction pools generalizing before with
  | nil => exact ⟨rfl, rfl⟩
  | cons p rest ih =>
    refine ⟨?_, ?_⟩
    · simp only [List.map_cons, requestedPools]
      exact (ih _).1
    · simp only [List.map_cons, releasedPools]
      rw [(ih []).2]

theorem lookup_events (E : Env) (evs : List Event)
    (h : ∀ ev ∈ evs, (∃ t, ev = Event.loadDriver t) ∨ (∃ t, ev = Event.getIpamDriver t))
    (before : List Event) :
    requestedPools E before evs = [] ∧ releasedPools evs = [] := by
  induction evs generalizing before with
  | nil => exact ⟨rfl, rfl⟩
  | cons ev rest ih =>
    have hrest := fun b => ih (fun e he => h e (List.mem_cons_of_mem _ he)) b
    rcases h ev (List.mem_cons_self _ _) with ⟨t, ht⟩ | ⟨t, ht⟩
    · subst ht
      exact ⟨by simp only [requestedPools]; exact (hrest _).1,
        by simp only [releasedPools]; exact (hrest []).2⟩
    · subst ht
      exact ⟨by simp only [requestedPools]; exact (hrest _).1,
        by simp only [releasedPools]; exact (hrest []).2⟩

theorem deriveAddressSpace_spec (E : Env) (w : World) (n : network) :
    ∃ pre, (n.deriveAddressSpace E w).1.trace = w.trace ++ pre ∧
      (n.deriveAddressSpace E w).1.done = w.done ∧
      ∀ ev ∈ pre, ∃ t, ev = Event.loadDriver t := by
  unfold network.deriveAddressSpace network.DataScope network.driverScope
  cases E.ipamDrivers w.trace n.ipamType with
  | none => exact ⟨[], by simp, rfl, by simp⟩
  | some ipd =>
    cases E.drivers w.trace n.networkType with
    | some dd =>
      refine ⟨[], ?_, ?_, by simp⟩
      · simp only
        split <;> simp
      · simp only
        split <;> rfl
    | none =>
      cases E.loadDriver w.trace n.networkType with
      | error e =>
        refine ⟨[.loadDriver n.networkType], ?_, ?_, by simp⟩
        · simp only
          split <;> simp
        · simp only
          split <;> rfl
      | ok dd =>
        refine ⟨[.loadDriver n.networkType], ?_, ?_, by simp⟩
        · simp only
          split <;> simp
        · simp only
          split <;> rfl

theorem ipamAllocate_loop (E : Env) (w : World) (n : network) (nilV4Config : Bool)
    (hplug : ¬ (n.Type = "host" ∨ n.Type = "null" ∨ n.Type = "bridge")) :
    (∃ w1 n1 e pre, n.ipamAllocate E w nilV4Config = (w1, n1, .error e) ∧
      w1.trace = w.trace ++ pre ∧
      ∀ ev ∈ pre, (∃ t, ev = Event.loadDriver t) ∨ (∃ t, ev = Event.getIpamDriver t)) ∨
    (∃ ipam w1 n1 pre, E.getIpamDriver w.trace n.ipamType = .ok ipam ∧
      w1.trace = w.trace ++ pre ∧
      (∀ ev ∈ pre, (∃ t, ev = Event.loadDriver t) ∨ (∃ t, ev = Event.getIpamDriver t)) ∧
      n1.Name = n.Name ∧
      n1.ipamV4Config =
        (if n.ipamV4Config = [] ∧ nilV4Config = true then [IpamConf.zero]
         else n.ipamV4Config) ∧
      (∀ st f, ipamAllocate.loop E ipam n1 { w := w1, infos := [], cnl := [], deferred := [] }
          n1.ipamV4Config = (st, some f) →
        n.ipamAllocate E w nilV4Config =
          (runDeferred st.deferred f.errVar () st.w, { n1 with ipamV4Info := st.infos },
            .error f.returned)) ∧
      (∀ st, ipamAllocate.loop E ipam n1 { w := w1, infos := [], cnl := [], deferred := [] }
          n1.ipamV4Config = (st, none) →
        n.ipamAllocate E w nilV4Config =
          (runDeferred st.deferred none () st.w, { n1 with ipamV4Info := st.infos },
            .ok st.cnl))) := by
  have tail : ∀ (ipam : Nat) (w1 : World) (n0 : network) (pre : List Event),
      E.getIpamDriver w.trace n.ipamType = .ok ipam →
      w1.trace = w.trace ++ pre →
      (∀ ev ∈ pre, (∃ t, ev = Event.loadDriver t) ∨ (∃ t, ev = Event.getIpamDriver t)) →
      n0.Name = n.Name → n0.ipamV4Config = n.ipamV4Config →
      ∃ n1 : network, n1.Name = n.Name ∧
        n1 = (if n0.ipamV4Config = [] ∧ nilV4Config = true then
                { n0 with ipamV4Config := [IpamConf.zero] }
              else n0) ∧
        n1.ipamV4Config =
          (if n.ipamV4Config = [] ∧ nilV4Config = true then [IpamConf.zero]
           else n.ipamV4Config) := by
    intro ipam w1 n0 pre _ _ _ hname hcfg
    by_cases hc : n0.ipamV4Config = [] ∧ nilV4Config = true
    · exact ⟨{ n0 with ipamV4Config := [IpamConf.zero] }, hname, by rw [if_pos hc],
        by rw [if_pos (hcfg ▸ hc)]⟩
    · exact ⟨n0, hname, by rw [if_neg hc], by rw [if_neg (hcfg ▸ hc), hcfg]⟩
  rcases hd : E.getIpamDriver w.trace n.ipamType with err | ipam
  · left
    refine ⟨w.emit (.getIpamDriver n.ipamType), n, err, [.getIpamDriver n.ipamType], ?_, rfl, ?_⟩
    · simp only [network.ipamAllocate, if_neg hplug, hd]
    · intro ev hev
      exact Or.inr ⟨_, List.mem_singleton.1 hev⟩
  · by_cases hsp : n.addrSpace = ""
    · obtain ⟨pre, hp1, -, hp3⟩ :=
        deriveAddressSpace_spec E (w.emit (.getIpamDriver n.ipamType)) n
      have hpre : ∀ ev ∈ Event.getIpamDriver n.ipamType :: pre,
          (∃ t, ev = Event.loadDriver t) ∨ (∃ t, ev = Event.getIpamDriver t) := by
        intro ev hev
        rcases List.mem_cons.1 hev with he | he
        · exact Or.inr ⟨_, he⟩
        · exact Or.inl (hp3 ev he)
      rcases hda : n.deriveAddressSpace E (w.emit (.getIpamDriver n.ipamType)) with ⟨w1, r⟩
      rw [hda] at hp1
      simp only [World.emit_trace, List.append_assoc, List.singleton_append] at hp1
      cases r with
      | error e =>
        left
        refine ⟨w1, { n with addrSpace := "" }, e, _, ?_, hp1, hpre⟩
        simp only [network.ipamAllocate, if_neg hplug, hd, hsp, if_true, hda]
      | ok addrSpace =>
        right
        obtain ⟨n1, hn1, hn2, hn3⟩ := tail ipam w1 { n with addrSpace := addrSpace } _ hd hp1
          hpre rfl rfl
        refine ⟨ipam, w1, n1, _, rfl, hp1, hpre, hn1, hn3, ?_, ?_⟩
        · intro st f hl
          simp only [network.ipamAllocate, if_neg hplug, hd, hsp, if_true, hda]
          rw [← hn2, hl]
        · intro st hl
          simp only [network.ipamAllocate, if_neg hplug, hd, hsp, if_true, hda]
          rw [← hn2, hl]
    · right
      have hpre : ∀ ev ∈ [Event.getIpamDriver n.ipamType],
          (∃ t, ev = Event.loadDriver t) ∨ (∃ t, ev = Event.getIpamDriver t) := by
        intro ev hev
        exact Or.inr ⟨_, List.mem_singleton.1 hev⟩
      obtain ⟨n1, hn1, hn2, hn3⟩ := tail ipam (w.emit (.getIpamDriver n.ipamType)) n _ hd rfl
        hpre rfl rfl
      refine ⟨ipam, w.emit (.getIpamDriver n.ipamType), n1, _, rfl, rfl, hpre, hn1, hn3, ?_, ?_⟩
      · intro st f hl
        simp only [network.ipamAllocate, if_neg hplug, hd, hsp, if_false]
        rw [← hn2, hl]
      · intro st hl
        simp only [network.ipamAllocate, if_neg hplug, hd, hsp, if_false]
        rw [← hn2, hl]

/-- Every failure of `ipamAllocate` but one releases the pools it requested: the
pools released by the time the call returns are the pools requested, most recent
first, unless the call returns the error for an auxiliary address that does not
parse, and then no pool is released. -/
theorem ipamAllocate_failure_releases (E : Env) (w : World) (n : network) (nilV4Config : Bool)
    (w' : World) (n' : network) (e : Error)
    (hfail : n.ipamAllocate E w nilV4Config = (w', n', .error e)) :
    ∃ evs, w'.trace = w.trace ++ evs ∧
      (releasedPools evs = (requestedPools E w.trace evs).reverse ∨
        (releasedPools evs = [] ∧
          ∃ k v, e = .BadRequestErrorf
            "non parsable secondary ip address %s (%s) passed for network %s"
            [k, v, n.Name])) := by
  by_cases hplug : n.Type = "host" ∨ n.Type = "null" ∨ n.Type = "bridge"
  · simp [network.ipamAllocate, if_pos hplug] at hfail
  · rcases ipamAllocate_loop E w n nilV4Config hplug with
      ⟨w1, n1, e1, pre, h1, h2, h3⟩ | ⟨ipam, w1, n1, pre, -, h2, h3, hname, -, hf, hs⟩
    · rw [h1] at hfail
      simp only [Prod.mk.injEq] at hfail
      obtain ⟨hw, -, -⟩ := hfail
      subst hw
      obtain ⟨hq, hr⟩ := lookup_events E pre h3 w.trace
      exact ⟨pre, h2, Or.inl (by rw [hq, hr]; rfl)⟩
    · obtain ⟨hq, hr⟩ := lookup_events E pre h3 w.trace
      obtain ⟨⟨evs, hl1, hl2, hl3, -⟩, -, hl6⟩ :=
        loop_spec E ipam n1 n1.ipamV4Config { w := w1, infos := [], cnl := [], deferred := [] }
      rcases hl : ipamAllocate.loop E ipam n1
          { w := w1, infos := [], cnl := [], deferred := [] } n1.ipamV4Config with ⟨st, fo⟩
      rw [hl] at hl1 hl3 hl6
      simp only [List.append_nil] at hl1 hl3 hl6
      cases fo with
      | none =>
        rw [hs st hl] at hfail
        simp at hfail
      | some f =>
        rw [hf st f hl] at hfail
        simp only [Prod.mk.injEq, Except.error.injEq] at hfail
        obtain ⟨hw, -, he⟩ := hfail
        subst hw he
        rw [hl3]
        cases hev : f.errVar with
        | none =>
          refine ⟨pre ++ evs, ?_, Or.inr ⟨?_, ?_⟩⟩
          · rw [runDeferred_pools_none, hl1, h2, List.append_assoc]
          · rw [releasedPools_append, hr, hl2]
            rfl
          · obtain ⟨k, v, hkv⟩ := hl6 f rfl hev
            exact ⟨k, v, by rw [hkv, hname]⟩
        | some err =>
          refine ⟨pre ++ evs ++
            (requestedPools E w1.trace evs).reverse.map (fun p => Event.ReleasePool ipam p),
            ?_, Or.inl ?_⟩
          · rw [runDeferred_pools_some, hl1, h2]
            simp
          · rw [releasedPools_append, releasedPools_append, hr, hl2,
              (releasePool_events E ipam _ []).2, requestedPools_append,
              requestedPools_append, hq, (releasePool_events E ipam _ _).1, ← h2]
            simp

/-- Claim C12 fails on a network of type `overlay` with two IPv4 config blocks of
which the second names the auxiliary address `bogus`: both pools are requested,
the call returns the error for the address that does not parse, and
`ReleasePool` has been invoked for neither pool. -/
theorem ipamAllocate_unparsable_aux_keeps_pools :
    (network.ipamAllocate (Env.allOk sampleNet) World.init badAuxNet false).2.2 =
      .error (.BadRequestErrorf
        "non parsable secondary ip address %s (%s) passed for network %s"
        ["b", "bogus", "app"]) ∧
    (network.ipamAllocate (Env.allOk sampleNet) World.init badAuxNet false).1.trace =
      [.getIpamDriver "default",
       .RequestPool 1 "LocalDefault" "10.0.0.0/24" "" none false,
       .RequestAddress 1 "p1" none,
       .RequestPool 1 "LocalDefault" "10.1.0.0/24" "" none false,
       .RequestAddress 1 "p2" none,
       .RequestAddress 1 "p2" (some [10, 0, 0, 2])] ∧
    requestedPools (Env.allOk sampleNet) []
      (network.ipamAllocate (Env.allOk sampleNet) World.init badAuxNet false).1.trace =
      ["p1", "p2"] ∧
    releasedPools
      (network.ipamAllocate (Env.allOk sampleNet) World.init badAuxNet false).1.trace = [] :=
  ⟨rfl, rfl, rfl, rfl⟩

/-- The failure of a gateway request in the second block of `badAuxNet` does
release both pools, most recent first. -/
theorem ipamAllocate_gateway_failure_releases :
    (network.ipamAllocate
      { Env.allOk sampleNet with
        RequestAddress := fun _ _ p _ =>
          if p = "p2" then .error (.external ⟨9, false⟩)
          else .ok (some { IP := [10, 0, 0, 1], Mask := [255, 255, 255, 0] }) }
      World.init badAuxNet false).1.trace =
      [.getIpamDriver "default",
       .RequestPool 1 "LocalDefault" "10.0.0.0/24" "" none false,
       .RequestAddress 1 "p1" none,
       .RequestPool 1 "LocalDefault" "10.1.0.0/24" "" none false,
       .RequestAddress 1 "p2" none,
       .ReleasePool 1 "p2", .ReleasePool 1 "p1"] := rfl

theorem invokeAll_cancelGateway (E : Env) (ipam : Nat) (ds : List IpamInfo)
    (hgw : ∀ d ∈ ds, d.IPAMData.Gateway ≠ none) (w : World) :
    ∃ w3, invokeAll (ds.map (fun d =>
        ipamAllocate.cancelGateway E ipam d.PoolID d.IPAMData.Gateway)) w = .ok w3 ∧
      w3.trace = w.trace ++ (ds.map (gatewayRelease ipam)).flatten ∧ w3.done = w.done := by
  induction ds generalizing w with
  | nil => exact ⟨w, rfl, by simp, rfl⟩
  | cons d rest ih =>
    have hrest : ∀ d' ∈ rest, d'.IPAMData.Gateway ≠ none :=
      fun d' hd' => hgw d' (List.mem_cons_of_mem _ hd')
    cases hg : d.IPAMData.Gateway with
    | none => exact absurd hg (hgw d (List.mem_cons_self _ _))
    | some gw =>
      obtain ⟨w3, h1, h2, h3⟩ := ih hrest (w.emit (.ReleaseAddress ipam d.PoolID gw.IP))
      refine ⟨w3, ?_, ?_, ?_⟩
      · simp only [List.map_cons, invokeAll, ipamAllocate.cancelGateway, hg,
          ipamReleaseAddress_eq]
        exact h1
      · rw [h2]
        simp [gatewayRelease, hg]
      · rw [h3]
        rfl

theorem gatewayRelease_no_pools (ipam : Nat) (ds : List IpamInfo) :
    releasedPools (ds.map (gatewayRelease ipam)).flatten = [] := by
  induction ds with
  | nil => rfl
  | cons d rest ih =>
    rw [List.map_cons, List.flatten_cons, releasedPools_append, ih]
    unfold gatewayRelease
    cases d.IPAMData.Gateway <;> rfl

/-- What the list returned by `ipamAllocate` holds: after a successful call on a
network that uses pluggable IPAM, with a driver and a CIDR parse that give an
address when they succeed, the network holds one result entry for each IPv4
config block, the pools requested are the pools of these entries, none of them
has been released, and the returned list holds one action for each block; a
caller that invokes the whole list, in whatever world, makes exactly the calls
that release the gateway address of each entry on the pool of that entry, in
order, and these release no pool. -/
theorem ipamAllocate_rollback_list (E : Env) (w : World) (n : network) (nilV4Config : Bool)
    (w' : World) (n' : network) (cnl : List CancelFunc)
    (hcidr : ∀ s, E.ParseCIDR s ≠ .ok none)
    (hdrv : ∀ tr i p pref, E.RequestAddress tr i p pref ≠ .ok none)
    (hplug : ¬ (n.Type = "host" ∨ n.Type = "null" ∨ n.Type = "bridge"))
    (hok : n.ipamAllocate E w nilV4Config = (w', n', .ok cnl)) :
    ∃ ipam evs, E.getIpamDriver w.trace n.ipamType = .ok ipam ∧
      w'.trace = w.trace ++ evs ∧
      requestedPools E w.trace evs = n'.ipamV4Info.map (fun d => d.PoolID) ∧
      releasedPools evs = [] ∧
      n'.ipamV4Info.length = n'.ipamV4Config.length ∧
      cnl.length = n'.ipamV4Config.length ∧
      (∀ w2 : World, ∃ w3, invokeAll cnl w2 = .ok w3 ∧
        w3.trace = w2.trace ++ (n'.ipamV4Info.map (gatewayRelease ipam)).flatten ∧
        w3.done = w2.done) ∧
      ((n'.ipamV4Info.map (gatewayRelease ipam)).flatten.length = n'.ipamV4Config.length) ∧
      releasedPools (n'.ipamV4Info.map (gatewayRelease ipam)).flatten = [] := by
  rcases ipamAllocate_loop E w n nilV4Config hplug with
    ⟨w1, n1, e1, pre, h1, -, -⟩ | ⟨ipam, w1, n1, pre, hd, h2, h3, -, -, hf, hs⟩
  · rw [h1] at hok
    simp at hok
  · obtain ⟨hq, hr⟩ := lookup_events E pre h3 w.trace
    obtain ⟨⟨evs, hl1, hl2, hl3, hl4⟩, -, -⟩ :=
      loop_spec E ipam n1 n1.ipamV4Config { w := w1, infos := [], cnl := [], deferred := [] }
    have hgws := loop_gateways E ipam n1 hcidr hdrv n1.ipamV4Config
      { w := w1, infos := [], cnl := [], deferred := [] }
    rcases hl : ipamAllocate.loop E ipam n1
        { w := w1, infos := [], cnl := [], deferred := [] } n1.ipamV4Config with ⟨st, fo⟩
    rw [hl] at hl1 hl3 hl4 hgws
    simp only [List.append_nil, List.nil_append] at hl1 hl3 hl4 hgws
    cases fo with
    | some f =>
      rw [hf st f hl] at hok
      simp at hok
    | none =>
      rw [hs st hl] at hok
      simp only [Prod.mk.injEq, Except.ok.injEq] at hok
      obtain ⟨hw, hn, hc⟩ := hok
      subst hw hn hc
      obtain ⟨ds, hs1, hs2, hs3, hs4⟩ := hl4 rfl
      have hgw : ∀ d ∈ ds, d.IPAMData.Gateway ≠ none := by
        intro d hd'
        rcases hgws rfl d (hs2 ▸ hd') with hbad | hgood
        · cases hbad
        · exact hgood
      have hlen : (ds.map (gatewayRelease ipam)).flatten.length = ds.length := by
        clear hs1 hs2 hs3 hs4
        induction ds with
        | nil => rfl
        | cons d rest ih =>
          have hrest : ∀ d' ∈ rest, d'.IPAMData.Gateway ≠ none :=
            fun d' hd' => hgw d' (List.mem_cons_of_mem _ hd')
          rw [List.map_cons, List.flatten_cons, List.length_append, ih hrest,
            List.length_cons]
          cases hg : d.IPAMData.Gateway with
          | none => exact absurd hg (hgw d (List.mem_cons_self _ _))
          | some gw =>
            simp [gatewayRelease, hg]
            omega
      refine ⟨ipam, pre ++ evs, hd, ?_, ?_, ?_, ?_, ?_, ?_, ?_, ?_⟩
      · rw [hl3, runDeferred_pools_none, hl1, h2, List.append_assoc]
      · simp only [hs2]
        rw [requestedPools_append, hq, ← h2, hs4]
        rfl
      · rw [releasedPools_append, hr, hl2]
        rfl
      · simp only [hs2]
        exact hs1
      · rw [hs3, List.length_map]
        exact hs1
      · intro w2
        simp only [hs2, hs3]
        exact invokeAll_cancelGateway E ipam ds hgw w2
      · simp only [hs2]
        rw [hlen]
        exact hs1
      · exact gatewayRelease_no_pools ipam _

/-- Claim C13 fails on `poolNet`, a network of type `overlay` with one IPv4
config block: the call succeeds and requests the pool `p1`, and a caller that
invokes the whole returned list releases the gateway address and no pool. -/
theorem ipamAllocate_list_releases_no_pool :
    (invokeReturned (network.ipamAllocate (Env.allOk sampleNet) World.init poolNet false)).map
        (fun w => w.trace) =
      some [.getIpamDriver "default",
            .RequestPool 1 "LocalDefault" "10.0.0.0/24" "" none false,
            .RequestAddress 1 "p1" none,
            .ReleaseAddress 1 "p1" [10, 0, 0, 1]] ∧
    (invokeReturned (network.ipamAllocate (Env.allOk sampleNet) World.init poolNet false)).map
        (fun w => requestedPools (Env.allOk sampleNet) [] w.trace) = some ["p1"] ∧
    (invokeReturned (network.ipamAllocate (Env.allOk sampleNet) World.init poolNet false)).map
        (fun w => releasedPools w.trace) = some [] :=
  ⟨rfl, rfl, rfl⟩

theorem allOk_ParseCIDR (stored : network) (s : String) :
    (Env.allOk stored).ParseCIDR s ≠ .ok none := by
  simp only [Env.allOk]
  split <;> simp

theorem allOk_RequestAddress (stored : network) (tr : List Event) (i : Nat) (p : String)
    (pref : Option IP) : (Env.allOk stored).RequestAddress tr i p pref ≠ .ok none := by
  simp [Env.allOk]

/-- The returned list on `badAuxNet` with the auxiliary address `b` made
parsable: two blocks, two pools, and a list of two actions that release the two
gateway addresses. -/
theorem ipamAllocate_rollback_list_witness :
    ∃ (w' : World) (n' : network) (cnl : List CancelFunc),
      network.ipamAllocate (Env.allOk sampleNet) World.init
        { sampleNet with
          ipamV4Config := [poolConf, { badAuxConf with AuxAddresses := some [("a", "10.0.0.2")] }] }
        false = (w', n', .ok cnl) ∧
      ∃ ipam evs, (Env.allOk sampleNet).getIpamDriver World.init.trace "default" = .ok ipam ∧
        w'.trace = World.init.trace ++ evs ∧
        requestedPools (Env.allOk sampleNet) World.init.trace evs =
          n'.ipamV4Info.map (fun d => d.PoolID) ∧
        releasedPools evs = [] ∧
        n'.ipamV4Info.length = n'.ipamV4Config.length ∧
        cnl.length = n'.ipamV4Config.length ∧
        (∀ w2 : World, ∃ w3, invokeAll cnl w2 = .ok w3 ∧
          w3.trace = w2.trace ++ (n'.ipamV4Info.map (gatewayRelease ipam)).flatten ∧
          w3.done = w2.done) ∧
        ((n'.ipamV4Info.map (gatewayRelease ipam)).flatten.length = n'.ipamV4Config.length) ∧
        releasedPools (n'.ipamV4Info.map (gatewayRelease ipam)).flatten = [] :=
  ⟨_, _, _, rfl,
    ipamAllocate_rollback_list (Env.allOk sampleNet) World.init
      { sampleNet with
        ipamV4Config := [poolConf, { badAuxConf with AuxAddresses := some [("a", "10.0.0.2")] }] }
      false _ _ _ (allOk_ParseCIDR sampleNet) (allOk_RequestAddress sampleNet) (by decide) rfl⟩

/-- Claim C14: with a CIDR parse that gives an address when it succeeds, for
every config block that the loop of `ipamAllocate` gets through, with `d` the
result entry of the block on the pool the driver answered with: a gateway text
of the config has passed `Validate`, so it parses; if the config names a gateway
or the pool metadata hold no gateway, the stored gateway is the answer of
`RequestAddress` on that pool with the parse of the gateway text of the config
as the preferred address, requested right after the pool and followed by the
requests for the auxiliary addresses only; otherwise the stored gateway is the
parse of the gateway of the metadata, and the pool request is followed by the
requests for the auxiliary addresses only.  With a driver that gives an address
when `RequestAddress` succeeds, every result entry of a successful call on a
network that uses pluggable IPAM has a gateway. -/
theorem ipamAllocate_gateway (E : Env) (hcidr : ∀ s, E.ParseCIDR s ≠ .ok none) :
    (∀ (ipam : Nat) (n : network) (st : allocState) (cfg : IpamConf),
      (ipamAllocate.block E ipam n st cfg).2 = none →
      ∃ poolID pool pmeta d,
        E.RequestPool st.w.trace ipam n.addrSpace cfg.PreferredPool cfg.SubPool cfg.Options
          cfg.IsV6 = .ok (poolID, pool, pmeta) ∧
        (ipamAllocate.block E ipam n st cfg).1.infos = st.infos ++ [d] ∧
        d.PoolID = poolID ∧
        (cfg.Gateway ≠ "" → ∃ ip, E.ParseIP cfg.Gateway = some ip) ∧
        ((cfg.Gateway ≠ "" ∨ mapIndex (pmeta.getD []) E.netlabelGateway = none) →
          E.RequestAddress
              (st.w.trace ++ [.RequestPool ipam n.addrSpace cfg.PreferredPool cfg.SubPool
                cfg.Options cfg.IsV6])
              ipam poolID (E.ParseIP cfg.Gateway) = .ok d.IPAMData.Gateway ∧
            (ipamAllocate.block E ipam n st cfg).1.w.trace =
              st.w.trace ++
                .RequestPool ipam n.addrSpace cfg.PreferredPool cfg.SubPool cfg.Options
                  cfg.IsV6 ::
                .RequestAddress ipam poolID (E.ParseIP cfg.Gateway) ::
                auxRequests E ipam poolID (cfg.AuxAddresses.getD [])) ∧
        (∀ gws, cfg.Gateway = "" → mapIndex (pmeta.getD []) E.netlabelGateway = some gws →
          E.ParseCIDR gws = .ok d.IPAMData.Gateway ∧
            (ipamAllocate.block E ipam n st cfg).1.w.trace =
              st.w.trace ++
                .RequestPool ipam n.addrSpace cfg.PreferredPool cfg.SubPool cfg.Options
                  cfg.IsV6 ::
                auxRequests E ipam poolID (cfg.AuxAddresses.getD []))) ∧
    (∀ (w : World) (n : network) (nilV4Config : Bool) (w' : World) (n' : network)
        (cnl : List CancelFunc),
      (∀ tr i p pref, E.RequestAddress tr i p pref ≠ .ok none) →
      ¬ (n.Type = "host" ∨ n.Type = "null" ∨ n.Type = "bridge") →
      n.ipamAllocate E w nilV4Config = (w', n', .ok cnl) →
      ∀ d ∈ n'.ipamV4Info, d.IPAMData.Gateway ≠ none) := by
  refine ⟨?_, ?_⟩
  · intro ipam n st cfg hok
    obtain ⟨poolID, pool, pmeta, d, hv, hrp, hi, hp, -, -, hreq, hparsed⟩ :=
      block_ok E ipam n st cfg hok
    exact ⟨poolID, pool, pmeta, d, hrp, hi, hp, Validate_none E cfg hv, hreq,
      fun gws hg hm => hparsed hg gws hm (hcidr gws)⟩
  · intro w n nilV4Config w' n' cnl hdrv hplug hok
    rcases ipamAllocate_loop E w n nilV4Config hplug with
      ⟨w1, n1, e1, pre, h1, -, -⟩ | ⟨ipam, w1, n1, pre, -, -, -, -, -, hf, hs⟩
    · rw [h1] at hok
      simp at hok
    · have hgws := loop_gateways E ipam n1 hcidr hdrv n1.ipamV4Config
        { w := w1, infos := [], cnl := [], deferred := [] }
      rcases hl : ipamAllocate.loop E ipam n1
          { w := w1, infos := [], cnl := [], deferred := [] } n1.ipamV4Config with ⟨st, fo⟩
      rw [hl] at hgws
      cases fo with
      | some f =>
        rw [hf st f hl] at hok
        simp at hok
      | none =>
        rw [hs st hl] at hok
        simp only [Prod.mk.injEq, Except.ok.injEq] at hok
        obtain ⟨-, hn, -⟩ := hok
        subst hn
        intro d hd
        rcases hgws rfl d hd with hbad | hgood
        · cases hbad
        · exact hgood

/-- C14 with a driver whose pool metadata hold the gateway `10.0.0.1/24`, on a
network with the blocks `poolConf`, which names no gateway, and `gatewayConf`,
which names `10.0.0.5`: the first entry keeps the gateway of the metadata and
no address is requested for it, the second has the address requested for
`10.0.0.5`, and every entry has a gateway. -/
theorem ipamAllocate_gateway_witness :
    (∀ s, (Env.gatewayMeta sampleNet).ParseCIDR s ≠ .ok none) ∧
    (network.ipamAllocate (Env.gatewayMeta sampleNet) World.init
        { sampleNet with ipamV4Config := [poolConf, gatewayConf] } false).1.trace =
      [.getIpamDriver "default",
       .RequestPool 1 "LocalDefault" "10.0.0.0/24" "" none false,
       .RequestPool 1 "LocalDefault" "" "" none false,
       .RequestAddress 1 "p1" (some [10, 0, 0, 5])] ∧
    (network.ipamAllocate (Env.gatewayMeta sampleNet) World.init
        { sampleNet with ipamV4Config := [poolConf, gatewayConf] } false).2.1.ipamV4Info.map
        (fun d => d.IPAMData.Gateway) =
      [some { IP := [10, 0, 0, 1], Mask := [255, 255, 255, 0] },
       some { IP := [10, 0, 0, 5], Mask := [255, 255, 255, 0] }] ∧
    ∀ d ∈ (network.ipamAllocate (Env.gatewayMeta sampleNet) World.init
        { sampleNet with ipamV4Config := [poolConf, gatewayConf] } false).2.1.ipamV4Info,
      d.IPAMData.Gateway ≠ none :=
  ⟨allOk_ParseCIDR sampleNet, rfl, rfl,
    (ipamAllocate_gateway (Env.gatewayMeta sampleNet) (allOk_ParseCIDR sampleNet)).2
      World.init { sampleNet with ipamV4Config := [poolConf, gatewayConf] } false _ _ _
      (allOk_RequestAddress sampleNet) (by decide) rfl⟩

/-! ## Service records -/

theorem mapIndex_mapDelete {α : Type} (m : List (String × α)) (k k' : String) :
    mapIndex (mapDelete m k) k' = if k = k' then none else mapIndex m k' := by
  unfold mapDelete
  by_cases h : k = k'
  · rw [if_pos h]
    subst h
    induction m with
    | nil => rfl
    | cons a m ih =>
      obtain ⟨k1, v⟩ := a
      by_cases h1 : k1 = k
      · have hf : List.filter (fun kv => decide (kv.1 ≠ k)) ((k1, v) :: m)
            = List.filter (fun kv => decide (kv.1 ≠ k)) m :=
          List.filter_cons_of_neg (by simpa using h1)
        rw [hf, ih]
      · have hf : List.filter (fun kv => decide (kv.1 ≠ k)) ((k1, v) :: m)
            = (k1, v) :: List.filter (fun kv => decide (kv.1 ≠ k)) m :=
          List.filter_cons_of_pos (by simpa using h1)
        rw [hf, mapIndex_cons, ih, if_neg h1]
  · rw [if_neg h, mapIndex_filter_ne m k k' h]

theorem push_trace (isAdd : Bool) (recs : List Record) (sbs : List Nat) (w : World) :
    (updateSvcRecord.push isAdd recs w sbs).trace =
        w.trace ++ sbs.map (fun sb =>
          if isAdd then Event.addHostsEntries sb recs else Event.deleteHostsEntries sb recs) ∧
      (updateSvcRecord.push isAdd recs w sbs).done = w.done := by
  induction sbs generalizing w with
  | nil => exact ⟨by simp [updateSvcRecord.push], rfl⟩
  | cons sb rest ih =>
    cases isAdd
    · have h := ih (w.emit (.deleteHostsEntries sb recs))
      simp only [updateSvcRecord.push, Bool.false_eq_true, if_false, List.map_cons] at h ⊢
      rw [h.1, h.2]
      simp
    · have h := ih (w.emit (.addHostsEntries sb recs))
      simp only [updateSvcRecord.push, if_true, List.map_cons] at h ⊢
      rw [h.1, h.2]
      simp

theorem sandboxes_foldl (g : endpoint → Option Nat) (eps : List endpoint) (acc : List Nat) :
    eps.foldl (fun (sbList : List Nat) (ep : endpoint) =>
        match g ep with
        | some sb => sbList ++ [sb]
        | none => sbList) acc = acc ++ eps.filterMap g := by
  induction eps generalizing acc with
  | nil => simp
  | cons ep rest ih =>
    rw [List.foldl_cons, ih]
    cases h : g ep <;> simp [List.filterMap_cons, h]

theorem svcDb_ensured (svcDb : List (String × svcMap)) (id : String) :
    (mapIndex (match mapIndex svcDb id with
        | some _ => svcDb
        | none => mapAssign svcDb id []) id).getD [] = (mapIndex svcDb id).getD [] ∧
    ∀ id', id ≠ id' → mapIndex (match mapIndex svcDb id with
        | some _ => svcDb
        | none => mapAssign svcDb id []) id' = mapIndex svcDb id' := by
  cases h : mapIndex svcDb id with
  | some t => exact ⟨by simp only [h], fun _ _ => rfl⟩
  | none =>
    refine ⟨?_, ?_⟩
    · simp only [mapIndex_mapAssign, if_true, Option.getD_some, Option.getD_none]
    · intro id' hne
      simp only [mapIndex_mapAssign, if_neg hne]

/-- Claim C15: for an endpoint with a resolved address on the network `n`, a call
of `updateSvcRecord` with `isAdd = true` leaves the table of `n` mapping the
name of the endpoint and the qualified name `name.N` to the IP of the endpoint
and every other key as before; with `isAdd = false` it leaves both keys absent
and every other key as before; the tables of the other networks are untouched,
and the calls made are one `addHostsEntries`, respectively one
`deleteHostsEntries`, with the two records (short and qualified name, each with
the text of the IP) for each local endpoint that has a sandbox, in order.  For
an endpoint without a resolved address every key of every table reads as
before and no call is made. -/
theorem updateSvcRecord_records (E : Env) (w : World) (svcDb : List (String × svcMap))
    (n : network) (ep : endpoint) (localEps : List endpoint) :
    (∀ addr : IPNet, ep.iface.addr = some addr →
      ((∀ k, mapIndex ((mapIndex (n.updateSvcRecord E w svcDb ep localEps true).2 n.ID).getD []) k
            = if k = ep.name ∨ k = ep.name ++ "." ++ n.name then some addr.IP
              else mapIndex ((mapIndex svcDb n.ID).getD []) k) ∧
        (∀ id, id ≠ n.ID →
          mapIndex (n.updateSvcRecord E w svcDb ep localEps true).2 id = mapIndex svcDb id) ∧
        (n.updateSvcRecord E w svcDb ep localEps true).1.trace =
          w.trace ++ (localEps.filterMap (E.getSandbox w.trace)).map (fun sb =>
            Event.addHostsEntries sb
              [{ Hosts := ep.name, IP := E.IPString addr.IP },
               { Hosts := ep.name ++ "." ++ n.name, IP := E.IPString addr.IP }])) ∧
      ((∀ k, mapIndex ((mapIndex (n.updateSvcRecord E w svcDb ep localEps false).2 n.ID).getD []) k
            = if k = ep.name ∨ k = ep.name ++ "." ++ n.name then none
              else mapIndex ((mapIndex svcDb n.ID).getD []) k) ∧
        (∀ id, id ≠ n.ID →
          mapIndex (n.updateSvcRecord E w svcDb ep localEps false).2 id = mapIndex svcDb id) ∧
        (n.updateSvcRecord E w svcDb ep localEps false).1.trace =
          w.trace ++ (localEps.filterMap (E.getSandbox w.trace)).map (fun sb =>
            Event.deleteHostsEntries sb
              [{ Hosts := ep.name, IP := E.IPString addr.IP },
               { Hosts := ep.name ++ "." ++ n.name, IP := E.IPString addr.IP }]))) ∧
    (ep.iface.addr = none → ∀ isAdd : Bool,
      (∀ k, mapIndex ((mapIndex (n.updateSvcRecord E w svcDb ep localEps isAdd).2 n.ID).getD []) k
            = mapIndex ((mapIndex svcDb n.ID).getD []) k) ∧
      (∀ id, id ≠ n.ID →
        mapIndex (n.updateSvcRecord E w svcDb ep localEps isAdd).2 id = mapIndex svcDb id) ∧
      (n.updateSvcRecord E w svcDb ep localEps isAdd).1 = w) := by
  obtain ⟨hsr, hother⟩ := svcDb_ensured svcDb n.ID
  refine ⟨fun addr haddr => ⟨⟨?_, ?_, ?_⟩, ⟨?_, ?_, ?_⟩⟩, fun hnone isAdd => ⟨?_, ?_, ?_⟩⟩
  · intro k
    simp only [network.updateSvcRecord, haddr, if_true, List.length_cons, List.length_nil]
    simp only [Nat.reduceAdd, Nat.succ_ne_zero, OfNat.ofNat_ne_zero, if_false,
      mapIndex_mapAssign, if_true, Option.getD_some, hsr]
    by_cases h2 : ep.name ++ "." ++ n.name = k
    · simp [h2, eq_comm]
    · by_cases h1 : ep.name = k
      · simp [h1, eq_comm]
      · have h1' : ¬ k = ep.name := fun h => h1 h.symm
        have h2' : ¬ k = ep.name ++ "." ++ n.name := fun h => h2 h.symm
        simp [h1, h2, h1', h2']
  · intro id hne
    simp only [network.updateSvcRecord, haddr, if_true, List.length_cons, List.length_nil]
    simp only [Nat.reduceAdd, Nat.succ_ne_zero, OfNat.ofNat_ne_zero, if_false,
      mapIndex_mapAssign, if_neg (Ne.symm hne)]
    exact hother id (Ne.symm hne)
  · simp only [network.updateSvcRecord, haddr, if_true, List.length_cons, List.length_nil]
    simp only [Nat.reduceAdd, Nat.succ_ne_zero, OfNat.ofNat_ne_zero, if_false]
    rw [(push_trace _ _ _ _).1, sandboxes_foldl]
    simp
  · intro k
    simp only [network.updateSvcRecord, haddr, Bool.false_eq_true, if_false, List.length_cons,
      List.length_nil]
    simp only [Nat.reduceAdd, Nat.succ_ne_zero, OfNat.ofNat_ne_zero, if_false,
      mapIndex_mapAssign, if_true, Option.getD_some, hsr, mapIndex_mapDelete]
    by_cases h2 : ep.name ++ "." ++ n.name = k
    · simp [h2, eq_comm]
    · by_cases h1 : ep.name = k
      · simp [h1, eq_comm]
      · have h1' : ¬ k = ep.name := fun h => h1 h.symm
        have h2' : ¬ k = ep.name ++ "." ++ n.name := fun h => h2 h.symm
        simp [h1, h2, h1', h2']
  · intro id hne
    simp only [network.updateSvcRecord, haddr, Bool.false_eq_true, if_false, List.length_cons,
      List.length_nil]
    simp only [Nat.reduceAdd, Nat.succ_ne_zero, OfNat.ofNat_ne_zero, if_false,
      mapIndex_mapAssign, if_neg (Ne.symm hne)]
    exact hother id (Ne.symm hne)
  · simp only [network.updateSvcRecord, haddr, Bool.false_eq_true, if_false, List.length_cons,
      List.length_nil]
    simp only [Nat.reduceAdd, Nat.succ_ne_zero, OfNat.ofNat_ne_zero, if_false]
    rw [(push_trace _ _ _ _).1, sandboxes_foldl]
    simp
  · intro k
    simp only [network.updateSvcRecord, hnone, List.length_nil, if_true,
      mapIndex_mapAssign, Option.getD_some, hsr]
  · intro id hne
    simp only [network.updateSvcRecord, hnone, List.length_nil, if_true,
      mapIndex_mapAssign, if_neg (Ne.symm hne)]
    exact hother id (Ne.symm hne)
  · simp only [network.updateSvcRecord, hnone, List.length_nil, if_true]

/-- C15 on the endpoint `web` of the network `app` with the address `10.0.0.5`:
adding gives the table both names, and the sandbox `3` of the one local endpoint
that has one gets the two records; removing them from a table that also holds
`db` leaves `db` alone. -/
theorem updateSvcRecord_records_witness :
    webEndpoint.iface.addr = some { IP := [10, 0, 0, 5], Mask := [255, 255, 255, 0] } ∧
    mapIndex ((mapIndex (sampleNet.updateSvcRecord (Env.allOk sampleNet) World.init []
        webEndpoint localEndpoints true).2 "net-1").getD []) "web.app" = some [10, 0, 0, 5] ∧
    (sampleNet.updateSvcRecord (Env.allOk sampleNet) World.init [] webEndpoint localEndpoints
        true).1.trace =
      [.addHostsEntries 3
        [{ Hosts := "web", IP := "10.0.0.5" }, { Hosts := "web.app", IP := "10.0.0.5" }]] ∧
    mapIndex ((mapIndex (sampleNet.updateSvcRecord (Env.allOk sampleNet) World.init
        [("net-1", [("web", [10, 0, 0, 5]), ("db", [10, 0, 0, 9]), ("web.app", [10, 0, 0, 5])])]
        webEndpoint localEndpoints false).2 "net-1").getD []) "db" = some [10, 0, 0, 9] ∧
    mapIndex ((mapIndex (sampleNet.updateSvcRecord (Env.allOk sampleNet) World.init
        [("net-1", [("web", [10, 0, 0, 5]), ("db", [10, 0, 0, 9]), ("web.app", [10, 0, 0, 5])])]
        webEndpoint localEndpoints false).2 "net-1").getD []) "web" = none :=
  ⟨rfl,
    ((updateSvcRecord_records (Env.allOk sampleNet) World.init [] sampleNet webEndpoint
      localEndpoints).1 _ rfl).1.1 "web.app",
    ((updateSvcRecord_records (Env.allOk sampleNet) World.init [] sampleNet webEndpoint
      localEndpoints).1 _ rfl).1.2.2,
    ((updateSvcRecord_records (Env.allOk sampleNet) World.init
      [("net-1", [("web", [10, 0, 0, 5]), ("db", [10, 0, 0, 9]), ("web.app", [10, 0, 0, 5])])]
      sampleNet webEndpoint localEndpoints).1 _ rfl).2.1 "db",
    ((updateSvcRecord_records (Env.allOk sampleNet) World.init
      [("net-1", [("web", [10, 0, 0, 5]), ("db", [10, 0, 0, 9]), ("web.app", [10, 0, 0, 5])])]
      sampleNet webEndpoint localEndpoints).1 _ rfl).2.1 "web"⟩

end Libnetwork
